import Mathlib

/-!
# librocket: `rocket::RMatrix` (src/math/RMatrix.cpp)

A shallow embedding of the column-major 4x4 matrix type of librocket and of the
operations its specification talks about, followed by the theorems that settle
the specification's claims against that code.

Conventions of the embedding

* `float` is modelled by an arbitrary linearly ordered field `K`; every
  definition is computable and can be run over `ℚ`. The claims that the
  specification words in exact arithmetic are settled on definitions that
  compute exactly. Where a claim is about the values the code computes, the
  definitions take a rounding function `fl` that is applied to the exact result
  of every float operation (`determinantR`, `invertR`, `multiplyR`,
  `createRotationAxis`, `createPerspective`): `fl = id` is exact arithmetic and
  `fl = round32` is binary32 arithmetic as long as nothing overflows, underflows
  or is NaN.
* `float m[16]` is the structure `RMatrix K` with the sixteen fields
  `m0 … m15`; `RMatrix.get` reads the buffer at a linear index.
* A method that writes through `dst` returns the new value of `*dst`; a method
  that may leave `*dst` alone takes the old value of `*dst` as an argument.
* A nullable output pointer is an `Option`: `none` is `NULL`, `some v` is a
  pointer to an object whose current value is `v`.
* `sqrt` (libm) and the macro `MATH_TOLERANCE` (RMath.h / common.h) are not
  part of the translated file; they are parameters named `sqrt` and `tol`.
* Likewise `cos`, `sin`, `tan`, `fmod` (libm), `RVector3::normalize` and the
  macros `MATH_EPSILON`, `MATH_PIOVER2`, `MATH_DEG_TO_RAD` are parameters named
  `cos`, `sin`, `tan`, `fmod`, `normalize`, `eps`, `piOver2`, `degToRad`.
  Where a statement depends on the values of the macros, the parameters are
  instantiated by their customary values (`degToRadCustomary`,
  `piOver2Customary`, `epsCustomary`), and `fmod` by `fmodExact`.
-/

namespace rocket

/-! ## Collaborator value types (declared in headers outside RMatrix.cpp) -/

/-- Three floats `x, y, z` (the fields of `RVector3`). -/
@[ext] structure RVector3 (K : Type) where
  x : K
  y : K
  z : K
deriving DecidableEq

/-- Four floats `x, y, z, w` (the fields of `RQuaternion`). -/
@[ext] structure RQuaternion (K : Type) where
  x : K
  y : K
  z : K
  w : K
deriving DecidableEq

/-- The buffer `float m[16]` of an `RMatrix`, field `mi` being `m[i]`. -/
@[ext] structure RMatrix (K : Type) where
  m0 : K
  m1 : K
  m2 : K
  m3 : K
  m4 : K
  m5 : K
  m6 : K
  m7 : K
  m8 : K
  m9 : K
  m10 : K
  m11 : K
  m12 : K
  m13 : K
  m14 : K
  m15 : K
deriving DecidableEq

variable {K : Type} [LinearOrderedField K]

/-- The read `m[i]` of the buffer at linear index `i`. -/
def RMatrix.get (a : RMatrix K) (i : Fin 16) : K :=
  match i.val with
  | 0 => a.m0
  | 1 => a.m1
  | 2 => a.m2
  | 3 => a.m3
  | 4 => a.m4
  | 5 => a.m5
  | 6 => a.m6
  | 7 => a.m7
  | 8 => a.m8
  | 9 => a.m9
  | 10 => a.m10
  | 11 => a.m11
  | 12 => a.m12
  | 13 => a.m13
  | 14 => a.m14
  | _ => a.m15

/-- The element at `(row, col)` of the logical 4x4 matrix: with column-major
storage it is `m[col*4 + row]`. -/
def RMatrix.elem (a : RMatrix K) (row col : Fin 4) : K :=
  a.get ⟨col.val * 4 + row.val, by omega⟩

/-- The constant `static const float MATRIX_IDENTITY[16]` (lines 10-16). -/
def MATRIX_IDENTITY : RMatrix K :=
  { m0 := 1, m1 := 0, m2 := 0, m3 := 0,
    m4 := 0, m5 := 1, m6 := 0, m7 := 0,
    m8 := 0, m9 := 0, m10 := 1, m11 := 0,
    m12 := 0, m13 := 0, m14 := 0, m15 := 1 }

namespace RMatrix

/-- The method `RMatrix::set(float m11, ..., float m44)` (lines 803-822): all
sixteen elements of `this` are overwritten, so the result does not depend on
the previous value. -/
def set (m11 m12 m13 m14 m21 m22 m23 m24 m31 m32 m33 m34 m41 m42 m43 m44 : K) :
    RMatrix K :=
  { m0 := m11,
    m1 := m21,
    m2 := m31,
    m3 := m41,
    m4 := m12,
    m5 := m22,
    m6 := m32,
    m7 := m42,
    m8 := m13,
    m9 := m23,
    m10 := m33,
    m11 := m43,
    m12 := m14,
    m13 := m24,
    m14 := m34,
    m15 := m44 }

/-- The sixteen-scalar constructor `RMatrix::RMatrix(float m11, ..., float m44)`
(lines 23-27), which calls `set`. -/
def ctor (m11 m12 m13 m14 m21 m22 m23 m24 m31 m32 m33 m34 m41 m42 m43 m44 : K) :
    RMatrix K :=
  set m11 m12 m13 m14 m21 m22 m23 m24 m31 m32 m33 m34 m41 m42 m43 m44

/-- The named constant `RMatrix::identity()` (lines 43-51). -/
def identity : RMatrix K :=
  ctor
    1 0 0 0
    0 1 0 0
    0 0 1 0
    0 0 0 1

/-- The named constant `RMatrix::zero()` (lines 53-61). -/
def zero : RMatrix K :=
  ctor
    0 0 0 0
    0 0 0 0
    0 0 0 0
    0 0 0 0

/-- The default constructor `RMatrix::RMatrix()` (lines 18-21). -/
def default : RMatrix K := identity

/-- The method `RMatrix::setIdentity()` (lines 834-837). -/
def setIdentity : RMatrix K := MATRIX_IDENTITY

end RMatrix

/-! ## Float arithmetic with explicit rounding

A float operation returns the exact result of the operation rounded to the
format. The definitions below with a parameter `fl` apply `fl` to the exact
result of each operation, in the order in which the C expression is evaluated
(evaluation in `float` precision, no fused multiply-add); negation, comparison
and the literals `1.0f`, `0.5f`, `-2.0f` are exact. -/

/-- Rounding of a scalar to the nearest integer, a tie going to the even one. -/
def roundHalfEven [FloorRing K] (q : K) : ℤ :=
  if Int.fract q < 1 / 2 then ⌊q⌋
  else if 1 / 2 < Int.fract q then ⌊q⌋ + 1
  else if ⌊q⌋ % 2 = 0 then ⌊q⌋
  else ⌊q⌋ + 1

/-- Rounding to the nearest binary32 value, ties to even: a non-zero `x` with
`2^e ≤ |x| < 2^(e+1)` is rounded to the nearest multiple of `2^(e-23)` (24
significant bits). The exponent range is not bounded: overflow and subnormal
numbers are not modelled. -/
def round32 [FloorRing K] (x : K) : K :=
  if x = 0 then 0
  else (roundHalfEven (x / (2 : K) ^ (Int.log 2 |x| - 23)) : K) * (2 : K) ^ (Int.log 2 |x| - 23)

/-- The float sum `a + b`. -/
def fadd (fl : K → K) (a b : K) : K := fl (a + b)

/-- The float difference `a - b`. -/
def fsub (fl : K → K) (a b : K) : K := fl (a - b)

/-- The float product `a * b`. -/
def fmul (fl : K → K) (a b : K) : K := fl (a * b)

/-- The float quotient `a / b`. -/
def fdiv (fl : K → K) (a b : K) : K := fl (a / b)

/-! ## Helpers of `RMath` and `RVector3` (not in RMatrix.cpp) -/

namespace RMath

/-- Modelled from the spec: `RMath::multiplyMatrix(m1, m2, dst)` is missing from
the sources. Section 4.3: "standard matrix multiply ... equivalently the
stored-matrix product `A·B`", over column-major storage, so
`dst[c*4+r] = Σ k, m1[k*4+r] * m2[c*4+k]`. -/
def multiplyMatrix (m1 m2 : RMatrix K) : RMatrix K :=
  { m0 := m1.m0 * m2.m0 + m1.m4 * m2.m1 + m1.m8 * m2.m2 + m1.m12 * m2.m3,
    m1 := m1.m1 * m2.m0 + m1.m5 * m2.m1 + m1.m9 * m2.m2 + m1.m13 * m2.m3,
    m2 := m1.m2 * m2.m0 + m1.m6 * m2.m1 + m1.m10 * m2.m2 + m1.m14 * m2.m3,
    m3 := m1.m3 * m2.m0 + m1.m7 * m2.m1 + m1.m11 * m2.m2 + m1.m15 * m2.m3,
    m4 := m1.m0 * m2.m4 + m1.m4 * m2.m5 + m1.m8 * m2.m6 + m1.m12 * m2.m7,
    m5 := m1.m1 * m2.m4 + m1.m5 * m2.m5 + m1.m9 * m2.m6 + m1.m13 * m2.m7,
    m6 := m1.m2 * m2.m4 + m1.m6 * m2.m5 + m1.m10 * m2.m6 + m1.m14 * m2.m7,
    m7 := m1.m3 * m2.m4 + m1.m7 * m2.m5 + m1.m11 * m2.m6 + m1.m15 * m2.m7,
    m8 := m1.m0 * m2.m8 + m1.m4 * m2.m9 + m1.m8 * m2.m10 + m1.m12 * m2.m11,
    m9 := m1.m1 * m2.m8 + m1.m5 * m2.m9 + m1.m9 * m2.m10 + m1.m13 * m2.m11,
    m10 := m1.m2 * m2.m8 + m1.m6 * m2.m9 + m1.m10 * m2.m10 + m1.m14 * m2.m11,
    m11 := m1.m3 * m2.m8 + m1.m7 * m2.m9 + m1.m11 * m2.m10 + m1.m15 * m2.m11,
    m12 := m1.m0 * m2.m12 + m1.m4 * m2.m13 + m1.m8 * m2.m14 + m1.m12 * m2.m15,
    m13 := m1.m1 * m2.m12 + m1.m5 * m2.m13 + m1.m9 * m2.m14 + m1.m13 * m2.m15,
    m14 := m1.m2 * m2.m12 + m1.m6 * m2.m13 + m1.m10 * m2.m14 + m1.m14 * m2.m15,
    m15 := m1.m3 * m2.m12 + m1.m7 * m2.m13 + m1.m11 * m2.m14 + m1.m15 * m2.m15 }

/-- Modelled from the spec: `RMath::multiplyMatrix(m, scalar, dst)` is missing
from the sources. Section 4.3: the scalar form is "elementwise over the
16-float buffer". -/
def multiplyMatrixScalar (m : RMatrix K) (scalar : K) : RMatrix K :=
  { m0 := m.m0 * scalar, m1 := m.m1 * scalar, m2 := m.m2 * scalar, m3 := m.m3 * scalar,
    m4 := m.m4 * scalar, m5 := m.m5 * scalar, m6 := m.m6 * scalar, m7 := m.m7 * scalar,
    m8 := m.m8 * scalar, m9 := m.m9 * scalar, m10 := m.m10 * scalar, m11 := m.m11 * scalar,
    m12 := m.m12 * scalar, m13 := m.m13 * scalar, m14 := m.m14 * scalar,
    m15 := m.m15 * scalar }

/-- Modelled from the spec: `RMath::transformVector4(m, x, y, z, w, dst)` is
missing from the sources. Section 4.4: a "full 4×4 × 4×1 multiply, writing back
only the first 3 resulting components", the matrix being "applied to column
vectors on the right via `M·v`". -/
def transformVector4 (m : RMatrix K) (x y z w : K) : RVector3 K :=
  { x := x * m.m0 + y * m.m4 + z * m.m8 + w * m.m12,
    y := x * m.m1 + y * m.m5 + z * m.m9 + w * m.m13,
    z := x * m.m2 + y * m.m6 + z * m.m10 + w * m.m14 }

/-- Modelled from the spec: `RMath::multiplyMatrix(m1, m2, dst)` (missing from the
sources) with the rounding of every float operation made explicit, the four
products of an element summed from left to right; `multiplyMatrix` is the case
`fl = id`. -/
def multiplyMatrixR (fl : K → K) (m1 m2 : RMatrix K) : RMatrix K :=
  { m0 :=
      fadd fl (fadd fl (fadd fl (fmul fl m1.m0 m2.m0) (fmul fl m1.m4 m2.m1)) (fmul fl m1.m8 m2.m2)) (fmul fl m1.m12 m2.m3),
    m1 :=
      fadd fl (fadd fl (fadd fl (fmul fl m1.m1 m2.m0) (fmul fl m1.m5 m2.m1)) (fmul fl m1.m9 m2.m2)) (fmul fl m1.m13 m2.m3),
    m2 :=
      fadd fl (fadd fl (fadd fl (fmul fl m1.m2 m2.m0) (fmul fl m1.m6 m2.m1)) (fmul fl m1.m10 m2.m2)) (fmul fl m1.m14 m2.m3),
    m3 :=
      fadd fl (fadd fl (fadd fl (fmul fl m1.m3 m2.m0) (fmul fl m1.m7 m2.m1)) (fmul fl m1.m11 m2.m2)) (fmul fl m1.m15 m2.m3),
    m4 :=
      fadd fl (fadd fl (fadd fl (fmul fl m1.m0 m2.m4) (fmul fl m1.m4 m2.m5)) (fmul fl m1.m8 m2.m6)) (fmul fl m1.m12 m2.m7),
    m5 :=
      fadd fl (fadd fl (fadd fl (fmul fl m1.m1 m2.m4) (fmul fl m1.m5 m2.m5)) (fmul fl m1.m9 m2.m6)) (fmul fl m1.m13 m2.m7),
    m6 :=
      fadd fl (fadd fl (fadd fl (fmul fl m1.m2 m2.m4) (fmul fl m1.m6 m2.m5)) (fmul fl m1.m10 m2.m6)) (fmul fl m1.m14 m2.m7),
    m7 :=
      fadd fl (fadd fl (fadd fl (fmul fl m1.m3 m2.m4) (fmul fl m1.m7 m2.m5)) (fmul fl m1.m11 m2.m6)) (fmul fl m1.m15 m2.m7),
    m8 :=
      fadd fl (fadd fl (fadd fl (fmul fl m1.m0 m2.m8) (fmul fl m1.m4 m2.m9)) (fmul fl m1.m8 m2.m10)) (fmul fl m1.m12 m2.m11),
    m9 :=
      fadd fl (fadd fl (fadd fl (fmul fl m1.m1 m2.m8) (fmul fl m1.m5 m2.m9)) (fmul fl m1.m9 m2.m10)) (fmul fl m1.m13 m2.m11),
    m10 :=
      fadd fl (fadd fl (fadd fl (fmul fl m1.m2 m2.m8) (fmul fl m1.m6 m2.m9)) (fmul fl m1.m10 m2.m10)) (fmul fl m1.m14 m2.m11),
    m11 :=
      fadd fl (fadd fl (fadd fl (fmul fl m1.m3 m2.m8) (fmul fl m1.m7 m2.m9)) (fmul fl m1.m11 m2.m10)) (fmul fl m1.m15 m2.m11),
    m12 :=
      fadd fl (fadd fl (fadd fl (fmul fl m1.m0 m2.m12) (fmul fl m1.m4 m2.m13)) (fmul fl m1.m8 m2.m14)) (fmul fl m1.m12 m2.m15),
    m13 :=
      fadd fl (fadd fl (fadd fl (fmul fl m1.m1 m2.m12) (fmul fl m1.m5 m2.m13)) (fmul fl m1.m9 m2.m14)) (fmul fl m1.m13 m2.m15),
    m14 :=
      fadd fl (fadd fl (fadd fl (fmul fl m1.m2 m2.m12) (fmul fl m1.m6 m2.m13)) (fmul fl m1.m10 m2.m14)) (fmul fl m1.m14 m2.m15),
    m15 :=
      fadd fl (fadd fl (fadd fl (fmul fl m1.m3 m2.m12) (fmul fl m1.m7 m2.m13)) (fmul fl m1.m11 m2.m14)) (fmul fl m1.m15 m2.m15) }

/-- Modelled from the spec: `RMath::multiplyMatrix(m, scalar, dst)` (missing from
the sources) with the rounding of every float operation made explicit. -/
def multiplyMatrixScalarR (fl : K → K) (m : RMatrix K) (scalar : K) : RMatrix K :=
  { m0 := fmul fl m.m0 scalar,
    m1 := fmul fl m.m1 scalar,
    m2 := fmul fl m.m2 scalar,
    m3 := fmul fl m.m3 scalar,
    m4 := fmul fl m.m4 scalar,
    m5 := fmul fl m.m5 scalar,
    m6 := fmul fl m.m6 scalar,
    m7 := fmul fl m.m7 scalar,
    m8 := fmul fl m.m8 scalar,
    m9 := fmul fl m.m9 scalar,
    m10 := fmul fl m.m10 scalar,
    m11 := fmul fl m.m11 scalar,
    m12 := fmul fl m.m12 scalar,
    m13 := fmul fl m.m13 scalar,
    m14 := fmul fl m.m14 scalar,
    m15 := fmul fl m.m15 scalar }

end RMath

/-- Modelled from the spec: `RVector3::length()` is missing from the sources.
Section 4.6 calls it "the Euclidean length" of the 3-vector; `sqrt` is the
square root of the platform. -/
def RVector3.length (sqrt : K → K) (v : RVector3 K) : K :=
  sqrt (v.x * v.x + v.y * v.y + v.z * v.z)

namespace RMatrix

/-- The static method `RMatrix::multiply(m1, m2, dst)` (lines 696-699). -/
def multiply (m1 m2 : RMatrix K) : RMatrix K :=
  RMath.multiplyMatrix m1 m2

/-- The static method `RMatrix::multiply(m, scalar, dst)` (lines 686-689). -/
def multiplyScalar (m : RMatrix K) (scalar : K) : RMatrix K :=
  RMath.multiplyMatrixScalar m scalar

/-- The static method `RMatrix::multiply(m1, m2, dst)` (lines 696-699), every float
operation rounded by `fl`. -/
def multiplyR (fl : K → K) (m1 m2 : RMatrix K) : RMatrix K :=
  RMath.multiplyMatrixR fl m1 m2

/-- The static method `RMatrix::multiply(m, scalar, dst)` (lines 686-689), every
float operation rounded by `fl`. -/
def multiplyScalarR (fl : K → K) (m : RMatrix K) (scalar : K) : RMatrix K :=
  RMath.multiplyMatrixScalarR fl m scalar

end RMatrix

namespace RMatrix

/-- The static method `RMatrix::createScale(const RVector3& scale, dst)`
(lines 222-230). -/
def createScale (scale : RVector3 K) : RMatrix K :=
  { (MATRIX_IDENTITY : RMatrix K) with
    m0 := scale.x,
    m5 := scale.y,
    m10 := scale.z }

/-- The static method `RMatrix::createScale(xScale, yScale, zScale, dst)`
(lines 232-240). -/
def createScaleXYZ (xScale yScale zScale : K) : RMatrix K :=
  { (MATRIX_IDENTITY : RMatrix K) with
    m0 := xScale,
    m5 := yScale,
    m10 := zScale }

/-- The static method `RMatrix::createRotation(const RQuaternion& q, dst)`
(lines 243-279). -/
def createRotation (q : RQuaternion K) : RMatrix K :=
  let x2 := q.x + q.x
  let y2 := q.y + q.y
  let z2 := q.z + q.z
  let xx2 := q.x * x2
  let yy2 := q.y * y2
  let zz2 := q.z * z2
  let xy2 := q.x * y2
  let xz2 := q.x * z2
  let yz2 := q.y * z2
  let wx2 := q.w * x2
  let wy2 := q.w * y2
  let wz2 := q.w * z2
  { m0 := 1 - yy2 - zz2,
    m1 := xy2 + wz2,
    m2 := xz2 - wy2,
    m3 := 0,
    m4 := xy2 - wz2,
    m5 := 1 - xx2 - zz2,
    m6 := yz2 + wx2,
    m7 := 0,
    m8 := xz2 + wy2,
    m9 := yz2 - wx2,
    m10 := 1 - xx2 - yy2,
    m11 := 0,
    m12 := 0,
    m13 := 0,
    m14 := 0,
    m15 := 1 }

/-- The static method `RMatrix::createTranslation(const RVector3& translation, dst)`
(lines 391-399). -/
def createTranslation (translation : RVector3 K) : RMatrix K :=
  { (MATRIX_IDENTITY : RMatrix K) with
    m12 := translation.x,
    m13 := translation.y,
    m14 := translation.z }

/-- The static method `RMatrix::createTranslation(xTranslation, yTranslation,
zTranslation, dst)` (lines 401-409). -/
def createTranslationXYZ (xTranslation yTranslation zTranslation : K) : RMatrix K :=
  { (MATRIX_IDENTITY : RMatrix K) with
    m12 := xTranslation,
    m13 := yTranslation,
    m14 := zTranslation }

/-- The method `RMatrix::determinant()` (lines 541-558). -/
def determinant (m : RMatrix K) : K :=
  let a0 := m.m0 * m.m5 - m.m1 * m.m4
  let a1 := m.m0 * m.m6 - m.m2 * m.m4
  let a2 := m.m0 * m.m7 - m.m3 * m.m4
  let a3 := m.m1 * m.m6 - m.m2 * m.m5
  let a4 := m.m1 * m.m7 - m.m3 * m.m5
  let a5 := m.m2 * m.m7 - m.m3 * m.m6
  let b0 := m.m8 * m.m13 - m.m9 * m.m12
  let b1 := m.m8 * m.m14 - m.m10 * m.m12
  let b2 := m.m8 * m.m15 - m.m11 * m.m12
  let b3 := m.m9 * m.m14 - m.m10 * m.m13
  let b4 := m.m9 * m.m15 - m.m11 * m.m13
  let b5 := m.m10 * m.m15 - m.m11 * m.m14
  a0 * b5 - a1 * b4 + a2 * b3 + a3 * b2 - a4 * b1 + a5 * b0

/-- The method `bool RMatrix::invert(RMatrix* dst) const` (lines 622-669).
`tol` is `MATH_TOLERANCE`, `dst` the value of `*dst` before the call; the
result is the returned boolean and the value of `*dst` after the call. -/
def invert (tol : K) (m dst : RMatrix K) : Bool × RMatrix K :=
  let a0 := m.m0 * m.m5 - m.m1 * m.m4
  let a1 := m.m0 * m.m6 - m.m2 * m.m4
  let a2 := m.m0 * m.m7 - m.m3 * m.m4
  let a3 := m.m1 * m.m6 - m.m2 * m.m5
  let a4 := m.m1 * m.m7 - m.m3 * m.m5
  let a5 := m.m2 * m.m7 - m.m3 * m.m6
  let b0 := m.m8 * m.m13 - m.m9 * m.m12
  let b1 := m.m8 * m.m14 - m.m10 * m.m12
  let b2 := m.m8 * m.m15 - m.m11 * m.m12
  let b3 := m.m9 * m.m14 - m.m10 * m.m13
  let b4 := m.m9 * m.m15 - m.m11 * m.m13
  let b5 := m.m10 * m.m15 - m.m11 * m.m14
  let det := a0 * b5 - a1 * b4 + a2 * b3 + a3 * b2 - a4 * b1 + a5 * b0
  if |det| ≤ tol then
    (false, dst)
  else
    let inverse : RMatrix K :=
      { (RMatrix.default : RMatrix K) with
        m0 := m.m5 * b5 - m.m6 * b4 + m.m7 * b3,
        m1 := -m.m1 * b5 + m.m2 * b4 - m.m3 * b3,
        m2 := m.m13 * a5 - m.m14 * a4 + m.m15 * a3,
        m3 := -m.m9 * a5 + m.m10 * a4 - m.m11 * a3,
        m4 := -m.m4 * b5 + m.m6 * b2 - m.m7 * b1,
        m5 := m.m0 * b5 - m.m2 * b2 + m.m3 * b1,
        m6 := -m.m12 * a5 + m.m14 * a2 - m.m15 * a1,
        m7 := m.m8 * a5 - m.m10 * a2 + m.m11 * a1,
        m8 := m.m4 * b4 - m.m5 * b2 + m.m7 * b0,
        m9 := -m.m0 * b4 + m.m1 * b2 - m.m3 * b0,
        m10 := m.m12 * a4 - m.m13 * a2 + m.m15 * a0,
        m11 := -m.m8 * a4 + m.m9 * a2 - m.m11 * a0,
        m12 := -m.m4 * b3 + m.m5 * b1 - m.m6 * b0,
        m13 := m.m0 * b3 - m.m1 * b1 + m.m2 * b0,
        m14 := -m.m12 * a3 + m.m13 * a1 - m.m14 * a0,
        m15 := m.m8 * a3 - m.m9 * a1 + m.m10 * a0 }
    (true, multiplyScalar inverse (1 / det))

/-- The method `RMatrix::determinant()` (lines 541-558) with the rounding of every
float operation made explicit; `determinant` is the case `fl = id`. -/
def determinantR (fl : K → K) (m : RMatrix K) : K :=
  let a0 := fsub fl (fmul fl m.m0 m.m5) (fmul fl m.m1 m.m4)
  let a1 := fsub fl (fmul fl m.m0 m.m6) (fmul fl m.m2 m.m4)
  let a2 := fsub fl (fmul fl m.m0 m.m7) (fmul fl m.m3 m.m4)
  let a3 := fsub fl (fmul fl m.m1 m.m6) (fmul fl m.m2 m.m5)
  let a4 := fsub fl (fmul fl m.m1 m.m7) (fmul fl m.m3 m.m5)
  let a5 := fsub fl (fmul fl m.m2 m.m7) (fmul fl m.m3 m.m6)
  let b0 := fsub fl (fmul fl m.m8 m.m13) (fmul fl m.m9 m.m12)
  let b1 := fsub fl (fmul fl m.m8 m.m14) (fmul fl m.m10 m.m12)
  let b2 := fsub fl (fmul fl m.m8 m.m15) (fmul fl m.m11 m.m12)
  let b3 := fsub fl (fmul fl m.m9 m.m14) (fmul fl m.m10 m.m13)
  let b4 := fsub fl (fmul fl m.m9 m.m15) (fmul fl m.m11 m.m13)
  let b5 := fsub fl (fmul fl m.m10 m.m15) (fmul fl m.m11 m.m14)
  fadd fl (fsub fl (fadd fl (fadd fl (fsub fl (fmul fl a0 b5) (fmul fl a1 b4))
    (fmul fl a2 b3)) (fmul fl a3 b2)) (fmul fl a4 b1)) (fmul fl a5 b0)

/-- The method `bool RMatrix::invert(RMatrix* dst) const` (lines 622-669) with the
rounding of every float operation made explicit; `invert` is the case `fl = id`.
`tol` is `MATH_TOLERANCE`, `dst` the value of `*dst` before the call. -/
def invertR (fl : K → K) (tol : K) (m dst : RMatrix K) : Bool × RMatrix K :=
  let a0 := fsub fl (fmul fl m.m0 m.m5) (fmul fl m.m1 m.m4)
  let a1 := fsub fl (fmul fl m.m0 m.m6) (fmul fl m.m2 m.m4)
  let a2 := fsub fl (fmul fl m.m0 m.m7) (fmul fl m.m3 m.m4)
  let a3 := fsub fl (fmul fl m.m1 m.m6) (fmul fl m.m2 m.m5)
  let a4 := fsub fl (fmul fl m.m1 m.m7) (fmul fl m.m3 m.m5)
  let a5 := fsub fl (fmul fl m.m2 m.m7) (fmul fl m.m3 m.m6)
  let b0 := fsub fl (fmul fl m.m8 m.m13) (fmul fl m.m9 m.m12)
  let b1 := fsub fl (fmul fl m.m8 m.m14) (fmul fl m.m10 m.m12)
  let b2 := fsub fl (fmul fl m.m8 m.m15) (fmul fl m.m11 m.m12)
  let b3 := fsub fl (fmul fl m.m9 m.m14) (fmul fl m.m10 m.m13)
  let b4 := fsub fl (fmul fl m.m9 m.m15) (fmul fl m.m11 m.m13)
  let b5 := fsub fl (fmul fl m.m10 m.m15) (fmul fl m.m11 m.m14)
  let det := fadd fl (fsub fl (fadd fl (fadd fl (fsub fl (fmul fl a0 b5) (fmul fl a1 b4))
      (fmul fl a2 b3)) (fmul fl a3 b2)) (fmul fl a4 b1)) (fmul fl a5 b0)
  if |det| ≤ tol then
    (false, dst)
  else
    let inverse : RMatrix K :=
      { (RMatrix.default : RMatrix K) with
        m0 := fadd fl (fsub fl (fmul fl m.m5 b5) (fmul fl m.m6 b4)) (fmul fl m.m7 b3),
        m1 := fsub fl (fadd fl (fmul fl (-m.m1) b5) (fmul fl m.m2 b4)) (fmul fl m.m3 b3),
        m2 := fadd fl (fsub fl (fmul fl m.m13 a5) (fmul fl m.m14 a4)) (fmul fl m.m15 a3),
        m3 := fsub fl (fadd fl (fmul fl (-m.m9) a5) (fmul fl m.m10 a4)) (fmul fl m.m11 a3),
        m4 := fsub fl (fadd fl (fmul fl (-m.m4) b5) (fmul fl m.m6 b2)) (fmul fl m.m7 b1),
        m5 := fadd fl (fsub fl (fmul fl m.m0 b5) (fmul fl m.m2 b2)) (fmul fl m.m3 b1),
        m6 := fsub fl (fadd fl (fmul fl (-m.m12) a5) (fmul fl m.m14 a2)) (fmul fl m.m15 a1),
        m7 := fadd fl (fsub fl (fmul fl m.m8 a5) (fmul fl m.m10 a2)) (fmul fl m.m11 a1),
        m8 := fadd fl (fsub fl (fmul fl m.m4 b4) (fmul fl m.m5 b2)) (fmul fl m.m7 b0),
        m9 := fsub fl (fadd fl (fmul fl (-m.m0) b4) (fmul fl m.m1 b2)) (fmul fl m.m3 b0),
        m10 := fadd fl (fsub fl (fmul fl m.m12 a4) (fmul fl m.m13 a2)) (fmul fl m.m15 a0),
        m11 := fsub fl (fadd fl (fmul fl (-m.m8) a4) (fmul fl m.m9 a2)) (fmul fl m.m11 a0),
        m12 := fsub fl (fadd fl (fmul fl (-m.m4) b3) (fmul fl m.m5 b1)) (fmul fl m.m6 b0),
        m13 := fadd fl (fsub fl (fmul fl m.m0 b3) (fmul fl m.m1 b1)) (fmul fl m.m2 b0),
        m14 := fsub fl (fadd fl (fmul fl (-m.m12) a3) (fmul fl m.m13 a1)) (fmul fl m.m14 a0),
        m15 := fadd fl (fsub fl (fmul fl m.m8 a3) (fmul fl m.m9 a1)) (fmul fl m.m10 a0) }
    (true, multiplyScalarR fl inverse (fdiv fl 1 det))

/-- The method `RMatrix::rotate(const RQuaternion& q, RMatrix* dst) const`
(lines 716-721); `rotate(q)` (lines 711-714) is the same with `dst = this`. -/
def rotate (this : RMatrix K) (q : RQuaternion K) : RMatrix K :=
  let r := createRotation q
  multiply this r

/-- The method `RMatrix::scale(xScale, yScale, zScale, RMatrix* dst) const`
(lines 786-791). -/
def scaleXYZ (this : RMatrix K) (xScale yScale zScale : K) : RMatrix K :=
  let s := createScaleXYZ xScale yScale zScale
  multiply this s

/-- The method `RMatrix::scale(const RVector3& s)` (lines 793-796). -/
def scale (this : RMatrix K) (s : RVector3 K) : RMatrix K :=
  scaleXYZ this s.x s.y s.z

/-- The method `RMatrix::translate(x, y, z, RMatrix* dst) const`
(lines 894-899). -/
def translateXYZ (this : RMatrix K) (x y z : K) : RMatrix K :=
  let t := createTranslationXYZ x y z
  multiply this t

/-- The method `RMatrix::translate(const RVector3& t)` (lines 901-904). -/
def translate (this : RMatrix K) (t : RVector3 K) : RMatrix K :=
  translateXYZ this t.x t.y t.z

/-- The method `RMatrix::transformVector(x, y, z, w, RVector3* dst) const`
(lines 874-877). -/
def transformVectorXYZW (m : RMatrix K) (x y z w : K) : RVector3 K :=
  RMath.transformVector4 m x y z w

/-- The method `RMatrix::transformPoint(const RVector3& point, RVector3* dst) const`
(lines 859-862). -/
def transformPoint (m : RMatrix K) (point : RVector3 K) : RVector3 K :=
  transformVectorXYZW m point.x point.y point.z 1

/-- The method `RMatrix::transformVector(const RVector3& vector, RVector3* dst) const`
(lines 869-872). -/
def transformVector (m : RMatrix K) (vector : RVector3 K) : RVector3 K :=
  transformVectorXYZW m vector.x vector.y vector.z 0

end RMatrix

/-! ## decompose -/

/-- The state `decompose` leaves behind: the returned boolean and the values of
the three output objects (`none` for an output passed as `NULL`). -/
structure DecomposeResult (K : Type) where
  ret : Bool
  scale : Option (RVector3 K)
  rotation : Option (RQuaternion K)
  translation : Option (RVector3 K)
deriving DecidableEq

namespace RMatrix

/-- The last part of `RMatrix::decompose` (lines 497-536): the quaternion
written through `rotation` from the three axes once the scale has been factored
out of them. `0.5f` and `0.25f` are `1 / 2` and `1 / 4`. -/
def decomposeRotation (sqrt : K → K) (xaxis yaxis zaxis : RVector3 K) : RQuaternion K :=
  let trace := xaxis.x + yaxis.y + zaxis.z + 1
  if trace > 1 then
    let s := (1 / 2) / sqrt trace
    { w := (1 / 4) / s,
      x := (yaxis.z - zaxis.y) * s,
      y := (zaxis.x - xaxis.z) * s,
      z := (xaxis.y - yaxis.x) * s }
  else
    if xaxis.x > yaxis.y ∧ xaxis.x > zaxis.z then
      let s := (1 / 2) / sqrt (1 + xaxis.x - yaxis.y - zaxis.z)
      { w := (yaxis.z - zaxis.y) * s,
        x := (1 / 4) / s,
        y := (yaxis.x + xaxis.y) * s,
        z := (zaxis.x + xaxis.z) * s }
    else if yaxis.y > zaxis.z then
      let s := (1 / 2) / sqrt (1 + yaxis.y - xaxis.x - zaxis.z)
      { w := (zaxis.x - xaxis.z) * s,
        x := (yaxis.x + xaxis.y) * s,
        y := (1 / 4) / s,
        z := (zaxis.y + yaxis.z) * s }
    else
      let s := (1 / 2) / sqrt (1 + zaxis.z - xaxis.x - yaxis.y)
      { w := (xaxis.y - yaxis.x) * s,
        x := (zaxis.x + xaxis.z) * s,
        y := (zaxis.y + yaxis.z) * s,
        z := (1 / 4) / s }

/-- The method `bool RMatrix::decompose(RVector3* scale, RQuaternion* rotation,
RVector3* translation) const` (lines 433-539). `sqrt` is the square root used
by `RVector3::length` and by the quaternion extraction, `tol` is
`MATH_TOLERANCE`; the three `Option` arguments are the output pointers with the
values their targets hold before the call. -/
def decompose (sqrt : K → K) (tol : K) (m : RMatrix K) (scale : Option (RVector3 K))
    (rotation : Option (RQuaternion K)) (translation : Option (RVector3 K)) :
    DecomposeResult K :=
  -- Extract the translation.
  let translation : Option (RVector3 K) :=
    translation.map (fun _ => { x := m.m12, y := m.m13, z := m.m14 })
  -- Nothing left to do.
  if scale.isNone ∧ rotation.isNone then
    { ret := true, scale := scale, rotation := rotation, translation := translation }
  else
    -- Extract the scale.
    let xaxis : RVector3 K := { x := m.m0, y := m.m1, z := m.m2 }
    let scaleX := xaxis.length sqrt
    let yaxis : RVector3 K := { x := m.m4, y := m.m5, z := m.m6 }
    let scaleY := yaxis.length sqrt
    let zaxis : RVector3 K := { x := m.m8, y := m.m9, z := m.m10 }
    let scaleZ := zaxis.length sqrt
    -- Negative scale: negate a single axis.
    let det := m.determinant
    let scaleZ := if det < 0 then -scaleZ else scaleZ
    let scale : Option (RVector3 K) :=
      scale.map (fun _ => { x := scaleX, y := scaleY, z := scaleZ })
    match rotation with
    | none =>
      -- Nothing left to do.
      { ret := true, scale := scale, rotation := none, translation := translation }
    | some q =>
      -- Scale too close to zero, can't decompose rotation.
      if scaleX < tol ∨ scaleY < tol ∨ |scaleZ| < tol then
        { ret := false, scale := scale, rotation := some q, translation := translation }
      else
        -- Factor the scale out of the matrix axes.
        let rn := 1 / scaleX
        let xaxis : RVector3 K := { x := xaxis.x * rn, y := xaxis.y * rn, z := xaxis.z * rn }
        let rn := 1 / scaleY
        let yaxis : RVector3 K := { x := yaxis.x * rn, y := yaxis.y * rn, z := yaxis.z * rn }
        let rn := 1 / scaleZ
        let zaxis : RVector3 K := { x := zaxis.x * rn, y := zaxis.y * rn, z := zaxis.z * rn }
        -- Now calculate the rotation from the resulting matrix (axes).
        { ret := true, scale := scale,
          rotation := some (decomposeRotation sqrt xaxis yaxis zaxis),
          translation := translation }

end RMatrix

/-! ## Vector and plane collaborators used by the factories -/

/-- The fields behind `RPlane::getNormal()` and `RPlane::getDistance()`. -/
@[ext] structure RPlane (K : Type) where
  normal : RVector3 K
  distance : K
deriving DecidableEq

namespace RVector3

/-- Modelled from the spec: the two-point constructor `RVector3(p1, p2)` is
missing from the sources. Section 4.2 uses it for "the distance between object
and camera": the vector from `p1` to `p2`. -/
def fromPoints (p1 p2 : RVector3 K) : RVector3 K :=
  { x := p2.x - p1.x, y := p2.y - p1.y, z := p2.z - p1.z }

/-- Modelled from the spec: `RVector3::lengthSquared()` is missing from the
sources; section 6 lists it next to `length()`, of which it is the square. -/
def lengthSquared (v : RVector3 K) : K :=
  v.x * v.x + v.y * v.y + v.z * v.z

/-- Modelled from the spec: `RVector3::subtract(v1, v2, dst)` and the binary `-`
are missing from the sources; section 1 calls them "standard vector-algebra
operations". -/
def subtract (v1 v2 : RVector3 K) : RVector3 K :=
  { x := v1.x - v2.x, y := v1.y - v2.y, z := v1.z - v2.z }

/-- Modelled from the spec: `RVector3::cross(v1, v2, dst)` is missing from the
sources; section 1 calls it a "standard vector-algebra" operation. -/
def cross (v1 v2 : RVector3 K) : RVector3 K :=
  { x := v1.y * v2.z - v1.z * v2.y,
    y := v1.z * v2.x - v1.x * v2.z,
    z := v1.x * v2.y - v1.y * v2.x }

/-- Modelled from the spec: `RVector3::dot(v1, v2)` is missing from the sources;
section 1 calls it a "standard vector-algebra" operation. -/
def dot (v1 v2 : RVector3 K) : K :=
  v1.x * v2.x + v1.y * v2.y + v1.z * v2.z

end RVector3

/-! ## The remaining factories -/

namespace RMatrix

/-- The static method `RMatrix::createLookAt(eyePositionX, ..., upZ, dst)`
(lines 69-110); the overload on three vectors (lines 63-67) forwards to it.
`normalize` is `RVector3::normalize()`. -/
def createLookAt (normalize : RVector3 K → RVector3 K)
    (eyePosition targetPosition up : RVector3 K) : RMatrix K :=
  let eye : RVector3 K := { x := eyePosition.x, y := eyePosition.y, z := eyePosition.z }
  let target : RVector3 K :=
    { x := targetPosition.x, y := targetPosition.y, z := targetPosition.z }
  let up : RVector3 K := { x := up.x, y := up.y, z := up.z }
  let up := normalize up
  let zaxis := RVector3.subtract eye target
  let zaxis := normalize zaxis
  let xaxis := RVector3.cross up zaxis
  let xaxis := normalize xaxis
  let yaxis := RVector3.cross zaxis xaxis
  let yaxis := normalize yaxis
  { m0 := xaxis.x,
    m1 := yaxis.x,
    m2 := zaxis.x,
    m3 := 0,
    m4 := xaxis.y,
    m5 := yaxis.y,
    m6 := zaxis.y,
    m7 := 0,
    m8 := xaxis.z,
    m9 := yaxis.z,
    m10 := zaxis.z,
    m11 := 0,
    m12 := -RVector3.dot xaxis eye,
    m13 := -RVector3.dot yaxis eye,
    m14 := -RVector3.dot zaxis eye,
    m15 := 1 }

/-- The static method `RMatrix::createBillboardHelper` (lines 170-201). `eps` is
`MATH_EPSILON`; `cameraForwardVector` is `none` for a `NULL` pointer. -/
def createBillboardHelper (normalize : RVector3 K → RVector3 K) (eps : K)
    (objectPosition cameraPosition cameraUpVector : RVector3 K)
    (cameraForwardVector : Option (RVector3 K)) : RMatrix K :=
  let delta := RVector3.fromPoints objectPosition cameraPosition
  let isSufficientDelta : Bool := decide (delta.lengthSquared > eps)
  let dst : RMatrix K :=
    { (setIdentity : RMatrix K) with
      m3 := objectPosition.x,
      m7 := objectPosition.y,
      m11 := objectPosition.z }
  if cameraForwardVector.isSome ∨ isSufficientDelta = true then
    let target : RVector3 K :=
      if isSufficientDelta = true then cameraPosition
      else
        match cameraForwardVector with
        | some forward => RVector3.subtract objectPosition forward
        | none => cameraPosition -- not reached: the enclosing test has failed
    -- A billboard is the inverse of a lookAt rotation
    let lookAt := createLookAt normalize objectPosition target cameraUpVector
    { dst with
      m0 := lookAt.m0,
      m1 := lookAt.m4,
      m2 := lookAt.m8,
      m4 := lookAt.m1,
      m5 := lookAt.m5,
      m6 := lookAt.m9,
      m8 := lookAt.m2,
      m9 := lookAt.m6,
      m10 := lookAt.m10 }
  else dst

/-- The static method `RMatrix::createBillboard(objectPosition, cameraPosition,
cameraUpVector, dst)` (lines 157-161). -/
def createBillboard (normalize : RVector3 K → RVector3 K) (eps : K)
    (objectPosition cameraPosition cameraUpVector : RVector3 K) : RMatrix K :=
  createBillboardHelper normalize eps objectPosition cameraPosition cameraUpVector none

/-- The static method `RMatrix::createBillboard(objectPosition, cameraPosition,
cameraUpVector, cameraForwardVector, dst)` (lines 163-168). -/
def createBillboardForward (normalize : RVector3 K → RVector3 K) (eps : K)
    (objectPosition cameraPosition cameraUpVector cameraForwardVector : RVector3 K) :
    RMatrix K :=
  createBillboardHelper normalize eps objectPosition cameraPosition cameraUpVector
    (some cameraForwardVector)

/-- The static method `RMatrix::createReflection(plane, dst)` (lines 203-220). -/
def createReflection (plane : RPlane K) : RMatrix K :=
  let normal := plane.normal
  let k := -2 * plane.distance
  let dst : RMatrix K := setIdentity
  let dst := { dst with m0 := dst.m0 - 2 * normal.x * normal.x }
  let dst := { dst with m5 := dst.m5 - 2 * normal.y * normal.y }
  let dst := { dst with m10 := dst.m10 - 2 * normal.z * normal.z }
  let dst := { dst with m4 := -2 * normal.x * normal.y, m1 := -2 * normal.x * normal.y }
  let dst := { dst with m8 := -2 * normal.x * normal.z, m2 := -2 * normal.x * normal.z }
  let dst := { dst with m9 := -2 * normal.y * normal.z, m6 := -2 * normal.y * normal.z }
  { dst with
    m3 := k * normal.x,
    m7 := k * normal.y,
    m11 := k * normal.z }

end RMatrix

namespace RMatrix

/-- The first part of `RMatrix::createRotation(axis, angle, dst)` (lines 284-302):
the values of the locals `x, y, z` after the axis has been checked and, if so
decided, renormalised. Every float operation is rounded by `fl`; `sqrt` is the
float square root and `0.000001f` is `fl (1 / 1000000)`. -/
def createRotationAxis (fl sqrt : K → K) (axis : RVector3 K) : RVector3 K :=
  let x := axis.x
  let y := axis.y
  let z := axis.z
  -- Make sure the input axis is normalized.
  let n := fadd fl (fadd fl (fmul fl x x) (fmul fl y y)) (fmul fl z z)
  if n ≠ 1 then
    -- Not normalized.
    let n := sqrt n
    -- Prevent divide too close to zero.
    if n > fl (1 / 1000000) then
      let n := fdiv fl 1 n
      { x := fmul fl x n, y := fmul fl y n, z := fmul fl z n }
    else { x := x, y := y, z := z }
  else { x := x, y := y, z := z }

/-- The second part of `RMatrix::createRotation(axis, angle, dst)` (lines 304-336):
the matrix written from the locals `x, y, z` and the angle, every float
operation rounded by `fl`. -/
def createRotationFromAxis (fl cos sin : K → K) (x y z angle : K) : RMatrix K :=
  let c := cos angle
  let s := sin angle
  let t := fsub fl 1 c
  let tx := fmul fl t x
  let ty := fmul fl t y
  let tz := fmul fl t z
  let txy := fmul fl tx y
  let txz := fmul fl tx z
  let tyz := fmul fl ty z
  let sx := fmul fl s x
  let sy := fmul fl s y
  let sz := fmul fl s z
  { m0 := fadd fl c (fmul fl tx x),
    m1 := fadd fl txy sz,
    m2 := fsub fl txz sy,
    m3 := 0,
    m4 := fsub fl txy sz,
    m5 := fadd fl c (fmul fl ty y),
    m6 := fadd fl tyz sx,
    m7 := 0,
    m8 := fadd fl txz sy,
    m9 := fsub fl tyz sx,
    m10 := fadd fl c (fmul fl tz z),
    m11 := 0,
    m12 := 0,
    m13 := 0,
    m14 := 0,
    m15 := 1 }

/-- The static method `RMatrix::createRotation(const RVector3& axis, float angle,
dst)` (lines 281-337), every float operation rounded by `fl`. -/
def createRotationAxisAngle (fl sqrt cos sin : K → K) (axis : RVector3 K) (angle : K) :
    RMatrix K :=
  let a := createRotationAxis fl sqrt axis
  createRotationFromAxis fl cos sin a.x a.y a.z angle

/-- The static method `RMatrix::createRotationX(angle, dst)` (lines 339-351). -/
def createRotationX (cos sin : K → K) (angle : K) : RMatrix K :=
  let c := cos angle
  let s := sin angle
  { (MATRIX_IDENTITY : RMatrix K) with
    m5 := c,
    m6 := s,
    m9 := -s,
    m10 := c }

/-- The static method `RMatrix::createRotationY(angle, dst)` (lines 353-365). -/
def createRotationY (cos sin : K → K) (angle : K) : RMatrix K :=
  let c := cos angle
  let s := sin angle
  { (MATRIX_IDENTITY : RMatrix K) with
    m0 := c,
    m2 := -s,
    m8 := s,
    m10 := c }

/-- The static method `RMatrix::createRotationZ(angle, dst)` (lines 367-379). -/
def createRotationZ (cos sin : K → K) (angle : K) : RMatrix K :=
  let c := cos angle
  let s := sin angle
  { (MATRIX_IDENTITY : RMatrix K) with
    m0 := c,
    m1 := s,
    m4 := -s,
    m5 := c }

/-- The method `RMatrix::rotateX(angle, RMatrix* dst) const` (lines 740-745);
`rotateX(angle)` (lines 735-738) is the same with `dst = this`. -/
def rotateX (cos sin : K → K) (this : RMatrix K) (angle : K) : RMatrix K :=
  let r := createRotationX cos sin angle
  multiply this r

/-- The method `RMatrix::rotateY(angle, RMatrix* dst) const` (lines 752-757);
`rotateY(angle)` (lines 747-750) is the same with `dst = this`. -/
def rotateY (cos sin : K → K) (this : RMatrix K) (angle : K) : RMatrix K :=
  let r := createRotationY cos sin angle
  multiply this r

/-- The method `RMatrix::rotateZ(angle, RMatrix* dst) const` (lines 764-769);
`rotateZ(angle)` (lines 759-762) is the same with `dst = this`. -/
def rotateZ (cos sin : K → K) (this : RMatrix K) (angle : K) : RMatrix K :=
  let r := createRotationZ cos sin angle
  multiply this r

/-- The static method `RMatrix::createFromEuler(yaw, pitch, roll, dst)`
(lines 381-389). -/
def createFromEuler (cos sin : K → K) (yaw pitch roll : K) : RMatrix K :=
  let dst : RMatrix K := MATRIX_IDENTITY
  let dst := rotateY cos sin dst yaw
  let dst := rotateX cos sin dst pitch
  let dst := rotateZ cos sin dst roll
  dst

/-- The static method `RMatrix::createPerspective(fieldOfView, aspectRatio,
zNearPlane, zFarPlane, dst)` (lines 112-134), every float operation rounded by
`fl`. `degToRad` is the macro `MATH_DEG_TO_RAD`, `piOver2` is `MATH_PIOVER2`,
`eps` is `MATH_EPSILON`; `dst` is the value of `*dst` before the call and the
result its value after the call. -/
def createPerspective (fl degToRad : K → K) (piOver2 eps : K) (fmod : K → K → K)
    (tan : K → K) (fieldOfView aspectRatio zNearPlane zFarPlane : K) (dst : RMatrix K) :
    RMatrix K :=
  let f_n := fdiv fl 1 (fsub fl zFarPlane zNearPlane)
  let theta := fmul fl (degToRad fieldOfView) (1 / 2)
  if |fmod theta piOver2| < eps then
    dst
  else
    let divisor := tan theta
    let factor := fdiv fl 1 divisor
    -- memset(dst, 0, MATRIX_SIZE), then five elements are written
    { m0 := fmul fl (fdiv fl 1 aspectRatio) factor,
      m1 := 0,
      m2 := 0,
      m3 := 0,
      m4 := 0,
      m5 := factor,
      m6 := 0,
      m7 := 0,
      m8 := 0,
      m9 := 0,
      m10 := fmul fl (-(fadd fl zFarPlane zNearPlane)) f_n,
      m11 := -1,
      m12 := 0,
      m13 := 0,
      m14 := fmul fl (fmul fl (fmul fl (-2) zFarPlane) zNearPlane) f_n,
      m15 := 0 }

/-- The method `RMatrix::isIdentity()` (lines 671-674): `memcmp` of the sixteen
elements against `MATRIX_IDENTITY`. -/
def isIdentity (m : RMatrix K) : Bool :=
  decide (m = MATRIX_IDENTITY)

end RMatrix

/-! ## Notions used to state the claims -/

/-- The assignment `m[i] = v` on the buffer. -/
def RMatrix.write (a : RMatrix K) (i : Fin 16) (v : K) : RMatrix K :=
  match i.val with
  | 0 => { a with m0 := v }
  | 1 => { a with m1 := v }
  | 2 => { a with m2 := v }
  | 3 => { a with m3 := v }
  | 4 => { a with m4 := v }
  | 5 => { a with m5 := v }
  | 6 => { a with m6 := v }
  | 7 => { a with m7 := v }
  | 8 => { a with m8 := v }
  | 9 => { a with m9 := v }
  | 10 => { a with m10 := v }
  | 11 => { a with m11 := v }
  | 12 => { a with m12 := v }
  | 13 => { a with m13 := v }
  | 14 => { a with m14 := v }
  | _ => { a with m15 := v }

/-- The logical 4x4 matrix of a buffer: its `(row, col)` entry is `m[col*4 + row]`. -/
def RMatrix.toMatrix (a : RMatrix K) : Matrix (Fin 4) (Fin 4) K :=
  Matrix.of (fun row col => a.elem row col)

/-- The locals `scaleX, scaleY, scaleZ` of `decompose` after line 462. -/
def RMatrix.decomposeScale (sqrt : K → K) (m : RMatrix K) : RVector3 K :=
  { x := RVector3.length sqrt { x := m.m0, y := m.m1, z := m.m2 },
    y := RVector3.length sqrt { x := m.m4, y := m.m5, z := m.m6 },
    z := if m.determinant < 0
         then -RVector3.length sqrt { x := m.m8, y := m.m9, z := m.m10 }
         else RVector3.length sqrt { x := m.m8, y := m.m9, z := m.m10 } }

/-- The locals `xaxis, yaxis, zaxis` of `decompose` after line 495: the three
axes of the matrix with the scale factored out. -/
def RMatrix.decomposeAxes (sqrt : K → K) (m : RMatrix K) :
    RVector3 K × RVector3 K × RVector3 K :=
  ({ x := m.m0 * (1 / (decomposeScale sqrt m).x),
     y := m.m1 * (1 / (decomposeScale sqrt m).x),
     z := m.m2 * (1 / (decomposeScale sqrt m).x) },
   { x := m.m4 * (1 / (decomposeScale sqrt m).y),
     y := m.m5 * (1 / (decomposeScale sqrt m).y),
     z := m.m6 * (1 / (decomposeScale sqrt m).y) },
   { x := m.m8 * (1 / (decomposeScale sqrt m).z),
     y := m.m9 * (1 / (decomposeScale sqrt m).z),
     z := m.m10 * (1 / (decomposeScale sqrt m).z) })

/-- The argument that the branch of lines 497-536 which is taken passes to `sqrt`. -/
def RMatrix.decomposeRotationArg (xaxis yaxis zaxis : RVector3 K) : K :=
  let trace := xaxis.x + yaxis.y + zaxis.z + 1
  if trace > 1 then trace
  else if xaxis.x > yaxis.y ∧ xaxis.x > zaxis.z then 1 + xaxis.x - yaxis.y - zaxis.z
  else if yaxis.y > zaxis.z then 1 + yaxis.y - xaxis.x - zaxis.z
  else 1 + zaxis.z - xaxis.x - yaxis.y

/-- The upper-left 3x3 block of the logical matrix (rows and columns 0 to 2). -/
def RMatrix.block3 (a : RMatrix K) : Matrix (Fin 3) (Fin 3) K :=
  Matrix.of (fun row col => a.elem row.castSucc col.castSucc)

/-- The C library function `fmod`: `x - n * y`, where `n` is `x / y` truncated
toward zero. The float `fmod` returns this value without rounding. It
instantiates the parameter `fmod`. -/
def fmodExact [FloorRing K] (x y : K) : K :=
  x - ((if 0 ≤ x / y then ⌊x / y⌋ else ⌈x / y⌉ : ℤ) : K) * y

/-- The axis policy as the specification words it (section 4.2): the axis is
divided by its length only if its squared length differs from 1 by more than
`eps` and the length exceeds the threshold `1 / 1000000`; otherwise it is used
unchanged. To be compared with `RMatrix.createRotationAxis`. -/
def createRotationAxisSpec (eps : K) (sqrt : K → K) (axis : RVector3 K) : RVector3 K :=
  let n := axis.x * axis.x + axis.y * axis.y + axis.z * axis.z
  if |n - 1| > eps ∧ sqrt n > 1 / 1000000 then
    { x := axis.x * (1 / sqrt n), y := axis.y * (1 / sqrt n), z := axis.z * (1 / sqrt n) }
  else axis

/-- The customary definition of the macro `MATH_DEG_TO_RAD(x)`, which is
`((x) * 0.0174532925f)`. The macro is defined outside RMatrix.cpp; this value
instantiates the parameter `degToRad`. -/
def degToRadCustomary (fl : K → K) (x : K) : K :=
  fmul fl x (fl (174532925 / 10000000000))

/-- The customary definition of the macro `MATH_PIOVER2`, which is
`1.57079632679489661923f`. It instantiates the parameter `piOver2`. -/
def piOver2Customary (fl : K → K) : K :=
  fl (157079632679489661923 / 100000000000000000000)

/-- The customary definition of the macro `MATH_EPSILON`, which is `0.000001f`.
It instantiates the parameter `eps`. -/
def epsCustomary (fl : K → K) : K :=
  fl (1 / 1000000)

/-! # Theorems -/

open RMatrix

/-! ## Rounding to binary32 -/

/-- The rounded integer lies within one half of the scalar, strictly: this
determines it. -/
theorem roundHalfEven_eq_of_lt [FloorRing K] (q : K) (n : ℤ) (h1 : (n : K) - 1 / 2 < q)
    (h2 : q < (n : K) + 1 / 2) : roundHalfEven q = n := by
  unfold roundHalfEven
  by_cases hq : (n : K) ≤ q
  · have hfl : ⌊q⌋ = n := by
      rw [Int.floor_eq_iff]
      exact ⟨hq, by linarith⟩
    have hfr : Int.fract q < 1 / 2 := by
      rw [Int.fract, hfl]
      linarith
    rw [if_pos hfr, hfl]
  · push_neg at hq
    have hfl : ⌊q⌋ = n - 1 := by
      rw [Int.floor_eq_iff]
      push_cast
      exact ⟨by linarith, by linarith⟩
    have hfr : 1 / 2 < Int.fract q := by
      rw [Int.fract, hfl]
      push_cast
      linarith
    rw [if_neg (not_lt.mpr (le_of_lt hfr)), if_pos hfr, hfl]
    ring

/-- A tie above an even integer is rounded down to it. -/
theorem roundHalfEven_tie_even [FloorRing K] (q : K) (n : ℤ) (h : q = (n : K) + 1 / 2)
    (hn : n % 2 = 0) : roundHalfEven q = n := by
  unfold roundHalfEven
  have hfl : ⌊q⌋ = n := by
    rw [Int.floor_eq_iff, h]
    exact ⟨by linarith, by linarith⟩
  have hfr : Int.fract q = 1 / 2 := by
    rw [Int.fract, hfl, h]
    ring
  rw [hfr, if_neg (lt_irrefl _), if_neg (lt_irrefl _), hfl, if_pos hn]

/-- A tie above an odd integer is rounded up to the next integer. -/
theorem roundHalfEven_tie_odd [FloorRing K] (q : K) (n : ℤ) (h : q = (n : K) + 1 / 2)
    (hn : n % 2 = 1) : roundHalfEven q = n + 1 := by
  unfold roundHalfEven
  have hfl : ⌊q⌋ = n := by
    rw [Int.floor_eq_iff, h]
    exact ⟨by linarith, by linarith⟩
  have hfr : Int.fract q = 1 / 2 := by
    rw [Int.fract, hfl, h]
    ring
  rw [hfr, if_neg (lt_irrefl _), if_neg (lt_irrefl _), hfl, if_neg (by omega)]

/-- An integer is rounded to itself. -/
theorem roundHalfEven_intCast [FloorRing K] (n : ℤ) : roundHalfEven (n : K) = n :=
  roundHalfEven_eq_of_lt _ n (by linarith) (by linarith)

/-- Rounding to the nearest integer, ties to even, commutes with negation. -/
theorem roundHalfEven_neg [FloorRing K] (q : K) : roundHalfEven (-q) = -roundHalfEven q := by
  have h0 : (0 : K) ≤ Int.fract q := Int.fract_nonneg q
  have h1 : Int.fract q < 1 := Int.fract_lt_one q
  have hq : q = (⌊q⌋ : K) + Int.fract q := (Int.floor_add_fract q).symm
  rcases lt_trichotomy (Int.fract q) (1 / 2) with h | h | h
  · rw [roundHalfEven_eq_of_lt q ⌊q⌋ (by linarith) (by linarith)]
    refine roundHalfEven_eq_of_lt _ _ ?_ ?_
    · push_cast
      linarith
    · push_cast
      linarith
  · rw [h] at hq
    rcases Int.emod_two_eq_zero_or_one ⌊q⌋ with he | ho
    · rw [roundHalfEven_tie_even q ⌊q⌋ hq he]
      have := roundHalfEven_tie_odd (-q) (-⌊q⌋ - 1) (by push_cast; linarith) (by omega)
      rw [this]
      ring
    · rw [roundHalfEven_tie_odd q ⌊q⌋ hq ho]
      have := roundHalfEven_tie_even (-q) (-⌊q⌋ - 1) (by push_cast; linarith) (by omega)
      rw [this]
      ring
  · rw [roundHalfEven_eq_of_lt q (⌊q⌋ + 1) (by push_cast; linarith) (by push_cast; linarith)]
    refine roundHalfEven_eq_of_lt _ _ ?_ ?_
    · push_cast
      linarith
    · push_cast
      linarith

/-- An integer below the scalar is below the rounded integer. -/
theorem le_roundHalfEven [FloorRing K] (q : K) (k : ℤ) (h : (k : K) ≤ q) :
    k ≤ roundHalfEven q := by
  have hk : k ≤ ⌊q⌋ := Int.le_floor.mpr h
  unfold roundHalfEven
  split_ifs <;> omega

/-- An integer above the scalar is above the rounded integer. -/
theorem roundHalfEven_le [FloorRing K] (q : K) (k : ℤ) (h : q ≤ (k : K)) :
    roundHalfEven q ≤ k := by
  rcases eq_or_lt_of_le h with h | h
  · rw [h, roundHalfEven_intCast]
  · have hk : ⌊q⌋ < k := Int.floor_lt.mpr h
    unfold roundHalfEven
    split_ifs <;> omega

/-- The float nearest to zero is zero. -/
theorem round32_zero [FloorRing K] : round32 (0 : K) = 0 := by
  simp [round32]

/-- The logarithm in base 2 of a scalar, from the powers of 2 around it. -/
theorem log_two_eq [FloorRing K] (r : K) (e : ℤ) (hlo : (2 : K) ^ e ≤ r)
    (hhi : r < (2 : K) ^ (e + 1)) : Int.log 2 r = e := by
  have hr : 0 < r := lt_of_lt_of_le (zpow_pos (by norm_num) e) hlo
  have h1 : e ≤ Int.log 2 r := by
    rw [← Int.zpow_le_iff_le_log (by norm_num) hr]
    exact_mod_cast hlo
  have h2 : Int.log 2 r < e + 1 := by
    rw [← Int.lt_zpow_iff_log_lt (by norm_num) hr]
    exact_mod_cast hhi
  omega

/-- The value of `round32` from the binade of the scalar and the rounded
quotient. -/
theorem round32_eq [FloorRing K] (x y : K) (e n : ℤ) (hlo : (2 : K) ^ e ≤ |x|)
    (hhi : |x| < (2 : K) ^ (e + 1))
    (hn : roundHalfEven (x / (2 : K) ^ (e - 23)) = n) (hy : y = (n : K) * (2 : K) ^ (e - 23)) :
    round32 x = y := by
  have hx : x ≠ 0 := by
    intro h
    rw [h, abs_zero] at hlo
    exact absurd hlo (not_le.mpr (zpow_pos (by norm_num) e))
  unfold round32
  rw [if_neg hx, log_two_eq |x| e hlo hhi, hn, hy]

/-- The binade of a scalar, from bounds on the scalar or on its opposite. -/
theorem abs_binade (x : K) (e : ℤ)
    (h : ((2 : K) ^ e ≤ x ∧ x < (2 : K) ^ (e + 1)) ∨ ((2 : K) ^ e ≤ -x ∧ -x < (2 : K) ^ (e + 1))) :
    (2 : K) ^ e ≤ |x| ∧ |x| < (2 : K) ^ (e + 1) := by
  have hp : (0 : K) < (2 : K) ^ e := zpow_pos (by norm_num) e
  rcases h with ⟨h1, h2⟩ | ⟨h1, h2⟩
  · rw [abs_of_pos (lt_of_lt_of_le hp h1)]
    exact ⟨h1, h2⟩
  · rw [abs_of_neg (by linarith)]
    exact ⟨h1, h2⟩

/-- The value of `round32` at a scalar that is strictly nearer to `n * 2^(e-23)`
than to its two neighbours. -/
theorem round32_of_near [FloorRing K] (x y : K) (e n : ℤ)
    (hb : ((2 : K) ^ e ≤ x ∧ x < (2 : K) ^ (e + 1)) ∨ ((2 : K) ^ e ≤ -x ∧ -x < (2 : K) ^ (e + 1)))
    (h1 : ((n : K) - 1 / 2) * (2 : K) ^ (e - 23) < x)
    (h2 : x < ((n : K) + 1 / 2) * (2 : K) ^ (e - 23)) (hy : y = (n : K) * (2 : K) ^ (e - 23)) :
    round32 x = y := by
  have hp : (0 : K) < (2 : K) ^ (e - 23) := zpow_pos (by norm_num) _
  obtain ⟨hlo, hhi⟩ := abs_binade x e hb
  refine round32_eq x y e n hlo hhi (roundHalfEven_eq_of_lt _ n ?_ ?_) hy
  · rw [lt_div_iff₀ hp]
    exact h1
  · rw [div_lt_iff₀ hp]
    exact h2

/-- The value of `round32` at a scalar half way between `n * 2^(e-23)` and the next
float, `n` even. -/
theorem round32_of_tie_even [FloorRing K] (x y : K) (e n : ℤ)
    (hb : ((2 : K) ^ e ≤ x ∧ x < (2 : K) ^ (e + 1)) ∨ ((2 : K) ^ e ≤ -x ∧ -x < (2 : K) ^ (e + 1)))
    (hx : x = ((n : K) + 1 / 2) * (2 : K) ^ (e - 23))
    (hn : n % 2 = 0) (hy : y = (n : K) * (2 : K) ^ (e - 23)) : round32 x = y := by
  have hp : (2 : K) ^ (e - 23) ≠ 0 := ne_of_gt (zpow_pos (by norm_num) _)
  obtain ⟨hlo, hhi⟩ := abs_binade x e hb
  refine round32_eq x y e n hlo hhi (roundHalfEven_tie_even _ n ?_ hn) hy
  rw [hx, mul_div_assoc, div_self hp, mul_one]

/-- The value of `round32` at a scalar half way between `n * 2^(e-23)` and the next
float, `n` odd. -/
theorem round32_of_tie_odd [FloorRing K] (x y : K) (e n : ℤ)
    (hb : ((2 : K) ^ e ≤ x ∧ x < (2 : K) ^ (e + 1)) ∨ ((2 : K) ^ e ≤ -x ∧ -x < (2 : K) ^ (e + 1)))
    (hx : x = ((n : K) + 1 / 2) * (2 : K) ^ (e - 23))
    (hn : n % 2 = 1) (hy : y = ((n : K) + 1) * (2 : K) ^ (e - 23)) : round32 x = y := by
  have hp : (2 : K) ^ (e - 23) ≠ 0 := ne_of_gt (zpow_pos (by norm_num) _)
  obtain ⟨hlo, hhi⟩ := abs_binade x e hb
  refine round32_eq x y e (n + 1) hlo hhi (roundHalfEven_tie_odd _ n ?_ hn) ?_
  · rw [hx, mul_div_assoc, div_self hp, mul_one]
  · rw [hy]
    push_cast
    ring

/-- Rounding to binary32 commutes with negation. -/
theorem round32_neg [FloorRing K] (x : K) : round32 (-x) = -round32 x := by
  unfold round32
  by_cases hx : x = 0
  · simp [hx]
  · rw [if_neg hx, if_neg (neg_ne_zero.mpr hx), abs_neg, neg_div, roundHalfEven_neg]
    push_cast
    ring

/-- A positive scalar rounded to binary32 is a float: rounding it again changes
nothing. -/
theorem round32_round32_of_pos [FloorRing K] (x : K) (hx : 0 < x) :
    round32 (round32 x) = round32 x := by
  have h2 : (2 : K) ≠ 0 := two_ne_zero
  have hlo : (2 : K) ^ Int.log 2 x ≤ x := by
    have := Int.zpow_log_le_self (b := 2) (by norm_num) hx
    exact_mod_cast this
  have hhi : x < (2 : K) ^ (Int.log 2 x + 1) := by
    have := Int.lt_zpow_succ_log_self (b := 2) (by norm_num) x
    exact_mod_cast this
  generalize Int.log 2 x = e at hlo hhi
  have hs : (0 : K) < (2 : K) ^ (e - 23) := zpow_pos (by norm_num) _
  have he : (2 : K) ^ e = 8388608 * (2 : K) ^ (e - 23) := by
    have : (2 : K) ^ e = (2 : K) ^ (23 : ℤ) * (2 : K) ^ (e - 23) := by
      rw [← zpow_add₀ h2]
      congr 1
      ring
    rw [this]
    norm_num
  have he1 : (2 : K) ^ (e + 1) = 16777216 * (2 : K) ^ (e - 23) := by
    rw [zpow_add₀ h2, he]
    norm_num
    ring
  have hq1 : ((8388608 : ℤ) : K) ≤ x / (2 : K) ^ (e - 23) := by
    rw [le_div_iff₀ hs]
    push_cast
    linarith
  have hq2 : x / (2 : K) ^ (e - 23) ≤ ((16777216 : ℤ) : K) := by
    rw [div_le_iff₀ hs]
    push_cast
    linarith
  have hn1 := le_roundHalfEven _ _ hq1
  have hn2 := roundHalfEven_le _ _ hq2
  have hr : round32 x = (roundHalfEven (x / (2 : K) ^ (e - 23)) : K) * (2 : K) ^ (e - 23) :=
    round32_eq x _ e _ (by rw [abs_of_pos hx]; exact hlo) (by rw [abs_of_pos hx]; exact hhi)
      rfl rfl
  rw [hr]
  generalize roundHalfEven (x / (2 : K) ^ (e - 23)) = n at hn1 hn2
  have hn1K : (8388608 : K) ≤ (n : K) := by exact_mod_cast hn1
  have hypos : 0 < (n : K) * (2 : K) ^ (e - 23) := mul_pos (by linarith) hs
  rcases eq_or_lt_of_le hn2 with h | h
  · subst h
    refine round32_eq _ _ (e + 1) 8388608 ?_ ?_ ?_ ?_
    · rw [abs_of_pos hypos, he1]
      push_cast
      exact le_refl _
    · rw [abs_of_pos hypos, zpow_add₀ h2, he1]
      push_cast
      norm_num
      linarith
    · have : ((16777216 : ℤ) : K) * (2 : K) ^ (e - 23) / (2 : K) ^ (e + 1 - 23)
          = ((8388608 : ℤ) : K) := by
        have h3 : (2 : K) ^ (e + 1 - 23) = 2 * (2 : K) ^ (e - 23) := by
          rw [show e + 1 - 23 = 1 + (e - 23) by ring, zpow_add₀ h2, zpow_one]
        rw [h3]
        push_cast
        rw [div_eq_iff (ne_of_gt (mul_pos (by norm_num) hs))]
        ring
      rw [this, roundHalfEven_intCast]
    · have h3 : (2 : K) ^ (e + 1 - 23) = 2 * (2 : K) ^ (e - 23) := by
        rw [show e + 1 - 23 = 1 + (e - 23) by ring, zpow_add₀ h2, zpow_one]
      rw [h3]
      push_cast
      ring
  · have hnK : (n : K) ≤ 16777215 := by
      have : n ≤ 16777215 := by omega
      exact_mod_cast this
    refine round32_eq _ _ e n ?_ ?_ ?_ rfl
    · rw [abs_of_pos hypos, he]
      exact mul_le_mul_of_nonneg_right hn1K (le_of_lt hs)
    · rw [abs_of_pos hypos, he1]
      exact mul_lt_mul_of_pos_right (by linarith) hs
    · rw [mul_div_assoc, div_self (ne_of_gt hs), mul_one, roundHalfEven_intCast]

/-- A scalar rounded to binary32 is a float: rounding it again changes nothing. -/
theorem round32_round32 [FloorRing K] (x : K) : round32 (round32 x) = round32 x := by
  rcases lt_trichotomy x 0 with h | h | h
  · have := round32_round32_of_pos (-x) (by linarith)
    rw [round32_neg, round32_neg, neg_inj] at this
    exact this
  · rw [h, round32_zero, round32_zero]
  · exact round32_round32_of_pos x h

/-! ### Values of `round32` used below -/

/-- The binary32 value nearest to `81117012`, a tie. -/
theorem round32_81117012 [FloorRing K] : round32 (81117012 : K) = 81117008 :=
  round32_of_tie_even _ _ 26 10139626 (by norm_num) (by norm_num) (by norm_num) (by norm_num)

/-- The binary32 value nearest to `81117030`. -/
theorem round32_81117030 [FloorRing K] : round32 (81117030 : K) = 81117032 :=
  round32_of_near _ _ 26 10139629 (by norm_num) (by norm_num) (by norm_num) (by norm_num)

/-- The binary32 value nearest to `24`. -/
theorem round32_24 [FloorRing K] : round32 (24 : K) = 24 :=
  round32_of_near _ _ 4 12582912 (by norm_num) (by norm_num) (by norm_num) (by norm_num)

/-- The binary32 value nearest to `1`. -/
theorem round32_1 [FloorRing K] : round32 (1 : K) = 1 :=
  round32_of_near _ _ 0 8388608 (by norm_num) (by norm_num) (by norm_num) (by norm_num)

/-- The binary32 value nearest to `9012`. -/
theorem round32_9012 [FloorRing K] : round32 (9012 : K) = 9012 :=
  round32_of_near _ _ 13 9228288 (by norm_num) (by norm_num) (by norm_num) (by norm_num)

/-- The binary32 value nearest to `9010`. -/
theorem round32_9010 [FloorRing K] : round32 (9010 : K) = 9010 :=
  round32_of_near _ _ 13 9226240 (by norm_num) (by norm_num) (by norm_num) (by norm_num)

/-- The binary32 value nearest to `9003`. -/
theorem round32_9003 [FloorRing K] : round32 (9003 : K) = 9003 :=
  round32_of_near _ _ 13 9219072 (by norm_num) (by norm_num) (by norm_num) (by norm_num)

/-- The binary32 value nearest to `9001`. -/
theorem round32_9001 [FloorRing K] : round32 (9001 : K) = 9001 :=
  round32_of_near _ _ 13 9217024 (by norm_num) (by norm_num) (by norm_num) (by norm_num)

/-- The binary32 value nearest to `1 / 24`. -/
theorem round32_1_div_24 [FloorRing K] : round32 (1 / 24 : K) = 11184811 / 268435456 :=
  round32_of_near _ _ (-5) 11184811 (by norm_num) (by norm_num) (by norm_num) (by norm_num)

/-- The binary32 value nearest to `25199379183 / 67108864`. -/
theorem round32_25199379183_div_67108864 [FloorRing K] : round32 (25199379183 / 67108864 : K) = 751 / 2 :=
  round32_of_near _ _ 8 12304384 (by norm_num) (by norm_num) (by norm_num) (by norm_num)

/-- The binary32 value nearest to `50387573555 / 134217728`. -/
theorem round32_50387573555_div_134217728 [FloorRing K] : round32 (50387573555 / 134217728 : K) = 6150827 / 16384 :=
  round32_of_near _ _ 8 12301654 (by norm_num) (by norm_num) (by norm_num) (by norm_num)

/-- The binary32 value nearest to `100696853433 / 268435456`. -/
theorem round32_100696853433_div_268435456 [FloorRing K] : round32 (100696853433 / 268435456 : K) = 3001 / 8 :=
  round32_of_near _ _ 8 12292096 (by norm_num) (by norm_num) (by norm_num) (by norm_num)

/-- The binary32 value nearest to `100674483811 / 268435456`. -/
theorem round32_100674483811_div_268435456 [FloorRing K] : round32 (100674483811 / 268435456 : K) = 6144683 / 16384 :=
  round32_of_near _ _ 8 12289366 (by norm_num) (by norm_num) (by norm_num) (by norm_num)

/-- The binary32 value nearest to `33554433 / 33554432`. -/
theorem round32_33554433_div_33554432 [FloorRing K] : round32 (33554433 / 33554432 : K) = 1 :=
  round32_of_near _ _ 0 8388608 (by norm_num) (by norm_num) (by norm_num) (by norm_num)

/-- The binary32 value nearest to `6759751 / 2`. -/
theorem round32_6759751_div_2 [FloorRing K] : round32 (6759751 / 2 : K) = 6759751 / 2 :=
  round32_of_near _ _ 21 13519502 (by norm_num) (by norm_num) (by norm_num) (by norm_num)

/-- The binary32 value nearest to `55375895481 / 16384`. -/
theorem round32_55375895481_div_16384 [FloorRing K] : round32 (55375895481 / 16384 : K) = 6759753 / 2 :=
  round32_of_near _ _ 21 13519506 (by norm_num) (by norm_num) (by norm_num) (by norm_num)

/-- The binary32 value nearest to `3383255`. -/
theorem round32_3383255 [FloorRing K] : round32 (3383255 : K) = 3383255 :=
  round32_of_near _ _ 21 13533020 (by norm_num) (by norm_num) (by norm_num) (by norm_num)

/-- The binary32 value nearest to `13857813231 / 4096`. -/
theorem round32_13857813231_div_4096 [FloorRing K] : round32 (13857813231 / 4096 : K) = 13533021 / 4 :=
  round32_of_near _ _ 21 13533021 (by norm_num) (by norm_num) (by norm_num) (by norm_num)

/-- The binary32 value nearest to `1 / 4`. -/
theorem round32_1_div_4 [FloorRing K] : round32 (1 / 4 : K) = 1 / 4 :=
  round32_of_near _ _ (-2) 8388608 (by norm_num) (by norm_num) (by norm_num) (by norm_num)

/-- The binary32 value nearest to `27012001 / 8`, a tie. -/
theorem round32_27012001_div_8 [FloorRing K] : round32 (27012001 / 8 : K) = 3376500 :=
  round32_of_tie_even _ _ 21 13506000 (by norm_num) (by norm_num) (by norm_num) (by norm_num)

/-- The binary32 value nearest to `55320581049 / 16384`. -/
theorem round32_55320581049_div_16384 [FloorRing K] : round32 (55320581049 / 16384 : K) = 13506001 / 4 :=
  round32_of_near _ _ 21 13506001 (by norm_num) (by norm_num) (by norm_num) (by norm_num)

/-- The binary32 value nearest to `13519505 / 4`. -/
theorem round32_13519505_div_4 [FloorRing K] : round32 (13519505 / 4 : K) = 13519505 / 4 :=
  round32_of_near _ _ 21 13519505 (by norm_num) (by norm_num) (by norm_num) (by norm_num)

/-- The binary32 value nearest to `13843970799 / 4096`. -/
theorem round32_13843970799_div_4096 [FloorRing K] : round32 (13843970799 / 4096 : K) = 13519503 / 4 :=
  round32_of_near _ _ 21 13519503 (by norm_num) (by norm_num) (by norm_num) (by norm_num)

/-- The binary32 value nearest to `1 / 2`. -/
theorem round32_1_div_2 [FloorRing K] : round32 (1 / 2 : K) = 1 / 2 :=
  round32_of_near _ _ (-1) 8388608 (by norm_num) (by norm_num) (by norm_num) (by norm_num)

/-- The binary32 value nearest to `3 / 4`. -/
theorem round32_3_div_4 [FloorRing K] : round32 (3 / 4 : K) = 3 / 4 :=
  round32_of_near _ _ (-1) 12582912 (by norm_num) (by norm_num) (by norm_num) (by norm_num)

/-- The binary32 value nearest to `55363593827 / 16384`. -/
theorem round32_55363593827_div_16384 [FloorRing K] : round32 (55363593827 / 16384 : K) = 6758251 / 2 :=
  round32_of_near _ _ 21 13516502 (by norm_num) (by norm_num) (by norm_num) (by norm_num)

/-- The binary32 value nearest to `27681796915 / 8192`. -/
theorem round32_27681796915_div_8192 [FloorRing K] : round32 (27681796915 / 8192 : K) = 6758251 / 2 :=
  round32_of_near _ _ 21 13516502 (by norm_num) (by norm_num) (by norm_num) (by norm_num)

/-- The binary32 value nearest to `6761253 / 2`. -/
theorem round32_6761253_div_2 [FloorRing K] : round32 (6761253 / 2 : K) = 6761253 / 2 :=
  round32_of_near _ _ 21 13522506 (by norm_num) (by norm_num) (by norm_num) (by norm_num)

/-- The binary32 value nearest to `99999999`. -/
theorem round32_99999999 [FloorRing K] : round32 (99999999 : K) = 100000000 :=
  round32_of_near _ _ 26 12500000 (by norm_num) (by norm_num) (by norm_num) (by norm_num)

/-- The binary32 value nearest to `100000000`. -/
theorem round32_100000000 [FloorRing K] : round32 (100000000 : K) = 100000000 :=
  round32_of_near _ _ 26 12500000 (by norm_num) (by norm_num) (by norm_num) (by norm_num)

/-- The binary32 value nearest to `33554432`. -/
theorem round32_33554432 [FloorRing K] : round32 (33554432 : K) = 33554432 :=
  round32_of_near _ _ 25 8388608 (by norm_num) (by norm_num) (by norm_num) (by norm_num)

/-- The binary32 value nearest to `33554431`, a tie. -/
theorem round32_33554431 [FloorRing K] : round32 (33554431 : K) = 33554432 :=
  round32_of_tie_odd _ _ 24 16777215 (by norm_num) (by norm_num) (by norm_num) (by norm_num)

/-- The binary32 value nearest to `281474943156225 / 281474976710656`. -/
theorem round32_281474943156225_div_281474976710656 [FloorRing K] : round32 (281474943156225 / 281474976710656 : K) = 8388607 / 8388608 :=
  round32_of_near _ _ (-1) 16777214 (by norm_num) (by norm_num) (by norm_num) (by norm_num)

/-- The binary32 value nearest to `8388607 / 8388608`. -/
theorem round32_8388607_div_8388608 [FloorRing K] : round32 (8388607 / 8388608 : K) = 8388607 / 8388608 :=
  round32_of_near _ _ (-1) 16777214 (by norm_num) (by norm_num) (by norm_num) (by norm_num)

/-- The binary32 value nearest to `1 / 1000000`. -/
theorem round32_1_div_1000000 [FloorRing K] : round32 (1 / 1000000 : K) = 8796093 / 8796093022208 :=
  round32_of_near _ _ (-20) 8796093 (by norm_num) (by norm_num) (by norm_num) (by norm_num)

/-- The binary32 value nearest to `16777216 / 16777215`. -/
theorem round32_16777216_div_16777215 [FloorRing K] : round32 (16777216 / 16777215 : K) = 8388609 / 8388608 :=
  round32_of_near _ _ 0 8388609 (by norm_num) (by norm_num) (by norm_num) (by norm_num)

/-- The binary32 value nearest to `140737496743935 / 140737488355328`. -/
theorem round32_140737496743935_div_140737488355328 [FloorRing K] : round32 (140737496743935 / 140737488355328 : K) = 1 :=
  round32_of_near _ _ 0 8388608 (by norm_num) (by norm_num) (by norm_num) (by norm_num)

/-- The binary32 value nearest to `3 / 5`. -/
theorem round32_3_div_5 [FloorRing K] : round32 (3 / 5 : K) = 5033165 / 8388608 :=
  round32_of_near _ _ (-1) 10066330 (by norm_num) (by norm_num) (by norm_num) (by norm_num)

/-- The binary32 value nearest to `4 / 5`. -/
theorem round32_4_div_5 [FloorRing K] : round32 (4 / 5 : K) = 13421773 / 16777216 :=
  round32_of_near _ _ (-1) 13421773 (by norm_num) (by norm_num) (by norm_num) (by norm_num)

/-- The binary32 value nearest to `25332749917225 / 70368744177664`. -/
theorem round32_25332749917225_div_70368744177664 [FloorRing K] : round32 (25332749917225 / 70368744177664 : K) = 3019899 / 8388608 :=
  round32_of_near _ _ (-2) 12079596 (by norm_num) (by norm_num) (by norm_num) (by norm_num)

/-- The binary32 value nearest to `180143990463529 / 281474976710656`. -/
theorem round32_180143990463529_div_281474976710656 [FloorRing K] : round32 (180143990463529 / 281474976710656 : K) = 10737419 / 16777216 :=
  round32_of_near _ _ (-1) 10737419 (by norm_num) (by norm_num) (by norm_num) (by norm_num)

/-- The binary32 value nearest to `16777217 / 16777216`, a tie. -/
theorem round32_16777217_div_16777216 [FloorRing K] : round32 (16777217 / 16777216 : K) = 1 :=
  round32_of_tie_even _ _ 0 8388608 (by norm_num) (by norm_num) (by norm_num) (by norm_num)

/-- The binary32 value nearest to `6981317 / 400000000`. -/
theorem round32_6981317_div_400000000 [FloorRing K] : round32 (6981317 / 400000000 : K) = 9370165 / 536870912 :=
  round32_of_near _ _ (-6) 9370165 (by norm_num) (by norm_num) (by norm_num) (by norm_num)

/-- The binary32 value nearest to `157079632679489661923 / 100000000000000000000`. -/
theorem round32_157079632679489661923_div_100000000000000000000 [FloorRing K] : round32 (157079632679489661923 / 100000000000000000000 : K) = 13176795 / 8388608 :=
  round32_of_near _ _ 0 13176795 (by norm_num) (by norm_num) (by norm_num) (by norm_num)

/-- The binary32 value nearest to `421657425 / 134217728`. -/
theorem round32_421657425_div_134217728 [FloorRing K] : round32 (421657425 / 134217728 : K) = 13176795 / 4194304 :=
  round32_of_near _ _ 1 13176795 (by norm_num) (by norm_num) (by norm_num) (by norm_num)

/-- The binary32 value nearest to `13176795 / 8388608`. -/
theorem round32_13176795_div_8388608 [FloorRing K] : round32 (13176795 / 8388608 : K) = 13176795 / 8388608 :=
  round32_of_near _ _ 0 13176795 (by norm_num) (by norm_num) (by norm_num) (by norm_num)

/-- The binary32 value nearest to `421657425 / 67108864`. -/
theorem round32_421657425_div_67108864 [FloorRing K] : round32 (421657425 / 67108864 : K) = 13176795 / 2097152 :=
  round32_of_near _ _ 2 13176795 (by norm_num) (by norm_num) (by norm_num) (by norm_num)

/-- The binary32 value nearest to `13176795 / 4194304`. -/
theorem round32_13176795_div_4194304 [FloorRing K] : round32 (13176795 / 4194304 : K) = 13176795 / 4194304 :=
  round32_of_near _ _ 1 13176795 (by norm_num) (by norm_num) (by norm_num) (by norm_num)

/-- The binary32 value nearest to `1264972275 / 134217728`. -/
theorem round32_1264972275_div_134217728 [FloorRing K] : round32 (1264972275 / 134217728 : K) = 2470649 / 262144 :=
  round32_of_near _ _ 3 9882596 (by norm_num) (by norm_num) (by norm_num) (by norm_num)

/-- The binary32 value nearest to `2470649 / 524288`. -/
theorem round32_2470649_div_524288 [FloorRing K] : round32 (2470649 / 524288 : K) = 2470649 / 524288 :=
  round32_of_near _ _ 2 9882596 (by norm_num) (by norm_num) (by norm_num) (by norm_num)

/-- The binary32 square root of `1 - 2^-23` is `1 - 2^-24`. -/
theorem round32_sqrt_pred_one :
    round32 (Real.sqrt (8388607 / 8388608)) = 16777215 / 16777216 := by
  refine round32_of_near _ _ (-1) 16777215 (Or.inl ⟨?_, ?_⟩) ?_ ?_ (by norm_num)
  · exact (Real.le_sqrt' (by norm_num)).mpr (by norm_num)
  · exact (Real.sqrt_lt' (by norm_num)).mpr (by norm_num)
  · exact (Real.lt_sqrt (by norm_num)).mpr (by norm_num)
  · exact (Real.sqrt_lt' (by norm_num)).mpr (by norm_num)

/-! ## Storage layout -/

/-- C8: the sixteen-scalar constructor and `set(m11, ..., m44)` store the
argument named `m_rc` (row `r`, column `c`, arguments read row by row) at the
linear index `c*4 + r` (0-based), that is, the buffer is the transpose of the
argument sequence read as a row-major 4x4 array. -/
theorem C8_set_row_major_args_column_major_storage {F : Type} (a : Fin 4 → Fin 4 → F)
    (r c : Fin 4) :
    (RMatrix.set (a 0 0) (a 0 1) (a 0 2) (a 0 3) (a 1 0) (a 1 1) (a 1 2) (a 1 3)
        (a 2 0) (a 2 1) (a 2 2) (a 2 3) (a 3 0) (a 3 1) (a 3 2) (a 3 3)).get
        ⟨c.val * 4 + r.val, by omega⟩ = a r c
    ∧ (RMatrix.ctor (a 0 0) (a 0 1) (a 0 2) (a 0 3) (a 1 0) (a 1 1) (a 1 2) (a 1 3)
        (a 2 0) (a 2 1) (a 2 2) (a 2 3) (a 3 0) (a 3 1) (a 3 2) (a 3 3)).get
        ⟨c.val * 4 + r.val, by omega⟩ = a r c := by
  fin_cases r <;> fin_cases c <;> exact ⟨rfl, rfl⟩

/-- C9: the identity is neutral for `multiply`, on the left and on the right. -/
theorem C9_identity_neutral_for_multiply (M : RMatrix K) :
    RMatrix.multiply RMatrix.identity M = M ∧ RMatrix.multiply M RMatrix.identity = M := by
  constructor <;>
  · ext <;>
    simp [RMatrix.multiply, RMath.multiplyMatrix, RMatrix.identity, RMatrix.ctor, RMatrix.set]

/-! ## invert -/

/-- The determinant that `invert` computes inline (line 638) is the value of
`determinant()`, so `invert` takes its failure branch exactly when
`|determinant()| ≤ tol`. -/
theorem invert_of_singular (tol : K) (m dst : RMatrix K) (h : |m.determinant| ≤ tol) :
    RMatrix.invert tol m dst = (false, dst) := by
  unfold RMatrix.determinant at h
  unfold RMatrix.invert
  simp only [h, if_true]

/-- On the success branch `invert` returns true. -/
theorem invert_fst_of_regular (tol : K) (m dst : RMatrix K) (h : ¬ |m.determinant| ≤ tol) :
    (RMatrix.invert tol m dst).1 = true := by
  unfold RMatrix.determinant at h
  unfold RMatrix.invert
  simp only [h, if_false]

/-- Four products against entries scaled by `1 / d` sum to one when the
unscaled products sum to `d`. -/
theorem inv_mul_one (d a b c e f g h i : K) (hd : d ≠ 0)
    (hp : a * b + c * e + f * g + h * i = d) :
    a * (b * (1 / d)) + c * (e * (1 / d)) + f * (g * (1 / d)) + h * (i * (1 / d)) = 1 := by
  have hsum : a * (b * (1 / d)) + c * (e * (1 / d)) + f * (g * (1 / d)) + h * (i * (1 / d))
      = (a * b + c * e + f * g + h * i) * (1 / d) := by ring
  rw [hsum, hp]
  field_simp

/-- Four products against entries scaled by `1 / d` sum to zero when the
unscaled products do. -/
theorem inv_mul_zero (d a b c e f g h i : K) (hp : a * b + c * e + f * g + h * i = 0) :
    a * (b * (1 / d)) + c * (e * (1 / d)) + f * (g * (1 / d)) + h * (i * (1 / d)) = 0 := by
  have hsum : a * (b * (1 / d)) + c * (e * (1 / d)) + f * (g * (1 / d)) + h * (i * (1 / d))
      = (a * b + c * e + f * g + h * i) * (1 / d) := by ring
  rw [hsum, hp]
  simp

/-- The mirror image of `inv_mul_one`, the scaled entry standing on the left. -/
theorem mul_inv_one (d a b c e f g h i : K) (hd : d ≠ 0)
    (hp : a * b + c * e + f * g + h * i = d) :
    a * (1 / d) * b + c * (1 / d) * e + f * (1 / d) * g + h * (1 / d) * i = 1 := by
  have hsum : a * (1 / d) * b + c * (1 / d) * e + f * (1 / d) * g + h * (1 / d) * i
      = (a * b + c * e + f * g + h * i) * (1 / d) := by ring
  rw [hsum, hp]
  field_simp

/-- The mirror image of `inv_mul_zero`, the scaled entry standing on the left. -/
theorem mul_inv_zero (d a b c e f g h i : K) (hp : a * b + c * e + f * g + h * i = 0) :
    a * (1 / d) * b + c * (1 / d) * e + f * (1 / d) * g + h * (1 / d) * i = 0 := by
  have hsum : a * (1 / d) * b + c * (1 / d) * e + f * (1 / d) * g + h * (1 / d) * i
      = (a * b + c * e + f * g + h * i) * (1 / d) := by ring
  rw [hsum, hp]
  simp

/-- In exact arithmetic, for every matrix whose determinant satisfies
`|det M| > tol` (the tolerance being non-negative), `invert` returns true and
the matrix it writes is a two-sided inverse of `M` for `multiply`. -/
theorem invert_round_trip_exact (tol : K) (htol : 0 ≤ tol) (M dst : RMatrix K)
    (hdet : tol < |M.determinant|) :
    (RMatrix.invert tol M dst).1 = true
    ∧ RMatrix.multiply M (RMatrix.invert tol M dst).2 = RMatrix.identity
    ∧ RMatrix.multiply (RMatrix.invert tol M dst).2 M = RMatrix.identity := by
  have hne : M.determinant ≠ 0 := by
    intro h0
    rw [h0, abs_zero] at hdet
    exact absurd hdet (not_lt.mpr htol)
  have hnot : ¬ |M.determinant| ≤ tol := not_le.mpr hdet
  unfold RMatrix.determinant at hne hnot
  unfold RMatrix.invert
  simp only [hnot, if_false]
  refine ⟨trivial, ?_, ?_⟩
  · simp only [RMatrix.multiply, RMath.multiplyMatrix, RMatrix.multiplyScalar,
      RMath.multiplyMatrixScalar, RMatrix.identity, RMatrix.ctor, RMatrix.set]
    refine RMatrix.ext ?_ ?_ ?_ ?_ ?_ ?_ ?_ ?_ ?_ ?_ ?_ ?_ ?_ ?_ ?_ ?_
    · exact inv_mul_one _ _ _ _ _ _ _ _ _ hne (by ring)
    · exact inv_mul_zero _ _ _ _ _ _ _ _ _ (by ring)
    · exact inv_mul_zero _ _ _ _ _ _ _ _ _ (by ring)
    · exact inv_mul_zero _ _ _ _ _ _ _ _ _ (by ring)
    · exact inv_mul_zero _ _ _ _ _ _ _ _ _ (by ring)
    · exact inv_mul_one _ _ _ _ _ _ _ _ _ hne (by ring)
    · exact inv_mul_zero _ _ _ _ _ _ _ _ _ (by ring)
    · exact inv_mul_zero _ _ _ _ _ _ _ _ _ (by ring)
    · exact inv_mul_zero _ _ _ _ _ _ _ _ _ (by ring)
    · exact inv_mul_zero _ _ _ _ _ _ _ _ _ (by ring)
    · exact inv_mul_one _ _ _ _ _ _ _ _ _ hne (by ring)
    · exact inv_mul_zero _ _ _ _ _ _ _ _ _ (by ring)
    · exact inv_mul_zero _ _ _ _ _ _ _ _ _ (by ring)
    · exact inv_mul_zero _ _ _ _ _ _ _ _ _ (by ring)
    · exact inv_mul_zero _ _ _ _ _ _ _ _ _ (by ring)
    · exact inv_mul_one _ _ _ _ _ _ _ _ _ hne (by ring)
  · simp only [RMatrix.multiply, RMath.multiplyMatrix, RMatrix.multiplyScalar,
      RMath.multiplyMatrixScalar, RMatrix.identity, RMatrix.ctor, RMatrix.set]
    refine RMatrix.ext ?_ ?_ ?_ ?_ ?_ ?_ ?_ ?_ ?_ ?_ ?_ ?_ ?_ ?_ ?_ ?_
    · exact mul_inv_one _ _ _ _ _ _ _ _ _ hne (by ring)
    · exact mul_inv_zero _ _ _ _ _ _ _ _ _ (by ring)
    · exact mul_inv_zero _ _ _ _ _ _ _ _ _ (by ring)
    · exact mul_inv_zero _ _ _ _ _ _ _ _ _ (by ring)
    · exact mul_inv_zero _ _ _ _ _ _ _ _ _ (by ring)
    · exact mul_inv_one _ _ _ _ _ _ _ _ _ hne (by ring)
    · exact mul_inv_zero _ _ _ _ _ _ _ _ _ (by ring)
    · exact mul_inv_zero _ _ _ _ _ _ _ _ _ (by ring)
    · exact mul_inv_zero _ _ _ _ _ _ _ _ _ (by ring)
    · exact mul_inv_zero _ _ _ _ _ _ _ _ _ (by ring)
    · exact mul_inv_one _ _ _ _ _ _ _ _ _ hne (by ring)
    · exact mul_inv_zero _ _ _ _ _ _ _ _ _ (by ring)
    · exact mul_inv_zero _ _ _ _ _ _ _ _ _ (by ring)
    · exact mul_inv_zero _ _ _ _ _ _ _ _ _ (by ring)
    · exact mul_inv_zero _ _ _ _ _ _ _ _ _ (by ring)
    · exact mul_inv_one _ _ _ _ _ _ _ _ _ hne (by ring)

/-- C2: `invert(dst)` returns false if and only if `|det| ≤ tol`, `det` being
the value of `determinant()` on the same matrix, and when it returns false the
destination keeps all sixteen elements it had before the call. -/
theorem C2_invert_false_iff_singular (tol : K) (m dst : RMatrix K) :
    ((RMatrix.invert tol m dst).1 = false ↔ |m.determinant| ≤ tol)
    ∧ ((RMatrix.invert tol m dst).1 = false → (RMatrix.invert tol m dst).2 = dst) := by
  by_cases h : |m.determinant| ≤ tol
  · rw [invert_of_singular tol m dst h]
    exact ⟨⟨fun _ => h, fun _ => rfl⟩, fun _ => rfl⟩
  · have ht := invert_fst_of_regular tol m dst h
    rw [ht]
    exact ⟨⟨fun hf => absurd hf (by decide), fun hs => absurd hs h⟩,
      fun hf => absurd hf (by decide)⟩

/-- The determinant of a matrix with two identical logical rows is zero. -/
theorem determinant_eq_zero_of_rows_eq (m : RMatrix K) (i j : Fin 4) (hij : i ≠ j)
    (hrow : ∀ c : Fin 4, m.elem i c = m.elem j c) : m.determinant = 0 := by
  have h0 := hrow 0
  have h1 := hrow 1
  have h2 := hrow 2
  have h3 := hrow 3
  fin_cases i <;> fin_cases j <;>
    first
    | exact absurd rfl hij
    | (simp only [RMatrix.elem, RMatrix.get] at h0 h1 h2 h3
       simp only [RMatrix.determinant, h0, h1, h2, h3]
       ring)

/-- In exact arithmetic, for any non-negative tolerance, `invert` returns false on
the all-zero matrix and on every matrix in which two logical rows are
identical. -/
theorem invert_false_on_singular_exact (tol : K) (htol : 0 ≤ tol) (dst : RMatrix K) :
    (RMatrix.invert tol RMatrix.zero dst).1 = false
    ∧ ∀ (m : RMatrix K) (i j : Fin 4), i ≠ j → (∀ c : Fin 4, m.elem i c = m.elem j c) →
        (RMatrix.invert tol m dst).1 = false := by
  constructor
  · have hz : |(RMatrix.zero : RMatrix K).determinant| ≤ tol := by
      simp [RMatrix.determinant, RMatrix.zero, RMatrix.ctor, RMatrix.set, htol]
    rw [invert_of_singular tol _ dst hz]
  · intro m i j hij hrow
    have hz : |m.determinant| ≤ tol := by
      rw [determinant_eq_zero_of_rows_eq m i j hij hrow, abs_zero]
      exact htol
    rw [invert_of_singular tol m dst hz]

/-! ## decompose -/

/-- The pivot component `0.25 / s` for `s = 0.5 / (2 p)` is `p`. -/
theorem pivot_of_sqrt (p : K) : (1 / 4) / ((1 / 2) / (2 * p)) = p := by
  by_cases hp : p = 0
  · simp [hp]
  · field_simp
    ring

/-- A non-pivot component `e * s` for `s = 0.5 / (2 p)` and `e = 4 p a` is `a`. -/
theorem other_of_sqrt (p a e : K) (hp : p ≠ 0) (he : e = 4 * p * a) :
    e * ((1 / 2) / (2 * p)) = a := by
  rw [he]
  field_simp
  ring

/-- The absolute value of `2 p` for a non-zero `p`, by the sign of `p`. -/
theorem abs_two_mul_cases (p : K) (hp : p ≠ 0) :
    (0 < p ∧ |2 * p| = 2 * p) ∨ (p < 0 ∧ |2 * p| = 2 * (-p)) := by
  rcases lt_or_gt_of_ne hp with hneg | hpos
  · right
    refine ⟨hneg, ?_⟩
    rw [abs_of_neg (by linarith : 2 * p < 0)]
    ring
  · left
    exact ⟨hpos, abs_of_pos (by linarith : 0 < 2 * p)⟩

/-- The quaternion extraction on axes that satisfy the ten identities which the
columns of the rotation matrix of a unit quaternion `(x, y, z, w)` satisfy: every
branch returns `(x, y, z, w)` or its negation. -/
theorem decomposeRotation_of_pivots (sqrt : K → K) (hsq : ∀ a : K, sqrt (a * a) = |a|)
    (xaxis yaxis zaxis : RVector3 K) (x y z w : K)
    (hq : x * x + y * y + z * z + w * w = 1)
    (hww : xaxis.x + yaxis.y + zaxis.z + 1 = (2 * w) * (2 * w))
    (hxx : 1 + xaxis.x - yaxis.y - zaxis.z = (2 * x) * (2 * x))
    (hyy : 1 + yaxis.y - xaxis.x - zaxis.z = (2 * y) * (2 * y))
    (hzz : 1 + zaxis.z - xaxis.x - yaxis.y = (2 * z) * (2 * z))
    (hwx : yaxis.z - zaxis.y = 4 * w * x)
    (hwy : zaxis.x - xaxis.z = 4 * w * y)
    (hwz : xaxis.y - yaxis.x = 4 * w * z)
    (hxy : yaxis.x + xaxis.y = 4 * x * y)
    (hxz : zaxis.x + xaxis.z = 4 * x * z)
    (hyz : zaxis.y + yaxis.z = 4 * y * z) :
    decomposeRotation sqrt xaxis yaxis zaxis = { x := x, y := y, z := z, w := w }
    ∨ decomposeRotation sqrt xaxis yaxis zaxis = { x := -x, y := -y, z := -z, w := -w } := by
  unfold decomposeRotation
  simp only [gt_iff_lt]
  split_ifs with h1 h2 h3
  · -- trace > 1: the pivot is w
    have hw : w ≠ 0 := by
      rintro rfl
      rw [hww] at h1
      norm_num at h1
    rw [hww, hsq, hwx, hwy, hwz]
    rcases abs_two_mul_cases w hw with ⟨_, habs⟩ | ⟨_, habs⟩
    · left
      rw [habs]
      ext
      · exact other_of_sqrt w x _ hw (by ring)
      · exact other_of_sqrt w y _ hw (by ring)
      · exact other_of_sqrt w z _ hw (by ring)
      · exact pivot_of_sqrt w
    · right
      have hw' : -w ≠ 0 := neg_ne_zero.mpr hw
      rw [habs]
      ext
      · exact other_of_sqrt (-w) (-x) _ hw' (by ring)
      · exact other_of_sqrt (-w) (-y) _ hw' (by ring)
      · exact other_of_sqrt (-w) (-z) _ hw' (by ring)
      · exact pivot_of_sqrt (-w)
  · -- the pivot is x
    have hx : x ≠ 0 := by
      rintro rfl
      have := mul_self_nonneg y
      linarith [h2.1]
    rw [hxx, hsq, hwx, hxy, hxz]
    rcases abs_two_mul_cases x hx with ⟨_, habs⟩ | ⟨_, habs⟩
    · left
      rw [habs]
      ext
      · exact pivot_of_sqrt x
      · exact other_of_sqrt x y _ hx (by ring)
      · exact other_of_sqrt x z _ hx (by ring)
      · exact other_of_sqrt x w _ hx (by ring)
    · right
      have hx' : -x ≠ 0 := neg_ne_zero.mpr hx
      rw [habs]
      ext
      · exact pivot_of_sqrt (-x)
      · exact other_of_sqrt (-x) (-y) _ hx' (by ring)
      · exact other_of_sqrt (-x) (-z) _ hx' (by ring)
      · exact other_of_sqrt (-x) (-w) _ hx' (by ring)
  · -- the pivot is y
    have hy : y ≠ 0 := by
      rintro rfl
      have := mul_self_nonneg z
      linarith
    rw [hyy, hsq, hwy, hxy, hyz]
    rcases abs_two_mul_cases y hy with ⟨_, habs⟩ | ⟨_, habs⟩
    · left
      rw [habs]
      ext
      · exact other_of_sqrt y x _ hy (by ring)
      · exact pivot_of_sqrt y
      · exact other_of_sqrt y z _ hy (by ring)
      · exact other_of_sqrt y w _ hy (by ring)
    · right
      have hy' : -y ≠ 0 := neg_ne_zero.mpr hy
      rw [habs]
      ext
      · exact other_of_sqrt (-y) (-x) _ hy' (by ring)
      · exact pivot_of_sqrt (-y)
      · exact other_of_sqrt (-y) (-z) _ hy' (by ring)
      · exact other_of_sqrt (-y) (-w) _ hy' (by ring)
  · -- the pivot is z
    have hz : z ≠ 0 := by
      rintro rfl
      have hy0 : y * y ≤ 0 := by linarith
      have hx0 : x * x ≤ 0 := by
        rcases not_and_or.mp h2 with h | h <;> linarith
      have hw1 : 1 ≤ w * w := by linarith
      linarith
    rw [hzz, hsq, hwz, hxz, hyz]
    rcases abs_two_mul_cases z hz with ⟨_, habs⟩ | ⟨_, habs⟩
    · left
      rw [habs]
      ext
      · exact other_of_sqrt z x _ hz (by ring)
      · exact other_of_sqrt z y _ hz (by ring)
      · exact pivot_of_sqrt z
      · exact other_of_sqrt z w _ hz (by ring)
    · right
      have hz' : -z ≠ 0 := neg_ne_zero.mpr hz
      rw [habs]
      ext
      · exact other_of_sqrt (-z) (-x) _ hz' (by ring)
      · exact other_of_sqrt (-z) (-y) _ hz' (by ring)
      · exact pivot_of_sqrt (-z)
      · exact other_of_sqrt (-z) (-w) _ hz' (by ring)
/-- The length of a unit vector scaled by a positive `k` is `k`. -/
theorem length_scaled (sqrt : K → K) (hsq : ∀ a : K, sqrt (a * a) = |a|) (a b c k : K)
    (hk : 0 < k) (hunit : a * a + b * b + c * c = 1) :
    RVector3.length sqrt { x := a * k, y := b * k, z := c * k } = k := by
  unfold RVector3.length
  have hsum : a * k * (a * k) + b * k * (b * k) + c * k * (c * k) = k * k := by
    linear_combination (k * k) * hunit
  simp only [hsum, hsq, abs_of_pos hk]

/-- Factoring the scale `k` out of a scaled component. -/
theorem scaled_axis_cancel (a k : K) (hk : k ≠ 0) : a * k * (1 / k) = a := by
  field_simp

/-- The sixteen elements of `createTranslation(t) * createRotation(q) * createScale(s)`. -/
theorem trs_eq (t : RVector3 K) (q : RQuaternion K) (s : RVector3 K) :
    multiply (multiply (createTranslation t) (createRotation q)) (createScale s) =
      { m0 := (createRotation q).m0 * s.x,
        m1 := (createRotation q).m1 * s.x,
        m2 := (createRotation q).m2 * s.x,
        m3 := 0,
        m4 := (createRotation q).m4 * s.y,
        m5 := (createRotation q).m5 * s.y,
        m6 := (createRotation q).m6 * s.y,
        m7 := 0,
        m8 := (createRotation q).m8 * s.z,
        m9 := (createRotation q).m9 * s.z,
        m10 := (createRotation q).m10 * s.z,
        m11 := 0,
        m12 := t.x,
        m13 := t.y,
        m14 := t.z,
        m15 := 1 } := by
  simp only [multiply, RMath.multiplyMatrix, createTranslation, createRotation, createScale,
    MATRIX_IDENTITY]
  refine RMatrix.ext ?_ ?_ ?_ ?_ ?_ ?_ ?_ ?_ ?_ ?_ ?_ ?_ ?_ ?_ ?_ ?_ <;>
  dsimp only <;>
  ring

/-- The three axes of the rotation matrix of a unit quaternion have length one. -/
theorem createRotation_columns_unit (q : RQuaternion K)
    (hq : q.x * q.x + q.y * q.y + q.z * q.z + q.w * q.w = 1) :
    (createRotation q).m0 * (createRotation q).m0 + (createRotation q).m1 * (createRotation q).m1
      + (createRotation q).m2 * (createRotation q).m2 = 1
    ∧ (createRotation q).m4 * (createRotation q).m4 + (createRotation q).m5 * (createRotation q).m5
      + (createRotation q).m6 * (createRotation q).m6 = 1
    ∧ (createRotation q).m8 * (createRotation q).m8 + (createRotation q).m9 * (createRotation q).m9
      + (createRotation q).m10 * (createRotation q).m10 = 1 := by
  simp only [createRotation]
  refine ⟨?_, ?_, ?_⟩
  · linear_combination (4 * (q.y * q.y + q.z * q.z)) * hq
  · linear_combination (4 * (q.x * q.x + q.z * q.z)) * hq
  · linear_combination (4 * (q.x * q.x + q.y * q.y)) * hq

/-- The determinant of `createTranslation(t) * createRotation(q) * createScale(s)`
for a unit quaternion is the product of the three scale factors. -/
theorem trs_determinant (t : RVector3 K) (q : RQuaternion K) (s : RVector3 K)
    (hq : q.x * q.x + q.y * q.y + q.z * q.z + q.w * q.w = 1) :
    (multiply (multiply (createTranslation t) (createRotation q)) (createScale s)).determinant
      = s.x * s.y * s.z := by
  rw [trs_eq]
  simp only [determinant, createRotation]
  linear_combination (4 * (q.x * q.x + q.y * q.y + q.z * q.z) * (s.x * s.y * s.z)) * hq

/-- The quaternion extraction applied to the axes of `createRotation(q)` for a
unit quaternion `q` returns `q` or `-q`. -/
theorem createRotation_pivots (sqrt : K → K) (hsq : ∀ a : K, sqrt (a * a) = |a|)
    (q : RQuaternion K) (hq : q.x * q.x + q.y * q.y + q.z * q.z + q.w * q.w = 1) :
    decomposeRotation sqrt
        { x := (createRotation q).m0, y := (createRotation q).m1, z := (createRotation q).m2 }
        { x := (createRotation q).m4, y := (createRotation q).m5, z := (createRotation q).m6 }
        { x := (createRotation q).m8, y := (createRotation q).m9, z := (createRotation q).m10 }
      = q
    ∨ decomposeRotation sqrt
        { x := (createRotation q).m0, y := (createRotation q).m1, z := (createRotation q).m2 }
        { x := (createRotation q).m4, y := (createRotation q).m5, z := (createRotation q).m6 }
        { x := (createRotation q).m8, y := (createRotation q).m9, z := (createRotation q).m10 }
      = { x := -q.x, y := -q.y, z := -q.z, w := -q.w } := by
  refine decomposeRotation_of_pivots sqrt hsq _ _ _ q.x q.y q.z q.w hq ?_ ?_ ?_ ?_ ?_ ?_ ?_ ?_ ?_ ?_
  · simp only [createRotation]
    linear_combination (-4 : K) * hq
  all_goals
    simp only [createRotation]
    ring

/-- What `decompose` returns and writes on
`createTranslation(t) * createRotation(q) * createScale(s)` when every scale
component exceeds the tolerance and `q` is a unit quaternion. -/
theorem decompose_trs (sqrt : K → K) (hsq : ∀ a : K, sqrt (a * a) = |a|) (tol : K)
    (htol : 0 ≤ tol) (s : RVector3 K) (hsx : tol < s.x) (hsy : tol < s.y) (hsz : tol < s.z)
    (q : RQuaternion K) (hq : q.x * q.x + q.y * q.y + q.z * q.z + q.w * q.w = 1)
    (t : RVector3 K) (scale : Option (RVector3 K)) (rotation : Option (RQuaternion K))
    (translation : Option (RVector3 K)) :
    decompose sqrt tol
        (multiply (multiply (createTranslation t) (createRotation q)) (createScale s))
        scale rotation translation
      = { ret := true,
          scale := scale.map (fun _ => s),
          rotation := rotation.map (fun _ => decomposeRotation sqrt
            { x := (createRotation q).m0, y := (createRotation q).m1, z := (createRotation q).m2 }
            { x := (createRotation q).m4, y := (createRotation q).m5, z := (createRotation q).m6 }
            { x := (createRotation q).m8, y := (createRotation q).m9,
              z := (createRotation q).m10 }),
          translation := translation.map (fun _ => t) } := by
  have hx0 : 0 < s.x := lt_of_le_of_lt htol hsx
  have hy0 : 0 < s.y := lt_of_le_of_lt htol hsy
  have hz0 : 0 < s.z := lt_of_le_of_lt htol hsz
  obtain ⟨hc0, hc1, hc2⟩ := createRotation_columns_unit q hq
  have hdet := trs_determinant t q s hq
  have hpos : ¬ s.x * s.y * s.z < 0 := not_lt.mpr (le_of_lt (mul_pos (mul_pos hx0 hy0) hz0))
  have hchk : ¬ (s.x < tol ∨ s.y < tol ∨ |s.z| < tol) := by
    rw [abs_of_pos hz0]
    rintro (h | h | h) <;> linarith
  unfold decompose
  rw [hdet]
  rw [trs_eq]
  simp only [length_scaled sqrt hsq _ _ _ s.x hx0 hc0, length_scaled sqrt hsq _ _ _ s.y hy0 hc1,
    length_scaled sqrt hsq _ _ _ s.z hz0 hc2, hpos, if_false, hchk,
    scaled_axis_cancel _ s.x (ne_of_gt hx0), scaled_axis_cancel _ s.y (ne_of_gt hy0),
    scaled_axis_cancel _ s.z (ne_of_gt hz0)]
  cases scale <;> cases rotation <;> cases translation <;> simp

/-- C4: for every scale `s` with all three components above the tolerance,
every unit quaternion `r` and every translation `t`, `decompose` called with
three outputs on `createTranslation(t) * createRotation(r) * createScale(s)`
returns true and writes `t' = t` and `s' = s`. -/
theorem C4_decompose_recovers_translation_scale (sqrt : K → K)
    (hsq : ∀ a : K, sqrt (a * a) = |a|) (tol : K) (htol : 0 ≤ tol)
    (s : RVector3 K) (hsx : tol < s.x) (hsy : tol < s.y) (hsz : tol < s.z)
    (r : RQuaternion K) (hr : r.x * r.x + r.y * r.y + r.z * r.z + r.w * r.w = 1)
    (t : RVector3 K) (s0 : RVector3 K) (r0 : RQuaternion K) (t0 : RVector3 K) :
    (RMatrix.decompose sqrt tol
        (RMatrix.multiply (RMatrix.multiply (RMatrix.createTranslation t)
          (RMatrix.createRotation r)) (RMatrix.createScale s))
        (some s0) (some r0) (some t0)).ret = true
    ∧ (RMatrix.decompose sqrt tol
        (RMatrix.multiply (RMatrix.multiply (RMatrix.createTranslation t)
          (RMatrix.createRotation r)) (RMatrix.createScale s))
        (some s0) (some r0) (some t0)).translation = some t
    ∧ (RMatrix.decompose sqrt tol
        (RMatrix.multiply (RMatrix.multiply (RMatrix.createTranslation t)
          (RMatrix.createRotation r)) (RMatrix.createScale s))
        (some s0) (some r0) (some t0)).scale = some s := by
  rw [decompose_trs sqrt hsq tol htol s hsx hsy hsz r hr t]
  exact ⟨rfl, rfl, rfl⟩

/-- C4 over `ℚ` with `Rat.sqrt`: scale `(2, 3, 4)`, the unit quaternion
`(3/5, 0, 0, 4/5)`, translation `(1, 2, 3)`, tolerance `1/1000000`. -/
theorem C4_decompose_recovers_translation_scale_witness :
    (∀ a : ℚ, Rat.sqrt (a * a) = |a|)
    ∧ (0 : ℚ) ≤ 1 / 1000000
    ∧ (3 / 5 : ℚ) * (3 / 5) + 0 * 0 + 0 * 0 + (4 / 5) * (4 / 5) = 1
    ∧ (RMatrix.decompose Rat.sqrt (1 / 1000000 : ℚ)
        (RMatrix.multiply (RMatrix.multiply (RMatrix.createTranslation ⟨1, 2, 3⟩)
          (RMatrix.createRotation ⟨3 / 5, 0, 0, 4 / 5⟩)) (RMatrix.createScale ⟨2, 3, 4⟩))
        (some ⟨0, 0, 0⟩) (some ⟨0, 0, 0, 0⟩) (some ⟨0, 0, 0⟩)).ret = true
    ∧ (RMatrix.decompose Rat.sqrt (1 / 1000000 : ℚ)
        (RMatrix.multiply (RMatrix.multiply (RMatrix.createTranslation ⟨1, 2, 3⟩)
          (RMatrix.createRotation ⟨3 / 5, 0, 0, 4 / 5⟩)) (RMatrix.createScale ⟨2, 3, 4⟩))
        (some ⟨0, 0, 0⟩) (some ⟨0, 0, 0, 0⟩) (some ⟨0, 0, 0⟩)).translation = some ⟨1, 2, 3⟩
    ∧ (RMatrix.decompose Rat.sqrt (1 / 1000000 : ℚ)
        (RMatrix.multiply (RMatrix.multiply (RMatrix.createTranslation ⟨1, 2, 3⟩)
          (RMatrix.createRotation ⟨3 / 5, 0, 0, 4 / 5⟩)) (RMatrix.createScale ⟨2, 3, 4⟩))
        (some ⟨0, 0, 0⟩) (some ⟨0, 0, 0, 0⟩) (some ⟨0, 0, 0⟩)).scale = some ⟨2, 3, 4⟩ :=
  ⟨Rat.sqrt_eq, by norm_num, by norm_num,
   C4_decompose_recovers_translation_scale Rat.sqrt Rat.sqrt_eq (1 / 1000000) (by norm_num)
     ⟨2, 3, 4⟩ (by norm_num) (by norm_num) (by norm_num)
     ⟨3 / 5, 0, 0, 4 / 5⟩ (by norm_num) ⟨1, 2, 3⟩ ⟨0, 0, 0⟩ ⟨0, 0, 0, 0⟩ ⟨0, 0, 0⟩⟩

/-- C5: for every scale `s` with all three components above the tolerance,
every unit quaternion `r` and every translation `t`, the quaternion `r'` that
`decompose` writes for `createTranslation(t) * createRotation(r) * createScale(s)`
is `r` or `-r`, whichever of the four branches of the extraction is taken. -/
theorem C5_decompose_recovers_rotation_up_to_sign (sqrt : K → K)
    (hsq : ∀ a : K, sqrt (a * a) = |a|) (tol : K) (htol : 0 ≤ tol)
    (s : RVector3 K) (hsx : tol < s.x) (hsy : tol < s.y) (hsz : tol < s.z)
    (r : RQuaternion K) (hr : r.x * r.x + r.y * r.y + r.z * r.z + r.w * r.w = 1)
    (t : RVector3 K) (s0 : RVector3 K) (r0 : RQuaternion K) (t0 : RVector3 K) :
    (RMatrix.decompose sqrt tol
        (RMatrix.multiply (RMatrix.multiply (RMatrix.createTranslation t)
          (RMatrix.createRotation r)) (RMatrix.createScale s))
        (some s0) (some r0) (some t0)).rotation = some r
    ∨ (RMatrix.decompose sqrt tol
        (RMatrix.multiply (RMatrix.multiply (RMatrix.createTranslation t)
          (RMatrix.createRotation r)) (RMatrix.createScale s))
        (some s0) (some r0) (some t0)).rotation
      = some { x := -r.x, y := -r.y, z := -r.z, w := -r.w } := by
  rw [decompose_trs sqrt hsq tol htol s hsx hsy hsz r hr t]
  rcases createRotation_pivots sqrt hsq r hr with h | h
  · left
    simp only [Option.map_some', h]
  · right
    simp only [Option.map_some', h]

/-- C5 over `ℚ` with `Rat.sqrt`: scale `(2, 3, 4)`, the unit quaternion
`(2/3, -2/3, 1/3, 0)`, translation `(1, 2, 3)`, tolerance `1/1000000`. -/
theorem C5_decompose_recovers_rotation_up_to_sign_witness :
    (RMatrix.decompose Rat.sqrt (1 / 1000000 : ℚ)
        (RMatrix.multiply (RMatrix.multiply (RMatrix.createTranslation ⟨1, 2, 3⟩)
          (RMatrix.createRotation ⟨2 / 3, -2 / 3, 1 / 3, 0⟩)) (RMatrix.createScale ⟨2, 3, 4⟩))
        (some ⟨0, 0, 0⟩) (some ⟨0, 0, 0, 0⟩) (some ⟨0, 0, 0⟩)).rotation
      = some ⟨2 / 3, -2 / 3, 1 / 3, 0⟩
    ∨ (RMatrix.decompose Rat.sqrt (1 / 1000000 : ℚ)
        (RMatrix.multiply (RMatrix.multiply (RMatrix.createTranslation ⟨1, 2, 3⟩)
          (RMatrix.createRotation ⟨2 / 3, -2 / 3, 1 / 3, 0⟩)) (RMatrix.createScale ⟨2, 3, 4⟩))
        (some ⟨0, 0, 0⟩) (some ⟨0, 0, 0, 0⟩) (some ⟨0, 0, 0⟩)).rotation
      = some { x := -(2 / 3), y := -(-2 / 3), z := -(1 / 3), w := -0 } :=
  C5_decompose_recovers_rotation_up_to_sign Rat.sqrt Rat.sqrt_eq (1 / 1000000) (by norm_num)
    ⟨2, 3, 4⟩ (by norm_num) (by norm_num) (by norm_num)
    ⟨2 / 3, -2 / 3, 1 / 3, 0⟩ (by norm_num) ⟨1, 2, 3⟩ ⟨0, 0, 0⟩ ⟨0, 0, 0, 0⟩ ⟨0, 0, 0⟩

/-- The translation output of `decompose` is column 4 of the matrix whenever it
is requested, whatever else is requested and whatever is returned. -/
theorem decompose_translation_eq (sqrt : K → K) (tol : K) (m : RMatrix K)
    (scale : Option (RVector3 K)) (rotation : Option (RQuaternion K))
    (translation : Option (RVector3 K)) :
    (decompose sqrt tol m scale rotation translation).translation
      = translation.map (fun _ => { x := m.m12, y := m.m13, z := m.m14 }) := by
  unfold decompose
  cases scale <;> cases rotation <;> simp <;> split_ifs <;> rfl

/-- The scale output of `decompose`, whenever it is requested: the three axis
lengths, the third negated when the determinant is negative. -/
theorem decompose_scale_eq (sqrt : K → K) (tol : K) (m : RMatrix K)
    (scale : Option (RVector3 K)) (rotation : Option (RQuaternion K))
    (translation : Option (RVector3 K)) :
    (decompose sqrt tol m scale rotation translation).scale
      = scale.map (fun _ =>
          { x := RVector3.length sqrt { x := m.m0, y := m.m1, z := m.m2 },
            y := RVector3.length sqrt { x := m.m4, y := m.m5, z := m.m6 },
            z := if m.determinant < 0
                 then -RVector3.length sqrt { x := m.m8, y := m.m9, z := m.m10 }
                 else RVector3.length sqrt { x := m.m8, y := m.m9, z := m.m10 } }) := by
  unfold decompose
  cases scale <;> cases rotation <;> simp <;> split_ifs <;> rfl

/-- With a rotation output, `decompose` returns false exactly when the check of
line 476 fires, and then leaves the rotation output as it was. -/
theorem decompose_rotation_requested (sqrt : K → K) (tol : K) (m : RMatrix K)
    (scale : Option (RVector3 K)) (q0 : RQuaternion K) (translation : Option (RVector3 K)) :
    ((decompose sqrt tol m scale (some q0) translation).ret = false ↔
      (RVector3.length sqrt { x := m.m0, y := m.m1, z := m.m2 } < tol
        ∨ RVector3.length sqrt { x := m.m4, y := m.m5, z := m.m6 } < tol
        ∨ |if m.determinant < 0
           then -RVector3.length sqrt { x := m.m8, y := m.m9, z := m.m10 }
           else RVector3.length sqrt { x := m.m8, y := m.m9, z := m.m10 }| < tol))
    ∧ ((decompose sqrt tol m scale (some q0) translation).ret = false →
        (decompose sqrt tol m scale (some q0) translation).rotation = some q0) := by
  unfold decompose
  cases scale <;> simp <;> split_ifs <;> simp_all

/-- The absolute value of a non-negative length with the sign convention applied. -/
theorem abs_signed_length (c l : K) (hl : 0 ≤ l) : |if c < 0 then -l else l| = l := by
  split_ifs
  · rw [abs_neg, abs_of_nonneg hl]
  · exact abs_of_nonneg hl

/-- The length of the zero vector. -/
theorem length_zero (sqrt : K → K) (h0 : sqrt 0 = 0) :
    RVector3.length sqrt { x := (0 : K), y := 0, z := 0 } = 0 := by
  simp [RVector3.length, h0]

/-- C6: when rotation is requested, `decompose` returns false if and only if one
of the three extracted axis lengths is below the tolerance; in that case the
rotation output keeps its previous value, while the scale and translation
outputs hold the values that the successful call without rotation on the same
matrix writes. In particular, for a positive tolerance, it returns false
whenever one axis of the matrix is the zero vector. -/
theorem C6_decompose_degenerate_scale (sqrt : K → K) (hnn : ∀ a : K, 0 ≤ sqrt a) (tol : K)
    (m : RMatrix K) (scale : Option (RVector3 K)) (q0 : RQuaternion K)
    (translation : Option (RVector3 K)) :
    ((decompose sqrt tol m scale (some q0) translation).ret = false ↔
      (RVector3.length sqrt { x := m.m0, y := m.m1, z := m.m2 } < tol
        ∨ RVector3.length sqrt { x := m.m4, y := m.m5, z := m.m6 } < tol
        ∨ RVector3.length sqrt { x := m.m8, y := m.m9, z := m.m10 } < tol))
    ∧ ((decompose sqrt tol m scale (some q0) translation).ret = false →
        (decompose sqrt tol m scale (some q0) translation).rotation = some q0
        ∧ (decompose sqrt tol m scale none translation).ret = true
        ∧ (decompose sqrt tol m scale (some q0) translation).scale
            = (decompose sqrt tol m scale none translation).scale
        ∧ (decompose sqrt tol m scale (some q0) translation).translation
            = (decompose sqrt tol m scale none translation).translation)
    ∧ (0 < tol → sqrt 0 = 0 →
        ((m.m0 = 0 ∧ m.m1 = 0 ∧ m.m2 = 0) ∨ (m.m4 = 0 ∧ m.m5 = 0 ∧ m.m6 = 0)
          ∨ (m.m8 = 0 ∧ m.m9 = 0 ∧ m.m10 = 0)) →
        (decompose sqrt tol m scale (some q0) translation).ret = false) := by
  have hz : |if m.determinant < 0
      then -RVector3.length sqrt { x := m.m8, y := m.m9, z := m.m10 }
      else RVector3.length sqrt { x := m.m8, y := m.m9, z := m.m10 }|
      = RVector3.length sqrt { x := m.m8, y := m.m9, z := m.m10 } :=
    abs_signed_length _ _ (hnn _)
  have hiff := (decompose_rotation_requested sqrt tol m scale q0 translation).1
  rw [hz] at hiff
  refine ⟨hiff, ?_, ?_⟩
  · intro hret
    refine ⟨(decompose_rotation_requested sqrt tol m scale q0 translation).2 hret, ?_, ?_, ?_⟩
    · unfold decompose
      cases scale <;> simp
    · rw [decompose_scale_eq, decompose_scale_eq]
    · rw [decompose_translation_eq, decompose_translation_eq]
  · intro htol h0 haxis
    rw [hiff]
    rcases haxis with ⟨h1, h2, h3⟩ | ⟨h1, h2, h3⟩ | ⟨h1, h2, h3⟩
    · left
      rw [h1, h2, h3, length_zero sqrt h0]
      exact htol
    · right; left
      rw [h1, h2, h3, length_zero sqrt h0]
      exact htol
    · right; right
      rw [h1, h2, h3, length_zero sqrt h0]
      exact htol

/-- The rational square root of zero. -/
theorem rat_sqrt_zero : Rat.sqrt 0 = 0 := by
  have h := Rat.sqrt_eq 0
  rwa [mul_zero, abs_zero] at h

/-- C6 over `ℚ` with `Rat.sqrt` on `createScale(0, 3, 4)`: the call returns false
and the rotation output keeps `(9, 9, 9, 9)`. -/
theorem C6_decompose_degenerate_scale_witness :
    (decompose Rat.sqrt (1 / 1000000 : ℚ) (createScaleXYZ 0 3 4)
        (some ⟨7, 7, 7⟩) (some ⟨9, 9, 9, 9⟩) (some ⟨7, 7, 7⟩)).ret = false
    ∧ (decompose Rat.sqrt (1 / 1000000 : ℚ) (createScaleXYZ 0 3 4)
        (some ⟨7, 7, 7⟩) (some ⟨9, 9, 9, 9⟩) (some ⟨7, 7, 7⟩)).rotation = some ⟨9, 9, 9, 9⟩ :=
  have h := C6_decompose_degenerate_scale Rat.sqrt Rat.sqrt_nonneg (1 / 1000000 : ℚ)
    (createScaleXYZ 0 3 4) (some ⟨7, 7, 7⟩) ⟨9, 9, 9, 9⟩ (some ⟨7, 7, 7⟩)
  have hret := h.2.2 (by norm_num) rat_sqrt_zero (Or.inl ⟨rfl, rfl, rfl⟩)
  ⟨hret, (h.2.1 hret).1⟩

/-- C7: for every matrix the scale that `decompose` reports has `x` and `y` equal
to the lengths of `(m[0], m[1], m[2])` and `(m[4], m[5], m[6])`, both
non-negative, and `z` equal to the length of `(m[8], m[9], m[10])` negated
exactly when `determinant() < 0`; `createScale(-2, 3, 4)` decomposes to the
scale `(2, 3, -4)`. -/
theorem C7_decompose_scale_sign_convention (sqrt : K → K) (hsq : ∀ a : K, sqrt (a * a) = |a|)
    (hnn : ∀ a : K, 0 ≤ sqrt a) (tol : K) (m : RMatrix K) (s0 : RVector3 K)
    (rotation : Option (RQuaternion K)) (translation : Option (RVector3 K)) :
    (decompose sqrt tol m (some s0) rotation translation).scale
      = some { x := RVector3.length sqrt { x := m.m0, y := m.m1, z := m.m2 },
               y := RVector3.length sqrt { x := m.m4, y := m.m5, z := m.m6 },
               z := if m.determinant < 0
                    then -RVector3.length sqrt { x := m.m8, y := m.m9, z := m.m10 }
                    else RVector3.length sqrt { x := m.m8, y := m.m9, z := m.m10 } }
    ∧ 0 ≤ RVector3.length sqrt { x := m.m0, y := m.m1, z := m.m2 }
    ∧ 0 ≤ RVector3.length sqrt { x := m.m4, y := m.m5, z := m.m6 }
    ∧ 0 ≤ RVector3.length sqrt { x := m.m8, y := m.m9, z := m.m10 }
    ∧ (decompose sqrt tol (createScaleXYZ (-2) 3 4) (some s0) rotation translation).scale
        = some { x := 2, y := 3, z := -4 } := by
  refine ⟨?_, hnn _, hnn _, hnn _, ?_⟩
  · rw [decompose_scale_eq]
    rfl
  · rw [decompose_scale_eq]
    have hx : RVector3.length sqrt { x := (-2 : K), y := 0, z := 0 } = 2 := by
      unfold RVector3.length
      have e : (-2 : K) * (-2) + 0 * 0 + 0 * 0 = (-2) * (-2) := by ring
      simp only [e, hsq, abs_neg, abs_two]
    have hy : RVector3.length sqrt { x := (0 : K), y := 3, z := 0 } = 3 := by
      unfold RVector3.length
      have e : (0 : K) * 0 + 3 * 3 + 0 * 0 = 3 * 3 := by ring
      have h3 : |(3 : K)| = 3 := abs_of_pos (by norm_num)
      simp only [e, hsq, h3]
    have hz : RVector3.length sqrt { x := (0 : K), y := 0, z := 4 } = 4 := by
      unfold RVector3.length
      have e : (0 : K) * 0 + 0 * 0 + 4 * 4 = 4 * 4 := by ring
      have h4 : |(4 : K)| = 4 := abs_of_pos (by norm_num)
      simp only [e, hsq, h4]
    have hd : (createScaleXYZ (-2 : K) 3 4).determinant < 0 := by
      simp only [determinant, createScaleXYZ, MATRIX_IDENTITY]
      norm_num
    simp only [hd, if_true, Option.map_some']
    simp only [createScaleXYZ, MATRIX_IDENTITY, hx, hy, hz]

/-- C7 over `ℚ` with `Rat.sqrt`: `createScale(-2, 3, 4)` reports `(2, 3, -4)`. -/
theorem C7_decompose_scale_sign_convention_witness :
    (decompose Rat.sqrt (1 / 1000000 : ℚ) (createScaleXYZ (-2) 3 4)
        (some ⟨0, 0, 0⟩) (some ⟨0, 0, 0, 0⟩) (some ⟨0, 0, 0⟩)).scale = some ⟨2, 3, -4⟩ :=
  (C7_decompose_scale_sign_convention Rat.sqrt Rat.sqrt_eq Rat.sqrt_nonneg (1 / 1000000 : ℚ)
    (createScaleXYZ (-2) 3 4) ⟨0, 0, 0⟩ (some ⟨0, 0, 0, 0⟩) (some ⟨0, 0, 0⟩)).2.2.2.2

/-- C10: the matrix obtained from the identity by `translate(t)`, then
`rotate(q)`, then `scale(s)` is `createTranslation(t) * createRotation(q) *
createScale(s)`, and transforming a point by it applies the scale first, then
the rotation, then the translation. -/
theorem C10_trs_composition_order (t : RVector3 K) (q : RQuaternion K) (s : RVector3 K)
    (p : RVector3 K) :
    RMatrix.scale (RMatrix.rotate (RMatrix.translate RMatrix.identity t) q) s
      = multiply (multiply (createTranslation t) (createRotation q)) (createScale s)
    ∧ transformPoint (RMatrix.scale (RMatrix.rotate (RMatrix.translate RMatrix.identity t) q) s) p
      = transformPoint (createTranslation t)
          (transformPoint (createRotation q) (transformPoint (createScale s) p)) := by
  have h1 : RMatrix.scale (RMatrix.rotate (RMatrix.translate RMatrix.identity t) q) s
      = multiply (multiply (createTranslation t) (createRotation q)) (createScale s) := by
    have ht : RMatrix.translate RMatrix.identity t = createTranslation t := by
      simp only [RMatrix.translate, translateXYZ, createTranslationXYZ, createTranslation, multiply,
        RMath.multiplyMatrix, identity, ctor, RMatrix.set, MATRIX_IDENTITY]
      refine RMatrix.ext ?_ ?_ ?_ ?_ ?_ ?_ ?_ ?_ ?_ ?_ ?_ ?_ ?_ ?_ ?_ ?_ <;>
      dsimp only <;>
      ring
    rw [ht]
    rfl
  refine ⟨h1, ?_⟩
  rw [h1]
  simp only [transformPoint, transformVectorXYZW, RMath.transformVector4, multiply,
    RMath.multiplyMatrix, createTranslation, createRotation, createScale, MATRIX_IDENTITY]
  refine RVector3.ext ?_ ?_ ?_ <;>
  dsimp only <;>
  ring

/-! ## createFromEuler -/

/-- The constant `MATRIX_IDENTITY` is neutral on the left of `multiply`. -/
theorem multiply_identity_left (M : RMatrix K) : multiply MATRIX_IDENTITY M = M := by
  simp only [multiply, RMath.multiplyMatrix, MATRIX_IDENTITY]
  refine RMatrix.ext ?_ ?_ ?_ ?_ ?_ ?_ ?_ ?_ ?_ ?_ ?_ ?_ ?_ ?_ ?_ ?_ <;>
  dsimp only <;>
  ring

/-- C11: `createFromEuler(yaw, pitch, roll)` is the stored-matrix product
`createRotationY(yaw) * createRotationX(pitch) * createRotationZ(roll)`, in that
left-to-right order: the identity post-multiplied by Y, then X, then Z. -/
theorem C11_createFromEuler_order (cos sin : K → K) (yaw pitch roll : K) :
    createFromEuler cos sin yaw pitch roll
      = multiply (multiply (createRotationY cos sin yaw) (createRotationX cos sin pitch))
          (createRotationZ cos sin roll)
    ∧ createFromEuler cos sin yaw pitch roll
      = rotateZ cos sin (rotateX cos sin (rotateY cos sin RMatrix.identity yaw) pitch) roll := by
  have hI : (RMatrix.identity : RMatrix K) = MATRIX_IDENTITY := rfl
  refine ⟨?_, ?_⟩
  · simp only [createFromEuler, rotateX, rotateY, rotateZ, multiply_identity_left]
  · simp only [createFromEuler, hI]

/-! ## createReflection and createBillboard -/

/-- The sixteen elements that `createReflection` writes: the factor `-2 d` times
the normal goes to `m[3], m[7], m[11]`, and `m[12], m[13], m[14]` stay zero. -/
theorem createReflection_eq (plane : RPlane K) :
    createReflection plane =
      { m0 := 1 - 2 * plane.normal.x * plane.normal.x,
        m1 := -2 * plane.normal.x * plane.normal.y,
        m2 := -2 * plane.normal.x * plane.normal.z,
        m3 := -2 * plane.distance * plane.normal.x,
        m4 := -2 * plane.normal.x * plane.normal.y,
        m5 := 1 - 2 * plane.normal.y * plane.normal.y,
        m6 := -2 * plane.normal.y * plane.normal.z,
        m7 := -2 * plane.distance * plane.normal.y,
        m8 := -2 * plane.normal.x * plane.normal.z,
        m9 := -2 * plane.normal.y * plane.normal.z,
        m10 := 1 - 2 * plane.normal.z * plane.normal.z,
        m11 := -2 * plane.distance * plane.normal.z,
        m12 := 0,
        m13 := 0,
        m14 := 0,
        m15 := 1 } := rfl

/-- C12 (the code at a failing input): for the plane with unit normal `(1, 0, 0)`
and distance `1`, `createReflection` leaves the translation components
`m[12], m[13], m[14]` at zero and writes `-2 d n` into the bottom row
`m[3], m[7], m[11]`; the point `(-1, 0, 0)` of the plane is sent to `(1, 0, 0)`
and the origin stays put, where the reflection would send it to `(-2, 0, 0)`. -/
theorem C12_createReflection_translation_in_bottom_row :
    createReflection ({ normal := { x := 1, y := 0, z := 0 }, distance := 1 } : RPlane ℚ)
      = { m0 := -1, m1 := 0, m2 := 0, m3 := -2,
          m4 := 0, m5 := 1, m6 := 0, m7 := 0,
          m8 := 0, m9 := 0, m10 := 1, m11 := 0,
          m12 := 0, m13 := 0, m14 := 0, m15 := 1 }
    ∧ RVector3.dot ({ x := 1, y := 0, z := 0 } : RVector3 ℚ) { x := -1, y := 0, z := 0 } + 1 = 0
    ∧ transformPoint
        (createReflection ({ normal := { x := 1, y := 0, z := 0 }, distance := 1 } : RPlane ℚ))
        { x := -1, y := 0, z := 0 } = { x := 1, y := 0, z := 0 }
    ∧ transformPoint
        (createReflection ({ normal := { x := 1, y := 0, z := 0 }, distance := 1 } : RPlane ℚ))
        { x := 0, y := 0, z := 0 } = { x := 0, y := 0, z := 0 } := by
  rw [createReflection_eq]
  refine ⟨?_, ?_, ?_, ?_⟩
  · refine RMatrix.ext ?_ ?_ ?_ ?_ ?_ ?_ ?_ ?_ ?_ ?_ ?_ ?_ ?_ ?_ ?_ ?_ <;>
    norm_num
  · norm_num [RVector3.dot]
  · simp only [transformPoint, transformVectorXYZW, RMath.transformVector4]
    refine RVector3.ext ?_ ?_ ?_ <;>
    norm_num
  · simp only [transformPoint, transformVectorXYZW, RMath.transformVector4]
    refine RVector3.ext ?_ ?_ ?_ <;>
    norm_num

/-- The result of `createBillboardHelper` without a forward vector when the
squared distance between object and camera is not above `eps`: the identity with
the object position written to `m[3], m[7], m[11]`. -/
theorem createBillboardHelper_degenerate (normalize : RVector3 K → RVector3 K) (eps : K)
    (objectPosition cameraPosition cameraUpVector : RVector3 K)
    (h : ¬ (RVector3.fromPoints objectPosition cameraPosition).lengthSquared > eps) :
    createBillboardHelper normalize eps objectPosition cameraPosition cameraUpVector none
      = { (MATRIX_IDENTITY : RMatrix K) with
          m3 := objectPosition.x,
          m7 := objectPosition.y,
          m11 := objectPosition.z } := by
  unfold createBillboardHelper
  simp [h, setIdentity]

/-- C13 (the code at a failing input): with object and camera both at `(1, 2, 3)`
and no forward vector, `createBillboard` returns the identity with the object
position in the bottom row `m[3], m[7], m[11]` and zeros in the translation
components `m[12], m[13], m[14]`, which is not `createTranslation((1, 2, 3))`. -/
theorem C13_createBillboard_degenerate_translation_in_bottom_row
    (normalize : RVector3 ℚ → RVector3 ℚ) (up : RVector3 ℚ) :
    createBillboard normalize (1 / 1000000) { x := 1, y := 2, z := 3 } { x := 1, y := 2, z := 3 }
        up
      = { m0 := 1, m1 := 0, m2 := 0, m3 := 1,
          m4 := 0, m5 := 1, m6 := 0, m7 := 2,
          m8 := 0, m9 := 0, m10 := 1, m11 := 3,
          m12 := 0, m13 := 0, m14 := 0, m15 := 1 }
    ∧ createBillboard normalize (1 / 1000000) { x := 1, y := 2, z := 3 }
        { x := 1, y := 2, z := 3 } up
      ≠ createTranslation { x := 1, y := 2, z := 3 } := by
  have hd : ¬ (RVector3.fromPoints ({ x := 1, y := 2, z := 3 } : RVector3 ℚ)
      { x := 1, y := 2, z := 3 }).lengthSquared > 1 / 1000000 := by
    simp only [RVector3.fromPoints, RVector3.lengthSquared]
    norm_num
  have he := createBillboardHelper_degenerate normalize (1 / 1000000)
    { x := 1, y := 2, z := 3 } { x := 1, y := 2, z := 3 } up hd
  unfold createBillboard
  rw [he]
  refine ⟨rfl, ?_⟩
  intro h
  have h3 := congrArg RMatrix.m3 h
  simp [createTranslation, MATRIX_IDENTITY] at h3

/-! ## transformPoint and transformVector -/

/-- C14: `createTranslation(t).transformPoint(p)` is `p + t`, so the origin maps to
`t` (to `(1, 2, 3)` for `createTranslation(1, 2, 3)`), and
`createTranslation(t).transformVector(p)` is `p`. -/
theorem C14_point_vs_direction (t p : RVector3 K) :
    transformPoint (createTranslation t) p = { x := p.x + t.x, y := p.y + t.y, z := p.z + t.z }
    ∧ transformVector (createTranslation t) p = p
    ∧ transformPoint (createTranslationXYZ 1 2 3) { x := (0 : K), y := 0, z := 0 }
        = { x := 1, y := 2, z := 3 }
    ∧ transformVector (createTranslationXYZ 1 2 3) { x := (0 : K), y := 0, z := 0 }
        = { x := 0, y := 0, z := 0 } := by
  refine ⟨?_, ?_, ?_, ?_⟩ <;>
  simp only [transformPoint, transformVector, transformVectorXYZW, RMath.transformVector4,
    createTranslation, createTranslationXYZ, MATRIX_IDENTITY] <;>
  refine RVector3.ext ?_ ?_ ?_ <;>
  dsimp only <;>
  ring

/-- C15: `createRotationZ(a)` sends the point `(x, y, z)` to
`(x cos a - y sin a, x sin a + y cos a, z)`; at an angle with `cos a = 0` and
`sin a = 1`, and so at `π / 2` over the reals, it sends `(1, 0, 0)` to
`(0, 1, 0)`. -/
theorem C15_createRotationZ_counter_clockwise (cos sin : K → K) (a x y z : K) :
    transformPoint (createRotationZ cos sin a) { x := x, y := y, z := z }
      = { x := x * cos a - y * sin a, y := x * sin a + y * cos a, z := z }
    ∧ (cos a = 0 → sin a = 1 →
        transformPoint (createRotationZ cos sin a) { x := 1, y := 0, z := 0 }
          = { x := 0, y := 1, z := 0 })
    ∧ transformPoint (createRotationZ Real.cos Real.sin (Real.pi / 2)) { x := 1, y := 0, z := 0 }
        = { x := 0, y := 1, z := 0 } := by
  have h : ∀ (F : Type) [LinearOrderedField F] (cs sn : F → F) (a x y z : F),
      transformPoint (createRotationZ cs sn a) { x := x, y := y, z := z }
        = { x := x * cs a - y * sn a, y := x * sn a + y * cs a, z := z } := by
    intro F _ cs sn a x y z
    simp only [transformPoint, transformVectorXYZW, RMath.transformVector4, createRotationZ,
      MATRIX_IDENTITY]
    refine RVector3.ext ?_ ?_ ?_ <;>
    dsimp only <;>
    ring
  refine ⟨h K cos sin a x y z, ?_, ?_⟩
  · intro hc hs
    rw [h K cos sin a 1 0 0, hc, hs]
    refine RVector3.ext ?_ ?_ ?_ <;>
    dsimp only <;>
    ring
  · rw [h ℝ Real.cos Real.sin (Real.pi / 2) 1 0 0, Real.cos_pi_div_two, Real.sin_pi_div_two]
    refine RVector3.ext ?_ ?_ ?_ <;>
    dsimp only <;>
    ring

/-! ## createRotation(axis, angle) -/

/-- In binary32 the axis `(1 - 2^-24, 0, 0)` is renormalised to `(1, 0, 0)`: the
squared length is computed as `1 - 2^-23`, its square root as `1 - 2^-24`, the
reciprocal as `1 + 2^-23`, and the product of the component by it as `1`. -/
theorem createRotationAxis_round32_pred_one :
    createRotationAxis round32 (fun v : ℝ => round32 (Real.sqrt v)) { x := 16777215 / 16777216, y := 0, z := 0 }
      = { x := 1, y := 0, z := 0 } := by
  have hn : round32 (round32 (round32 ((16777215 / 16777216 : ℝ) * (16777215 / 16777216))
      + round32 (0 * 0)) + round32 (0 * 0)) = 8388607 / 8388608 := by
    norm_num [round32_zero, round32_281474943156225_div_281474976710656, round32_8388607_div_8388608, round32_1_div_1000000, round32_16777216_div_16777215, round32_140737496743935_div_140737488355328, round32_3_div_5, round32_4_div_5, round32_25332749917225_div_70368744177664, round32_180143990463529_div_281474976710656, round32_16777217_div_16777216, round32_6981317_div_400000000, round32_157079632679489661923_div_100000000000000000000, round32_421657425_div_134217728, round32_13176795_div_8388608, round32_421657425_div_67108864, round32_13176795_div_4194304, round32_1264972275_div_134217728, round32_2470649_div_524288]
  simp only [createRotationAxis, fadd, fmul, fdiv, hn, round32_sqrt_pred_one]
  norm_num [round32_zero, round32_1, round32_281474943156225_div_281474976710656, round32_8388607_div_8388608, round32_1_div_1000000, round32_16777216_div_16777215, round32_140737496743935_div_140737488355328, round32_3_div_5, round32_4_div_5, round32_25332749917225_div_70368744177664, round32_180143990463529_div_281474976710656, round32_16777217_div_16777216, round32_6981317_div_400000000, round32_157079632679489661923_div_100000000000000000000, round32_421657425_div_134217728, round32_13176795_div_8388608, round32_421657425_div_67108864, round32_13176795_div_4194304, round32_1264972275_div_134217728, round32_2470649_div_524288]

/-- In binary32 the axis `(0.6f, 0.8f, 0)`, whose squared length is not 1, is used
unchanged: the squared length is computed as `1`. -/
theorem createRotationAxis_round32_three_four_five [FloorRing K] (sqrt : K → K) :
    createRotationAxis round32 sqrt { x := round32 (3 / 5), y := round32 (4 / 5), z := 0 }
      = { x := round32 (3 / 5), y := round32 (4 / 5), z := 0 }
    ∧ round32 (3 / 5 : K) * round32 (3 / 5) + round32 (4 / 5 : K) * round32 (4 / 5) + 0 * 0
      ≠ 1 := by
  constructor
  · simp only [createRotationAxis, fadd, fmul, fdiv]
    norm_num [round32_zero, round32_1, round32_281474943156225_div_281474976710656, round32_8388607_div_8388608, round32_1_div_1000000, round32_16777216_div_16777215, round32_140737496743935_div_140737488355328, round32_3_div_5, round32_4_div_5, round32_25332749917225_div_70368744177664, round32_180143990463529_div_281474976710656, round32_16777217_div_16777216, round32_6981317_div_400000000, round32_157079632679489661923_div_100000000000000000000, round32_421657425_div_134217728, round32_13176795_div_8388608, round32_421657425_div_67108864, round32_13176795_div_4194304, round32_1264972275_div_134217728, round32_2470649_div_524288]
  · norm_num [round32_zero, round32_1, round32_281474943156225_div_281474976710656, round32_8388607_div_8388608, round32_1_div_1000000, round32_16777216_div_16777215, round32_140737496743935_div_140737488355328, round32_3_div_5, round32_4_div_5, round32_25332749917225_div_70368744177664, round32_180143990463529_div_281474976710656, round32_16777217_div_16777216, round32_6981317_div_400000000, round32_157079632679489661923_div_100000000000000000000, round32_421657425_div_134217728, round32_13176795_div_8388608, round32_421657425_div_67108864, round32_13176795_div_4194304, round32_1264972275_div_134217728, round32_2470649_div_524288]

/-- C16 as stated fails. The axis `(1 - 2^-24, 0, 0)` is a binary32 value whose
squared length differs from 1 by less than `2^-23` (the float epsilon) and
less than `MATH_EPSILON`, so the policy of the specification uses it unchanged;
the code computes the squared length `1 - 2^-23`, finds it different from
`1.0f`, and renormalises the axis to `(1, 0, 0)`. -/
theorem C16_counterexample_binary32_axis_within_epsilon :
    createRotationAxis round32 (fun v : ℝ => round32 (Real.sqrt v)) { x := 16777215 / 16777216, y := 0, z := 0 }
      = { x := 1, y := 0, z := 0 }
    ∧ createRotationAxisSpec (1 / 8388608) (fun v : ℝ => round32 (Real.sqrt v)) { x := 16777215 / 16777216, y := 0, z := 0 }
      = { x := 16777215 / 16777216, y := 0, z := 0 }
    ∧ createRotationAxisSpec (round32 (1 / 1000000)) (fun v : ℝ => round32 (Real.sqrt v)) { x := 16777215 / 16777216, y := 0, z := 0 }
      = { x := 16777215 / 16777216, y := 0, z := 0 }
    ∧ createRotationAxis round32 (fun v : ℝ => round32 (Real.sqrt v)) { x := 16777215 / 16777216, y := 0, z := 0 }
      ≠ createRotationAxisSpec (1 / 8388608) (fun v : ℝ => round32 (Real.sqrt v)) { x := 16777215 / 16777216, y := 0, z := 0 } := by
  have h2 : createRotationAxisSpec (1 / 8388608) (fun v : ℝ => round32 (Real.sqrt v)) { x := 16777215 / 16777216, y := 0, z := 0 }
      = { x := 16777215 / 16777216, y := 0, z := 0 } := by
    have hn : ¬ (|(16777215 / 16777216 : ℝ) * (16777215 / 16777216) + 0 * 0 + 0 * 0 - 1|
        > 1 / 8388608) := by
      rw [abs_of_neg (by norm_num)]
      norm_num
    simp only [createRotationAxisSpec, hn, false_and, if_false]
  have h3 : createRotationAxisSpec (round32 (1 / 1000000)) (fun v : ℝ => round32 (Real.sqrt v)) { x := 16777215 / 16777216, y := 0, z := 0 }
      = { x := 16777215 / 16777216, y := 0, z := 0 } := by
    have hn : ¬ (|(16777215 / 16777216 : ℝ) * (16777215 / 16777216) + 0 * 0 + 0 * 0 - 1|
        > round32 (1 / 1000000)) := by
      rw [abs_of_neg (by norm_num), round32_1_div_1000000]
      norm_num
    simp only [createRotationAxisSpec, hn, false_and, if_false]
  refine ⟨createRotationAxis_round32_pred_one, h2, h3, ?_⟩
  rw [createRotationAxis_round32_pred_one, h2]
  intro h
  have hx := congrArg RVector3.x h
  norm_num at hx

/-- C16 amended: the axis is renormalised (each component multiplied by the
computed `1 / length`) exactly when the squared length as computed in float
arithmetic is not equal to 1 and the computed length exceeds `0.000001f`; in
every other case the components are used unchanged; the matrix is the
Rodrigues formula on the resulting components. -/
theorem C16_axis_renormalised_iff_computed_length_not_one (fl sqrt cos sin : K → K)
    (axis : RVector3 K) (angle : K) :
    createRotationAxis fl sqrt axis
      = (if fadd fl (fadd fl (fmul fl axis.x axis.x) (fmul fl axis.y axis.y))
              (fmul fl axis.z axis.z) ≠ 1
            ∧ sqrt (fadd fl (fadd fl (fmul fl axis.x axis.x) (fmul fl axis.y axis.y))
                (fmul fl axis.z axis.z)) > fl (1 / 1000000)
         then { x := fmul fl axis.x (fdiv fl 1 (sqrt (fadd fl (fadd fl (fmul fl axis.x axis.x)
                  (fmul fl axis.y axis.y)) (fmul fl axis.z axis.z)))),
                y := fmul fl axis.y (fdiv fl 1 (sqrt (fadd fl (fadd fl (fmul fl axis.x axis.x)
                  (fmul fl axis.y axis.y)) (fmul fl axis.z axis.z)))),
                z := fmul fl axis.z (fdiv fl 1 (sqrt (fadd fl (fadd fl (fmul fl axis.x axis.x)
                  (fmul fl axis.y axis.y)) (fmul fl axis.z axis.z)))) }
         else axis)
    ∧ createRotationAxisAngle fl sqrt cos sin axis angle
      = createRotationFromAxis fl cos sin (createRotationAxis fl sqrt axis).x
          (createRotationAxis fl sqrt axis).y (createRotationAxis fl sqrt axis).z angle := by
  refine ⟨?_, rfl⟩
  unfold createRotationAxis
  dsimp only
  by_cases h1 : fadd fl (fadd fl (fmul fl axis.x axis.x) (fmul fl axis.y axis.y))
      (fmul fl axis.z axis.z) ≠ 1
  · by_cases h2 : sqrt (fadd fl (fadd fl (fmul fl axis.x axis.x) (fmul fl axis.y axis.y))
        (fmul fl axis.z axis.z)) > fl (1 / 1000000)
    · simp only [h1, h2, and_self, if_true, ne_eq, not_false_eq_true]
    · simp only [h1, h2, and_false, if_false, if_true, ne_eq, not_false_eq_true]
  · simp only [h1, false_and, if_false]

/-! ## createPerspective -/

/-- The exact remainder of an integer multiple of `y` by `y` is zero. -/
theorem fmodExact_int_mul [FloorRing K] (k : ℤ) (y : K) : fmodExact ((k : K) * y) y = 0 := by
  unfold fmodExact
  by_cases hy : y = 0
  · simp [hy]
  · have hk : (k : K) * y / y = k := by field_simp
    rw [hk]
    split_ifs <;> simp

/-- In binary32 with the customary macros, `theta` is `MATH_PIOVER2` for a field of
view of 180 degrees. -/
theorem theta_round32_180 [FloorRing K] :
    fmul round32 (degToRadCustomary round32 (180 : K)) (1 / 2) = piOver2Customary round32 := by
  norm_num [fmul, degToRadCustomary, piOver2Customary, round32_zero, round32_281474943156225_div_281474976710656, round32_8388607_div_8388608, round32_1_div_1000000, round32_16777216_div_16777215, round32_140737496743935_div_140737488355328, round32_3_div_5, round32_4_div_5, round32_25332749917225_div_70368744177664, round32_180143990463529_div_281474976710656, round32_16777217_div_16777216, round32_6981317_div_400000000, round32_157079632679489661923_div_100000000000000000000, round32_421657425_div_134217728, round32_13176795_div_8388608, round32_421657425_div_67108864, round32_13176795_div_4194304, round32_1264972275_div_134217728, round32_2470649_div_524288]

/-- In binary32 with the customary macros, `theta` is twice `MATH_PIOVER2` for a
field of view of 360 degrees. -/
theorem theta_round32_360 [FloorRing K] :
    fmul round32 (degToRadCustomary round32 (360 : K)) (1 / 2)
      = 2 * piOver2Customary round32 := by
  norm_num [fmul, degToRadCustomary, piOver2Customary, round32_zero, round32_281474943156225_div_281474976710656, round32_8388607_div_8388608, round32_1_div_1000000, round32_16777216_div_16777215, round32_140737496743935_div_140737488355328, round32_3_div_5, round32_4_div_5, round32_25332749917225_div_70368744177664, round32_180143990463529_div_281474976710656, round32_16777217_div_16777216, round32_6981317_div_400000000, round32_157079632679489661923_div_100000000000000000000, round32_421657425_div_134217728, round32_13176795_div_8388608, round32_421657425_div_67108864, round32_13176795_div_4194304, round32_1264972275_div_134217728, round32_2470649_div_524288]

/-- In binary32 with the customary macros, `theta` is `2^-23` short of three times
`MATH_PIOVER2` for a field of view of 540 degrees. -/
theorem theta_round32_540 [FloorRing K] :
    fmul round32 (degToRadCustomary round32 (540 : K)) (1 / 2)
      = 3 * piOver2Customary round32 - 1 / 8388608 := by
  norm_num [fmul, degToRadCustomary, piOver2Customary, round32_zero, round32_281474943156225_div_281474976710656, round32_8388607_div_8388608, round32_1_div_1000000, round32_16777216_div_16777215, round32_140737496743935_div_140737488355328, round32_3_div_5, round32_4_div_5, round32_25332749917225_div_70368744177664, round32_180143990463529_div_281474976710656, round32_16777217_div_16777216, round32_6981317_div_400000000, round32_157079632679489661923_div_100000000000000000000, round32_421657425_div_134217728, round32_13176795_div_8388608, round32_421657425_div_67108864, round32_13176795_div_4194304, round32_1264972275_div_134217728, round32_2470649_div_524288]

/-- The customary `MATH_EPSILON` in binary32 is positive. -/
theorem epsCustomary_round32_pos [FloorRing K] : (0 : K) < epsCustomary round32 := by
  norm_num [epsCustomary, round32_281474943156225_div_281474976710656, round32_8388607_div_8388608, round32_1_div_1000000, round32_16777216_div_16777215, round32_140737496743935_div_140737488355328, round32_3_div_5, round32_4_div_5, round32_25332749917225_div_70368744177664, round32_180143990463529_div_281474976710656, round32_16777217_div_16777216, round32_6981317_div_400000000, round32_157079632679489661923_div_100000000000000000000, round32_421657425_div_134217728, round32_13176795_div_8388608, round32_421657425_div_67108864, round32_13176795_div_4194304, round32_1264972275_div_134217728, round32_2470649_div_524288]

/-- The remainder of `3 * MATH_PIOVER2 - 2^-23` by `MATH_PIOVER2` is
`MATH_PIOVER2 - 2^-23`. -/
theorem fmodExact_theta_540 [FloorRing K] :
    fmodExact (3 * piOver2Customary round32 - 1 / 8388608 : K) (piOver2Customary round32)
      = 13176794 / 8388608 := by
  have hq : (3 * (13176795 / 8388608) - 1 / 8388608 : K) / (13176795 / 8388608)
      = 39530384 / 13176795 := by norm_num
  have hfloor : ⌊(39530384 / 13176795 : K)⌋ = 2 := by
    rw [Int.floor_eq_iff]
    norm_num
  have hpos : (0 : K) ≤ 39530384 / 13176795 := by norm_num
  unfold fmodExact piOver2Customary
  rw [round32_157079632679489661923_div_100000000000000000000, hq, if_pos hpos, hfloor]
  norm_num

/-- When the test of line 118 holds, `createPerspective` returns without writing. -/
theorem createPerspective_of_guard (fl degToRad : K → K) (piOver2 eps : K) (fmod : K → K → K)
    (tan : K → K) (fieldOfView aspectRatio zNearPlane zFarPlane : K) (dst : RMatrix K)
    (h : |fmod (fmul fl (degToRad fieldOfView) (1 / 2)) piOver2| < eps) :
    createPerspective fl degToRad piOver2 eps fmod tan fieldOfView aspectRatio zNearPlane
      zFarPlane dst = dst := by
  unfold createPerspective
  simp only [h, if_true]

/-- When the test of line 118 fails, `createPerspective` writes a matrix that does
not depend on what `dst` held, with `m[11] = -1`. -/
theorem createPerspective_of_not_guard (fl degToRad : K → K) (piOver2 eps : K)
    (fmod : K → K → K) (tan : K → K) (fieldOfView aspectRatio zNearPlane zFarPlane : K)
    (dst : RMatrix K) (h : ¬ |fmod (fmul fl (degToRad fieldOfView) (1 / 2)) piOver2| < eps) :
    (createPerspective fl degToRad piOver2 eps fmod tan fieldOfView aspectRatio zNearPlane
      zFarPlane dst).m11 = -1
    ∧ createPerspective fl degToRad piOver2 eps fmod tan fieldOfView aspectRatio zNearPlane
        zFarPlane dst
      = createPerspective fl degToRad piOver2 eps fmod tan fieldOfView aspectRatio zNearPlane
        zFarPlane RMatrix.zero := by
  unfold createPerspective
  simp only [h, if_false, and_self]

/-- In binary32 with the customary macros the test of line 118 holds for a field
of view of 0, 180 and 360 degrees. -/
theorem guard_round32_customary [FloorRing K] :
    |fmodExact (fmul round32 (degToRadCustomary round32 (0 : K)) (1 / 2))
        (piOver2Customary round32)| < epsCustomary round32
    ∧ |fmodExact (fmul round32 (degToRadCustomary round32 (180 : K)) (1 / 2))
        (piOver2Customary round32)| < epsCustomary round32
    ∧ |fmodExact (fmul round32 (degToRadCustomary round32 (360 : K)) (1 / 2))
        (piOver2Customary round32)| < epsCustomary round32 := by
  have h0 : fmul round32 (degToRadCustomary round32 (0 : K)) (1 / 2)
      = ((0 : ℤ) : K) * piOver2Customary round32 := by
    norm_num [fmul, degToRadCustomary, round32_zero]
  have h1 : fmul round32 (degToRadCustomary round32 (180 : K)) (1 / 2)
      = ((1 : ℤ) : K) * piOver2Customary round32 := by
    rw [theta_round32_180]
    norm_num
  have h2 : fmul round32 (degToRadCustomary round32 (360 : K)) (1 / 2)
      = ((2 : ℤ) : K) * piOver2Customary round32 := by
    rw [theta_round32_360]
    norm_num
  rw [h0, h1, h2, fmodExact_int_mul, fmodExact_int_mul, fmodExact_int_mul, abs_zero]
  exact ⟨epsCustomary_round32_pos, epsCustomary_round32_pos, epsCustomary_round32_pos⟩

/-- In binary32 with the customary macros the test of line 118 fails for a field of
view of 540 degrees: the remainder is `MATH_PIOVER2 - 2^-23`. -/
theorem not_guard_round32_540 [FloorRing K] :
    ¬ |fmodExact (fmul round32 (degToRadCustomary round32 (540 : K)) (1 / 2))
        (piOver2Customary round32)| < epsCustomary round32 := by
  rw [theta_round32_540, fmodExact_theta_540, epsCustomary, round32_1_div_1000000,
    abs_of_pos (by norm_num)]
  norm_num

/-- C17 as stated fails in binary32 arithmetic with the customary macros
(`MATH_DEG_TO_RAD(x)` is `x * 0.0174532925f`, `MATH_PIOVER2` is
`1.57079632679489661923f`, `MATH_EPSILON` is `0.000001f`): for a field of view of
540 degrees, whose half is three times 90 degrees, `theta` is computed `2^-23`
short of `3 * MATH_PIOVER2`, the remainder is about 1.5708, the test fails and
`dst`, which held the zero matrix, is overwritten (`m[11]` becomes `-1`). -/
theorem C17_counterexample_binary32_fov_540 :
    (createPerspective round32 (degToRadCustomary round32) (piOver2Customary round32)
        (epsCustomary round32) fmodExact
        (fun x : ℝ => round32 (Real.tan x)) 540 (4 / 3) (1 / 10) 100 RMatrix.zero).m11 = -1
    ∧ createPerspective round32 (degToRadCustomary round32) (piOver2Customary round32)
        (epsCustomary round32) fmodExact
        (fun x : ℝ => round32 (Real.tan x)) 540 (4 / 3) (1 / 10) 100 RMatrix.zero
      ≠ RMatrix.zero := by
  have h := (createPerspective_of_not_guard round32 (degToRadCustomary round32)
    (piOver2Customary round32) (epsCustomary round32) fmodExact
    (fun x : ℝ => round32 (Real.tan x)) 540 (4 / 3) (1 / 10) 100 RMatrix.zero
    not_guard_round32_540).1
  refine ⟨h, ?_⟩
  intro he
  rw [he] at h
  norm_num [RMatrix.zero, RMatrix.ctor, RMatrix.set] at h

/-- C17 amended: `createPerspective` returns without writing, so that all sixteen
elements of `dst` are as before the call, when the remainder of the computed
`theta = MATH_DEG_TO_RAD(fieldOfView) * 0.5f` by `MATH_PIOVER2` is below
`MATH_EPSILON` in absolute value; otherwise it overwrites `dst` with a matrix
that does not depend on what `dst` held and has `m[11] = -1`. In binary32 with
the customary macros it returns without writing for a field of view of 0, of
180 and of 360 degrees, for every aspect ratio, near and far plane. -/
theorem C17_createPerspective_silent_failure_on_computed_theta [FloorRing K]
    (fl degToRad : K → K) (piOver2 eps : K) (fmod : K → K → K) (tan : K → K)
    (fieldOfView aspectRatio zNearPlane zFarPlane : K) (dst : RMatrix K) :
    (|fmod (fmul fl (degToRad fieldOfView) (1 / 2)) piOver2| < eps →
      createPerspective fl degToRad piOver2 eps fmod tan fieldOfView aspectRatio zNearPlane
        zFarPlane dst = dst)
    ∧ (¬ |fmod (fmul fl (degToRad fieldOfView) (1 / 2)) piOver2| < eps →
      (createPerspective fl degToRad piOver2 eps fmod tan fieldOfView aspectRatio zNearPlane
        zFarPlane dst).m11 = -1
      ∧ createPerspective fl degToRad piOver2 eps fmod tan fieldOfView aspectRatio zNearPlane
          zFarPlane dst
        = createPerspective fl degToRad piOver2 eps fmod tan fieldOfView aspectRatio zNearPlane
          zFarPlane RMatrix.zero)
    ∧ createPerspective round32 (degToRadCustomary round32) (piOver2Customary round32)
        (epsCustomary round32) fmodExact
        tan 0 aspectRatio zNearPlane zFarPlane dst = dst
    ∧ createPerspective round32 (degToRadCustomary round32) (piOver2Customary round32)
        (epsCustomary round32) fmodExact
        tan 180 aspectRatio zNearPlane zFarPlane dst = dst
    ∧ createPerspective round32 (degToRadCustomary round32) (piOver2Customary round32)
        (epsCustomary round32) fmodExact
        tan 360 aspectRatio zNearPlane zFarPlane dst = dst :=
  ⟨createPerspective_of_guard fl degToRad piOver2 eps fmod tan fieldOfView aspectRatio
      zNearPlane zFarPlane dst,
   createPerspective_of_not_guard fl degToRad piOver2 eps fmod tan fieldOfView aspectRatio
      zNearPlane zFarPlane dst,
   createPerspective_of_guard _ _ _ _ _ tan 0 aspectRatio zNearPlane zFarPlane dst
      guard_round32_customary.1,
   createPerspective_of_guard _ _ _ _ _ tan 180 aspectRatio zNearPlane zFarPlane dst
      guard_round32_customary.2.1,
   createPerspective_of_guard _ _ _ _ _ tan 360 aspectRatio zNearPlane zFarPlane dst
      guard_round32_customary.2.2⟩

/-! ## isIdentity -/

/-- Reading back the element just written. -/
theorem get_write_same {F : Type} (a : RMatrix F) (i : Fin 16) (v : F) :
    (a.write i v).get i = v := by
  fin_cases i <;> rfl

/-- C18: a default-constructed matrix and `identity()` satisfy `isIdentity()`;
`isIdentity()` holds exactly when all sixteen elements equal those of the
identity; and writing a different value to any single element of the identity
makes `isIdentity()` false. -/
theorem C18_isIdentity_exact (m : RMatrix K) (i : Fin 16) (v : K) :
    isIdentity (RMatrix.default : RMatrix K) = true
    ∧ isIdentity (RMatrix.identity : RMatrix K) = true
    ∧ (isIdentity m = true ↔ ∀ j : Fin 16, m.get j = (RMatrix.identity : RMatrix K).get j)
    ∧ (v ≠ (RMatrix.identity : RMatrix K).get i →
        isIdentity ((RMatrix.identity : RMatrix K).write i v) = false) := by
  have hI : (RMatrix.identity : RMatrix K) = MATRIX_IDENTITY := rfl
  have hiff : ∀ a : RMatrix K, isIdentity a = true ↔ a = MATRIX_IDENTITY := by
    intro a
    simp only [isIdentity, decide_eq_true_eq]
  refine ⟨(hiff _).mpr rfl, (hiff _).mpr rfl, ?_, ?_⟩
  · rw [hiff, hI]
    constructor
    · intro h j
      rw [h]
    · intro h
      refine RMatrix.ext (h 0) (h 1) (h 2) (h 3) (h 4) (h 5) (h 6) (h 7) (h 8) (h 9) (h 10)
        (h 11) (h 12) (h 13) (h 14) (h 15)
  · intro hv
    rw [Bool.eq_false_iff]
    intro ht
    rw [hiff] at ht
    apply hv
    have hg := get_write_same (RMatrix.identity : RMatrix K) i v
    rw [ht] at hg
    rw [← hg, hI]

/-! ## determinant -/

/-- The Laplace expansion of a 4x4 determinant along its first row. -/
theorem det_fin_four_expand {R : Type} [CommRing R] (A : Matrix (Fin 4) (Fin 4) R) :
    A.det =
      A 0 0 * (A 1 1 * A 2 2 * A 3 3 - A 1 1 * A 2 3 * A 3 2 - A 1 2 * A 2 1 * A 3 3
        + A 1 2 * A 2 3 * A 3 1 + A 1 3 * A 2 1 * A 3 2 - A 1 3 * A 2 2 * A 3 1)
      - A 0 1 * (A 1 0 * A 2 2 * A 3 3 - A 1 0 * A 2 3 * A 3 2 - A 1 2 * A 2 0 * A 3 3
        + A 1 2 * A 2 3 * A 3 0 + A 1 3 * A 2 0 * A 3 2 - A 1 3 * A 2 2 * A 3 0)
      + A 0 2 * (A 1 0 * A 2 1 * A 3 3 - A 1 0 * A 2 3 * A 3 1 - A 1 1 * A 2 0 * A 3 3
        + A 1 1 * A 2 3 * A 3 0 + A 1 3 * A 2 0 * A 3 1 - A 1 3 * A 2 1 * A 3 0)
      - A 0 3 * (A 1 0 * A 2 1 * A 3 2 - A 1 0 * A 2 2 * A 3 1 - A 1 1 * A 2 0 * A 3 2
        + A 1 1 * A 2 2 * A 3 0 + A 1 2 * A 2 0 * A 3 1 - A 1 2 * A 2 1 * A 3 0) := by
  have e1 : Fin.succ (2 : Fin 3) = (3 : Fin 4) := rfl
  have e2 : Fin.succAbove (1 : Fin 4) (2 : Fin 3) = 3 := by decide
  have e3 : Fin.succAbove (2 : Fin 4) (2 : Fin 3) = 3 := by decide
  have e4 : Fin.succAbove (3 : Fin 4) (2 : Fin 3) = 2 := by decide
  rw [Matrix.det_succ_row_zero]
  simp only [Fin.sum_univ_succ, Matrix.det_fin_three, Matrix.submatrix_apply,
    Fin.succ_zero_eq_one, Fin.succ_one_eq_two, Fin.val_zero, Fin.val_succ,
    Fin.zero_succAbove, Fin.succ_succAbove_zero, Fin.succ_succAbove_one,
    Fin.succ_succAbove_succ, Finset.univ_unique, Finset.sum_singleton, Fin.default_eq_zero,
    e1, e2, e3, e4]
  ring

/-- The entries of the logical matrix. -/
theorem toMatrix_apply {F : Type} (m : RMatrix F) (r c : Fin 4) :
    m.toMatrix r c = m.elem r c := rfl

/-- The value of `determinant()` is the determinant of the logical 4x4 matrix. -/
theorem determinant_eq_det (m : RMatrix K) : m.determinant = m.toMatrix.det := by
  rw [det_fin_four_expand]
  simp only [toMatrix_apply]
  show m.determinant =
      m.m0 * (m.m5 * m.m10 * m.m15 - m.m5 * m.m14 * m.m11 - m.m9 * m.m6 * m.m15
        + m.m9 * m.m14 * m.m7 + m.m13 * m.m6 * m.m11 - m.m13 * m.m10 * m.m7)
      - m.m4 * (m.m1 * m.m10 * m.m15 - m.m1 * m.m14 * m.m11 - m.m9 * m.m2 * m.m15
        + m.m9 * m.m14 * m.m3 + m.m13 * m.m2 * m.m11 - m.m13 * m.m10 * m.m3)
      + m.m8 * (m.m1 * m.m6 * m.m15 - m.m1 * m.m14 * m.m7 - m.m5 * m.m2 * m.m15
        + m.m5 * m.m14 * m.m3 + m.m13 * m.m2 * m.m7 - m.m13 * m.m6 * m.m3)
      - m.m12 * (m.m1 * m.m6 * m.m11 - m.m1 * m.m10 * m.m7 - m.m5 * m.m2 * m.m11
        + m.m5 * m.m10 * m.m3 + m.m9 * m.m2 * m.m7 - m.m9 * m.m6 * m.m3)
  simp only [RMatrix.determinant]
  ring

/-! ## invert and determinant in float arithmetic -/

/-- With exact operations `determinantR` is `determinant`. -/
theorem determinantR_exact (m : RMatrix K) : determinantR (fun x => x) m = determinant m :=
  rfl

/-- With exact operations `multiplyR` is `multiply`. -/
theorem multiplyR_exact (m1 m2 : RMatrix K) : multiplyR (fun x => x) m1 m2 = multiply m1 m2 :=
  rfl

/-- The boolean returned by `invertR` is false exactly when the determinant it
computed is within the tolerance. -/
theorem invertR_fst (fl : K → K) (tol : K) (m dst : RMatrix K) :
    (invertR fl tol m dst).1 = false ↔ |determinantR fl m| ≤ tol := by
  unfold invertR determinantR
  dsimp only
  split_ifs with h
  · exact ⟨fun _ => h, fun _ => rfl⟩
  · exact ⟨fun hf => absurd hf (by decide), fun hs => absurd hs h⟩

/-- With exact operations `invertR` is `invert`. -/
theorem invertR_exact (tol : K) (m dst : RMatrix K) :
    invertR (fun x => x) tol m dst = invert tol m dst := by
  unfold invertR invert
  simp only [fadd, fsub, fmul, fdiv, multiplyScalarR, multiplyScalar,
    RMath.multiplyMatrixScalarR, RMath.multiplyMatrixScalar, neg_mul]

/-- The determinant computed under a rounding that keeps zero is zero on the
all-zero matrix. -/
theorem determinantR_zero (fl : K → K) (hfl0 : fl 0 = 0) :
    determinantR fl (RMatrix.zero : RMatrix K) = 0 := by
  simp only [determinantR, fadd, fsub, fmul, RMatrix.zero, RMatrix.ctor, RMatrix.set,
    mul_zero, sub_zero, add_zero, hfl0]

/-- Under a rounding that keeps zero, commutes with negation and fixes its own
values, the computed determinant is zero when rows 1 and 2 are identical. -/
theorem determinantR_rows_1_2 (fl : K → K) (hfl0 : fl 0 = 0) (hneg : ∀ x, fl (-x) = -fl x)
    (hidem : ∀ x, fl (fl x) = fl x) (m : RMatrix K) (h0 : m.m1 = m.m2) (h1 : m.m5 = m.m6)
    (h2 : m.m9 = m.m10) (h3 : m.m13 = m.m14) : determinantR fl m = 0 := by
  simp only [determinantR, fadd, fsub, fmul, h0, h1, h2, h3, sub_self, hfl0, mul_zero, zero_mul,
    add_zero, zero_sub, hneg, hidem, neg_add_cancel]

/-- Under a rounding that keeps zero, commutes with negation and fixes its own
values, the computed determinant is zero when rows 2 and 3 are identical. -/
theorem determinantR_rows_2_3 (fl : K → K) (hfl0 : fl 0 = 0) (hneg : ∀ x, fl (-x) = -fl x)
    (hidem : ∀ x, fl (fl x) = fl x) (m : RMatrix K) (h0 : m.m2 = m.m3) (h1 : m.m6 = m.m7)
    (h2 : m.m10 = m.m11) (h3 : m.m14 = m.m15) : determinantR fl m = 0 := by
  simp only [determinantR, fadd, fsub, fmul, h0, h1, h2, h3, sub_self, hfl0, mul_zero, zero_mul,
    add_zero, zero_add, zero_sub, hneg, hidem, neg_add_cancel]

/-- Under a rounding that keeps zero, commutes with negation and fixes its own
values, the computed determinant is zero when rows 1 and 3 are identical. -/
theorem determinantR_rows_1_3 (fl : K → K) (hfl0 : fl 0 = 0) (hneg : ∀ x, fl (-x) = -fl x)
    (hidem : ∀ x, fl (fl x) = fl x) (m : RMatrix K) (h0 : m.m1 = m.m3) (h1 : m.m5 = m.m7)
    (h2 : m.m9 = m.m11) (h3 : m.m13 = m.m15) : determinantR fl m = 0 := by
  have key : ∀ x y : K, fl (x - y) = -fl (y - x) := by
    intro x y
    rw [← hneg, neg_sub]
  simp only [determinantR, fadd, fsub, fmul, h0, h1, h2, h3, sub_self, hfl0, mul_zero, zero_mul]
  rw [key (fl (m.m2 * m.m7)) (fl (m.m3 * m.m6)), key (fl (m.m10 * m.m15)) (fl (m.m11 * m.m14))]
  simp only [mul_neg, neg_mul, sub_zero, add_zero, zero_add, hneg, hidem, neg_add_cancel,
    add_neg_cancel, hfl0]

/-- Under a rounding that keeps zero, commutes with negation and fixes its own
values, the computed determinant is zero when two of the rows 1, 2, 3 are
identical. -/
theorem determinantR_eq_zero_of_rows_eq (fl : K → K) (hfl0 : fl 0 = 0)
    (hneg : ∀ x, fl (-x) = -fl x) (hidem : ∀ x, fl (fl x) = fl x) (m : RMatrix K)
    (i j : Fin 4) (hij : i ≠ j) (hi : i ≠ 0) (hj : j ≠ 0)
    (hrow : ∀ c : Fin 4, m.elem i c = m.elem j c) : determinantR fl m = 0 := by
  have h0 := hrow 0
  have h1 := hrow 1
  have h2 := hrow 2
  have h3 := hrow 3
  fin_cases i <;> fin_cases j <;>
    first
    | exact absurd rfl hij
    | exact absurd rfl hi
    | exact absurd rfl hj
    | exact determinantR_rows_1_2 fl hfl0 hneg hidem m h0 h1 h2 h3
    | exact determinantR_rows_1_2 fl hfl0 hneg hidem m h0.symm h1.symm h2.symm h3.symm
    | exact determinantR_rows_1_3 fl hfl0 hneg hidem m h0 h1 h2 h3
    | exact determinantR_rows_1_3 fl hfl0 hneg hidem m h0.symm h1.symm h2.symm h3.symm
    | exact determinantR_rows_2_3 fl hfl0 hneg hidem m h0 h1 h2 h3
    | exact determinantR_rows_2_3 fl hfl0 hneg hidem m h0.symm h1.symm h2.symm h3.symm

/-- In binary32 the determinant computed for the matrix with rows
`(9001, 9003, 0, 0)`, `(9010, 9012, 0, 0)`, `(0, 0, 1, 0)`, `(0, 0, 0, 1)` is `-24`:
both products `9001 * 9012 = 81117012` and `9010 * 9003 = 81117030` are rounded. -/
theorem determinantR_round32_cancellation [FloorRing K] : determinantR round32
    (RMatrix.ctor 9001 9003 0 0 9010 9012 0 0 0 0 1 0 0 0 0 1 : RMatrix K) = -24 := by
  norm_num [determinantR, fadd, fsub, fmul, RMatrix.ctor, RMatrix.set, round32_zero, round32_neg,
    round32_81117012, round32_81117030, round32_24, round32_1]

/-- The exact determinant of the same matrix is `-18`. -/
theorem determinant_cancellation :
    (RMatrix.ctor 9001 9003 0 0 9010 9012 0 0 0 0 1 0 0 0 0 1 : RMatrix K).toMatrix.det
      = -18 := by
  rw [← determinant_eq_det]
  norm_num [determinant, RMatrix.ctor, RMatrix.set]

/-- In binary32 `invert` succeeds on that matrix and writes the adjugate divided by
`-24`. -/
theorem invertR_round32_cancellation [FloorRing K] : invertR round32 (1 / 1048576)
    (RMatrix.ctor 9001 9003 0 0 9010 9012 0 0 0 0 1 0 0 0 0 1 : RMatrix K) RMatrix.zero
    = (true, RMatrix.ctor (-(751 / 2)) (3001 / 8) 0 0 (6150827 / 16384) (-(6144683 / 16384)) 0 0
        0 0 1 0 0 0 0 1) := by
  norm_num [invertR, multiplyScalarR, RMath.multiplyMatrixScalarR, fadd, fsub, fmul, fdiv,
    RMatrix.ctor, RMatrix.set, RMatrix.zero, RMatrix.default, MATRIX_IDENTITY,
    round32_zero, round32_neg, round32_81117012, round32_81117030, round32_24, round32_1, round32_9012, round32_9010, round32_9003, round32_9001, round32_1_div_24, round32_25199379183_div_67108864, round32_50387573555_div_134217728, round32_100696853433_div_268435456, round32_100674483811_div_268435456, round32_33554433_div_33554432, round32_6759751_div_2, round32_55375895481_div_16384, round32_3383255, round32_13857813231_div_4096, round32_1_div_4, round32_27012001_div_8, round32_55320581049_div_16384, round32_13519505_div_4, round32_13843970799_div_4096, round32_1_div_2, round32_3_div_4, round32_55363593827_div_16384, round32_27681796915_div_8192, round32_6761253_div_2, round32_99999999, round32_100000000, round32_33554432, round32_33554431]

/-- In binary32 the product of that matrix and the matrix `invert` wrote is not
the identity: two elements are off by `1/4` and one by `1/2`. -/
theorem multiplyR_round32_cancellation [FloorRing K] :
    multiplyR round32 (RMatrix.ctor 9001 9003 0 0 9010 9012 0 0 0 0 1 0 0 0 0 1 : RMatrix K)
      (RMatrix.ctor (-(751 / 2)) (3001 / 8) 0 0 (6150827 / 16384) (-(6144683 / 16384)) 0 0
        0 0 1 0 0 0 0 1)
      = RMatrix.ctor 1 (-(1 / 4)) 0 0 (1 / 4) (1 / 2) 0 0 0 0 1 0 0 0 0 1
    ∧ multiplyR round32
      (RMatrix.ctor (-(751 / 2)) (3001 / 8) 0 0 (6150827 / 16384) (-(6144683 / 16384)) 0 0
        0 0 1 0 0 0 0 1)
      (RMatrix.ctor 9001 9003 0 0 9010 9012 0 0 0 0 1 0 0 0 0 1 : RMatrix K)
      = RMatrix.ctor (3 / 4) 0 0 0 0 (3 / 4) 0 0 0 0 1 0 0 0 0 1 := by
  constructor
  · norm_num [multiplyR, RMath.multiplyMatrixR, fadd, fmul, RMatrix.ctor, RMatrix.set,
      round32_zero, round32_neg, round32_81117012, round32_81117030, round32_24, round32_1, round32_9012, round32_9010, round32_9003, round32_9001, round32_1_div_24, round32_25199379183_div_67108864, round32_50387573555_div_134217728, round32_100696853433_div_268435456, round32_100674483811_div_268435456, round32_33554433_div_33554432, round32_6759751_div_2, round32_55375895481_div_16384, round32_3383255, round32_13857813231_div_4096, round32_1_div_4, round32_27012001_div_8, round32_55320581049_div_16384, round32_13519505_div_4, round32_13843970799_div_4096, round32_1_div_2, round32_3_div_4, round32_55363593827_div_16384, round32_27681796915_div_8192, round32_6761253_div_2, round32_99999999, round32_100000000, round32_33554432, round32_33554431]
  · norm_num [multiplyR, RMath.multiplyMatrixR, fadd, fmul, RMatrix.ctor, RMatrix.set,
      round32_zero, round32_neg, round32_81117012, round32_81117030, round32_24, round32_1, round32_9012, round32_9010, round32_9003, round32_9001, round32_1_div_24, round32_25199379183_div_67108864, round32_50387573555_div_134217728, round32_100696853433_div_268435456, round32_100674483811_div_268435456, round32_33554433_div_33554432, round32_6759751_div_2, round32_55375895481_div_16384, round32_3383255, round32_13857813231_div_4096, round32_1_div_4, round32_27012001_div_8, round32_55320581049_div_16384, round32_13519505_div_4, round32_13843970799_div_4096, round32_1_div_2, round32_3_div_4, round32_55363593827_div_16384, round32_27681796915_div_8192, round32_6761253_div_2, round32_99999999, round32_100000000, round32_33554432, round32_33554431]

/-- In binary32 the determinant computed for the matrix with rows
`(10001, 10000, 0, 0)`, `(10000, 9999, 0, 0)`, `(0, 0, 1, 0)`, `(0, 0, 0, 1)` is `0`:
the product `10001 * 9999 = 99999999` is rounded to `100000000`. -/
theorem determinantR_round32_vanishing [FloorRing K] : determinantR round32
    (RMatrix.ctor 10001 10000 0 0 10000 9999 0 0 0 0 1 0 0 0 0 1 : RMatrix K) = 0 := by
  norm_num [determinantR, fadd, fsub, fmul, RMatrix.ctor, RMatrix.set, round32_zero, round32_neg,
    round32_81117012, round32_81117030, round32_24, round32_1, round32_9012, round32_9010, round32_9003, round32_9001, round32_1_div_24, round32_25199379183_div_67108864, round32_50387573555_div_134217728, round32_100696853433_div_268435456, round32_100674483811_div_268435456, round32_33554433_div_33554432, round32_6759751_div_2, round32_55375895481_div_16384, round32_3383255, round32_13857813231_div_4096, round32_1_div_4, round32_27012001_div_8, round32_55320581049_div_16384, round32_13519505_div_4, round32_13843970799_div_4096, round32_1_div_2, round32_3_div_4, round32_55363593827_div_16384, round32_27681796915_div_8192, round32_6761253_div_2, round32_99999999, round32_100000000, round32_33554432, round32_33554431]

/-- The exact determinant of the same matrix is `-1`. -/
theorem determinant_vanishing :
    (RMatrix.ctor 10001 10000 0 0 10000 9999 0 0 0 0 1 0 0 0 0 1 : RMatrix K).toMatrix.det
      = -1 := by
  rw [← determinant_eq_det]
  norm_num [determinant, RMatrix.ctor, RMatrix.set]

/-- In binary32 the determinant computed for the matrix with rows `(1, 0, 1, 0)`,
`(1, 0, 1, 0)`, `(0, 33554432, 0, 1)`, `(0, 1, 0, 1)` is `-1`: the partial sum
`-33554432 + 1` is rounded back to `-33554432`. -/
theorem determinantR_round32_equal_rows [FloorRing K] : determinantR round32
    (RMatrix.ctor 1 0 1 0 1 0 1 0 0 33554432 0 1 0 1 0 1 : RMatrix K) = -1 := by
  norm_num [determinantR, fadd, fsub, fmul, RMatrix.ctor, RMatrix.set, round32_zero, round32_neg,
    round32_81117012, round32_81117030, round32_24, round32_1, round32_9012, round32_9010, round32_9003, round32_9001, round32_1_div_24, round32_25199379183_div_67108864, round32_50387573555_div_134217728, round32_100696853433_div_268435456, round32_100674483811_div_268435456, round32_33554433_div_33554432, round32_6759751_div_2, round32_55375895481_div_16384, round32_3383255, round32_13857813231_div_4096, round32_1_div_4, round32_27012001_div_8, round32_55320581049_div_16384, round32_13519505_div_4, round32_13843970799_div_4096, round32_1_div_2, round32_3_div_4, round32_55363593827_div_16384, round32_27681796915_div_8192, round32_6761253_div_2, round32_99999999, round32_100000000, round32_33554432, round32_33554431]

/-- C1 as stated fails in binary32 arithmetic. The matrix with rows
`(9001, 9003, 0, 0)`, `(9010, 9012, 0, 0)`, `(0, 0, 1, 0)`, `(0, 0, 0, 1)` has
determinant `-18`; `invert` computes `-24`, returns true and writes a matrix whose
products with the input differ from the identity by `1/4` and more, far beyond a
per-element tolerance of `1e-4`. The matrix with rows `(10001, 10000, 0, 0)`,
`(10000, 9999, 0, 0)`, `(0, 0, 1, 0)`, `(0, 0, 0, 1)` has determinant `-1`, above the
tolerance, yet `invert` computes `0` and returns false. The tolerance is `2^-20`;
any tolerance below 1 gives the same. -/
theorem C1_counterexample_binary32_round_trip :
    (1 / 1048576 : ℚ) < |(RMatrix.ctor 9001 9003 0 0 9010 9012 0 0 0 0 1 0 0 0 0 1 : RMatrix ℚ).toMatrix.det|
    ∧ invertR round32 (1 / 1048576) (RMatrix.ctor 9001 9003 0 0 9010 9012 0 0 0 0 1 0 0 0 0 1 : RMatrix ℚ) RMatrix.zero
      = (true, (RMatrix.ctor (-(751 / 2)) (3001 / 8) 0 0 (6150827 / 16384) (-(6144683 / 16384)) 0 0
        0 0 1 0 0 0 0 1))
    ∧ multiplyR round32 (RMatrix.ctor 9001 9003 0 0 9010 9012 0 0 0 0 1 0 0 0 0 1 : RMatrix ℚ)
        (RMatrix.ctor (-(751 / 2)) (3001 / 8) 0 0 (6150827 / 16384) (-(6144683 / 16384)) 0 0
        0 0 1 0 0 0 0 1)
      = RMatrix.ctor 1 (-(1 / 4)) 0 0 (1 / 4) (1 / 2) 0 0 0 0 1 0 0 0 0 1
    ∧ multiplyR round32
        (RMatrix.ctor (-(751 / 2)) (3001 / 8) 0 0 (6150827 / 16384) (-(6144683 / 16384)) 0 0
        0 0 1 0 0 0 0 1)
        (RMatrix.ctor 9001 9003 0 0 9010 9012 0 0 0 0 1 0 0 0 0 1 : RMatrix ℚ)
      = RMatrix.ctor (3 / 4) 0 0 0 0 (3 / 4) 0 0 0 0 1 0 0 0 0 1
    ∧ (1 / 1048576 : ℚ) < |(RMatrix.ctor 10001 10000 0 0 10000 9999 0 0 0 0 1 0 0 0 0 1 : RMatrix ℚ).toMatrix.det|
    ∧ (invertR round32 (1 / 1048576) (RMatrix.ctor 10001 10000 0 0 10000 9999 0 0 0 0 1 0 0 0 0 1 : RMatrix ℚ) RMatrix.zero).1 = false := by
  refine ⟨?_, invertR_round32_cancellation, multiplyR_round32_cancellation.1,
    multiplyR_round32_cancellation.2, ?_, ?_⟩
  · rw [determinant_cancellation]
    norm_num
  · rw [determinant_vanishing]
    norm_num
  · rw [invertR_fst, determinantR_round32_vanishing]
    norm_num

/-- C1 amended: under any rounding of the float operations, `invert` returns true
exactly when the determinant it computed exceeds the tolerance in absolute
value; and when every operation is exact, the matrix it then writes is a
two-sided inverse of `M` for `multiply`, exactly. -/
theorem C1_invert_round_trip_in_exact_arithmetic (fl : K → K) (tol : K) (htol : 0 ≤ tol)
    (M dst : RMatrix K) :
    ((invertR fl tol M dst).1 = true ↔ tol < |determinantR fl M|)
    ∧ (tol < |determinantR (fun x => x) M| →
        (invertR (fun x => x) tol M dst).1 = true
        ∧ multiplyR (fun x => x) M (invertR (fun x => x) tol M dst).2 = RMatrix.identity
        ∧ multiplyR (fun x => x) (invertR (fun x => x) tol M dst).2 M = RMatrix.identity) := by
  constructor
  · rw [← not_le, ← invertR_fst fl tol M dst]
    cases (invertR fl tol M dst).1 <;> simp
  · intro hdet
    rw [determinantR_exact] at hdet
    rw [invertR_exact, multiplyR_exact, multiplyR_exact]
    exact invert_round_trip_exact tol htol M dst hdet

/-- C1 amended, at the tolerance `2^-20` and the matrix of scale 2, 3, 4 with
translation 1, 2, 3 over `ℚ`: the test on the determinant computed in binary32,
and the round trip when every operation is exact. -/
theorem C1_invert_round_trip_in_exact_arithmetic_witness :
    (0 : ℚ) ≤ 1 / 1048576
    ∧ ((invertR round32 (1 / 1048576 : ℚ) (RMatrix.ctor 2 0 0 1 0 3 0 2 0 0 4 3 0 0 0 1)
          RMatrix.zero).1 = true
        ↔ (1 / 1048576 : ℚ)
          < |determinantR round32 (RMatrix.ctor 2 0 0 1 0 3 0 2 0 0 4 3 0 0 0 1)|)
    ∧ multiplyR (fun x => x) (RMatrix.ctor 2 0 0 1 0 3 0 2 0 0 4 3 0 0 0 1)
        (invertR (fun x => x) (1 / 1048576 : ℚ) (RMatrix.ctor 2 0 0 1 0 3 0 2 0 0 4 3 0 0 0 1)
          RMatrix.zero).2 = RMatrix.identity :=
  ⟨by norm_num,
   (C1_invert_round_trip_in_exact_arithmetic round32 (1 / 1048576) (by norm_num)
     (RMatrix.ctor 2 0 0 1 0 3 0 2 0 0 4 3 0 0 0 1) RMatrix.zero).1,
   ((C1_invert_round_trip_in_exact_arithmetic round32 (1 / 1048576) (by norm_num)
     (RMatrix.ctor 2 0 0 1 0 3 0 2 0 0 4 3 0 0 0 1) RMatrix.zero).2
     (by norm_num [determinantR, fadd, fsub, fmul, RMatrix.ctor, RMatrix.set])).2.1⟩

/-- C3 as stated fails in binary32 arithmetic: in the matrix with rows
`(1, 0, 1, 0)`, `(1, 0, 1, 0)`, `(0, 33554432, 0, 1)`, `(0, 1, 0, 1)` the first two
rows are identical and the determinant is 0, but the determinant `invert`
computes is `-1` and `invert` returns true (tolerance `2^-20`; any tolerance
below 1 gives the same). -/
theorem C3_counterexample_binary32_equal_rows :
    (∀ c : Fin 4, (RMatrix.ctor 1 0 1 0 1 0 1 0 0 33554432 0 1 0 1 0 1 : RMatrix ℚ).elem 0 c
        = (RMatrix.ctor 1 0 1 0 1 0 1 0 0 33554432 0 1 0 1 0 1 : RMatrix ℚ).elem 1 c)
    ∧ (RMatrix.ctor 1 0 1 0 1 0 1 0 0 33554432 0 1 0 1 0 1 : RMatrix ℚ).toMatrix.det = 0
    ∧ determinantR round32 (RMatrix.ctor 1 0 1 0 1 0 1 0 0 33554432 0 1 0 1 0 1 : RMatrix ℚ) = -1
    ∧ (invertR round32 (1 / 1048576) (RMatrix.ctor 1 0 1 0 1 0 1 0 0 33554432 0 1 0 1 0 1 : RMatrix ℚ)
        RMatrix.zero).1 = true := by
  refine ⟨?_, ?_, determinantR_round32_equal_rows, ?_⟩
  · intro c
    fin_cases c <;> rfl
  · rw [← determinant_eq_det]
    exact determinant_eq_zero_of_rows_eq _ 0 1 (by decide) (by intro c; fin_cases c <;> rfl)
  · have h := invertR_fst round32 (1 / 1048576 : ℚ)
      (RMatrix.ctor 1 0 1 0 1 0 1 0 0 33554432 0 1 0 1 0 1 : RMatrix ℚ) RMatrix.zero
    rw [determinantR_round32_equal_rows] at h
    cases hb : (invertR round32 (1 / 1048576 : ℚ)
      (RMatrix.ctor 1 0 1 0 1 0 1 0 0 33554432 0 1 0 1 0 1 : RMatrix ℚ) RMatrix.zero).1
    · rw [hb] at h
      have := h.mp rfl
      norm_num at this
    · rfl

/-- C3 amended: for any non-negative tolerance, under a rounding that keeps zero,
commutes with negation and fixes its own values (binary32 rounding does, as
long as nothing overflows), `invert` returns false on the all-zero matrix and on every matrix in which two
of the logical rows 1, 2, 3 are identical; when every operation is exact it
returns false on every matrix in which any two logical rows are identical. -/
theorem C3_invert_false_on_zero_and_equal_rows (fl : K → K) (hfl0 : fl 0 = 0)
    (hneg : ∀ x, fl (-x) = -fl x) (hidem : ∀ x, fl (fl x) = fl x) (tol : K) (htol : 0 ≤ tol)
    (dst : RMatrix K) :
    (invertR fl tol RMatrix.zero dst).1 = false
    ∧ (∀ (m : RMatrix K) (i j : Fin 4), i ≠ j → i ≠ 0 → j ≠ 0 →
        (∀ c : Fin 4, m.elem i c = m.elem j c) → (invertR fl tol m dst).1 = false)
    ∧ (∀ (m : RMatrix K) (i j : Fin 4), i ≠ j → (∀ c : Fin 4, m.elem i c = m.elem j c) →
        (invertR (fun x => x) tol m dst).1 = false) := by
  refine ⟨?_, ?_, ?_⟩
  · rw [invertR_fst, determinantR_zero fl hfl0, abs_zero]
    exact htol
  · intro m i j hij hi hj hrow
    rw [invertR_fst, determinantR_eq_zero_of_rows_eq fl hfl0 hneg hidem m i j hij hi hj hrow,
      abs_zero]
    exact htol
  · intro m i j hij hrow
    rw [invertR_exact]
    exact (invert_false_on_singular_exact tol htol dst).2 m i j hij hrow

/-- C3 amended, in binary32 over `ℚ` with tolerance `2^-20`: the zero matrix and a
matrix whose rows 2 and 3 are both `(5, 6, 7, 8)`. -/
theorem C3_invert_false_on_zero_and_equal_rows_witness :
    round32 (0 : ℚ) = 0
    ∧ (∀ x : ℚ, round32 (-x) = -round32 x)
    ∧ (∀ x : ℚ, round32 (round32 x) = round32 x)
    ∧ (0 : ℚ) ≤ 1 / 1048576
    ∧ (invertR round32 (1 / 1048576 : ℚ) RMatrix.zero RMatrix.identity).1 = false
    ∧ (invertR round32 (1 / 1048576 : ℚ) (RMatrix.ctor 1 2 3 4 0 1 0 9 5 6 7 8 5 6 7 8)
        RMatrix.identity).1 = false :=
  ⟨round32_zero, round32_neg, round32_round32, by norm_num,
   (C3_invert_false_on_zero_and_equal_rows round32 round32_zero round32_neg round32_round32
     (1 / 1048576) (by norm_num) RMatrix.identity).1,
   (C3_invert_false_on_zero_and_equal_rows round32 round32_zero round32_neg round32_round32
     (1 / 1048576) (by norm_num) RMatrix.identity).2.1
     (RMatrix.ctor 1 2 3 4 0 1 0 9 5 6 7 8 5 6 7 8) 2 3 (by decide) (by decide) (by decide)
     (by intro c; fin_cases c <;> rfl)⟩

/-- C19 as stated fails in binary32 arithmetic: for the matrix with rows
`(9001, 9003, 0, 0)`, `(9010, 9012, 0, 0)`, `(0, 0, 1, 0)`, `(0, 0, 0, 1)` the value
`determinant()` computes is `-24`, the determinant of the matrix is `-18`. -/
theorem C19_counterexample_binary32_determinant :
    determinantR round32 (RMatrix.ctor 9001 9003 0 0 9010 9012 0 0 0 0 1 0 0 0 0 1 : RMatrix ℚ) = -24
    ∧ (RMatrix.ctor 9001 9003 0 0 9010 9012 0 0 0 0 1 0 0 0 0 1 : RMatrix ℚ).toMatrix.det = -18 :=
  ⟨determinantR_round32_cancellation, determinant_cancellation⟩

/-- C19 amended: when every operation is exact, the value
`a0*b5 - a1*b4 + a2*b3 + a3*b2 - a4*b1 + a5*b0` that `determinant()` builds from
the twelve 2x2 sub-determinants is the determinant of the 4x4 matrix whose
`(row r, col c)` entry is `m[c*4 + r]`; and under any rounding of the float
operations the value `determinant()` computes is the value `invert` compares
against the tolerance. -/
theorem C19_determinant_is_det_in_exact_arithmetic (fl : K → K) (tol : K) (m dst : RMatrix K) :
    determinantR (fun x => x) m = m.toMatrix.det
    ∧ ((invertR fl tol m dst).1 = false ↔ |determinantR fl m| ≤ tol) :=
  ⟨(determinantR_exact m).trans (determinant_eq_det m), invertR_fst fl tol m dst⟩

/-! ## decompose: the quaternion extraction never divides by zero -/

/-- The quaternion extraction consults `sqrt` only at `decomposeRotationArg`. -/
theorem decomposeRotation_congr_sqrt (f g : K → K) (xaxis yaxis zaxis : RVector3 K)
    (h : f (decomposeRotationArg xaxis yaxis zaxis) = g (decomposeRotationArg xaxis yaxis zaxis)) :
    decomposeRotation f xaxis yaxis zaxis = decomposeRotation g xaxis yaxis zaxis := by
  unfold decomposeRotationArg at h
  unfold decomposeRotation
  simp only at h ⊢
  split_ifs at h ⊢ <;> simp only [h]

/-- With a rotation output and every scale factor at or above the tolerance,
`decompose` returns true and writes the quaternion extracted from the axes with
the scale factored out. -/
theorem decompose_of_pass (sqrt : K → K) (tol : K) (m : RMatrix K)
    (scale : Option (RVector3 K)) (q0 : RQuaternion K) (translation : Option (RVector3 K))
    (hpass : ¬ ((decomposeScale sqrt m).x < tol ∨ (decomposeScale sqrt m).y < tol
      ∨ |(decomposeScale sqrt m).z| < tol)) :
    (decompose sqrt tol m scale (some q0) translation).ret = true
    ∧ (decompose sqrt tol m scale (some q0) translation).rotation
      = some (decomposeRotation sqrt (decomposeAxes sqrt m).1 (decomposeAxes sqrt m).2.1
          (decomposeAxes sqrt m).2.2) := by
  unfold decomposeScale at hpass
  unfold decompose decomposeAxes decomposeScale
  cases scale <;> simp [hpass]

/-- The argument of `sqrt` in the branch taken is positive, whatever the axes. -/
theorem decomposeRotationArg_pos (xaxis yaxis zaxis : RVector3 K) :
    0 < decomposeRotationArg xaxis yaxis zaxis := by
  unfold decomposeRotationArg
  simp only [gt_iff_lt]
  split_ifs with h1 h2 h3
  · linarith
  · linarith [h2.1, h2.2]
  · push_neg at h1 h2
    by_contra hc
    push_neg at hc
    by_cases hxy : yaxis.y < xaxis.x
    · linarith [h2 hxy]
    · linarith
  · push_neg at h1 h2 h3
    by_contra hc
    push_neg at hc
    by_cases hxy : yaxis.y < xaxis.x
    · linarith [h2 hxy]
    · linarith

/-- C20: for a positive tolerance and every matrix that passes the scale check of
line 476, `decompose` extracts the quaternion from the axes divided by their
(non-zero) scale factors; the argument of `sqrt` in the branch taken is strictly
positive, so `sqrt` of it and `s = 0.5 / sqrt(...)` are non-zero and neither
`0.5 / sqrt(...)` nor `0.25 / s` divides by zero; and the extraction consults
`sqrt` at that argument only. The axes need not be orthonormal. -/
theorem C20_decompose_no_division_by_zero (sqrt : K → K)
    (hpos : ∀ a : K, 0 < a → 0 < sqrt a) (tol : K) (htol : 0 < tol) (m : RMatrix K)
    (scale : Option (RVector3 K)) (q0 : RQuaternion K) (translation : Option (RVector3 K))
    (hpass : ¬ ((decomposeScale sqrt m).x < tol ∨ (decomposeScale sqrt m).y < tol
      ∨ |(decomposeScale sqrt m).z| < tol)) :
    (decompose sqrt tol m scale (some q0) translation).rotation
      = some (decomposeRotation sqrt (decomposeAxes sqrt m).1 (decomposeAxes sqrt m).2.1
          (decomposeAxes sqrt m).2.2)
    ∧ (decomposeScale sqrt m).x ≠ 0 ∧ (decomposeScale sqrt m).y ≠ 0
    ∧ (decomposeScale sqrt m).z ≠ 0
    ∧ 0 < decomposeRotationArg (decomposeAxes sqrt m).1 (decomposeAxes sqrt m).2.1
          (decomposeAxes sqrt m).2.2
    ∧ sqrt (decomposeRotationArg (decomposeAxes sqrt m).1 (decomposeAxes sqrt m).2.1
          (decomposeAxes sqrt m).2.2) ≠ 0
    ∧ (1 / 2) / sqrt (decomposeRotationArg (decomposeAxes sqrt m).1 (decomposeAxes sqrt m).2.1
          (decomposeAxes sqrt m).2.2) ≠ 0
    ∧ ∀ g : K → K,
        g (decomposeRotationArg (decomposeAxes sqrt m).1 (decomposeAxes sqrt m).2.1
            (decomposeAxes sqrt m).2.2)
          = sqrt (decomposeRotationArg (decomposeAxes sqrt m).1 (decomposeAxes sqrt m).2.1
            (decomposeAxes sqrt m).2.2) →
        decomposeRotation g (decomposeAxes sqrt m).1 (decomposeAxes sqrt m).2.1
            (decomposeAxes sqrt m).2.2
          = decomposeRotation sqrt (decomposeAxes sqrt m).1 (decomposeAxes sqrt m).2.1
            (decomposeAxes sqrt m).2.2 := by
  push_neg at hpass
  obtain ⟨hx, hy, hz⟩ := hpass
  have harg := decomposeRotationArg_pos (decomposeAxes sqrt m).1 (decomposeAxes sqrt m).2.1
    (decomposeAxes sqrt m).2.2
  have hs := hpos _ harg
  refine ⟨?_, ?_, ?_, ?_, harg, ne_of_gt hs, ?_, ?_⟩
  · exact (decompose_of_pass sqrt tol m scale q0 translation
      (by push_neg; exact ⟨hx, hy, hz⟩)).2
  · exact ne_of_gt (lt_of_lt_of_le htol hx)
  · exact ne_of_gt (lt_of_lt_of_le htol hy)
  · intro h0
    rw [h0, abs_zero] at hz
    exact absurd htol (not_lt.mpr hz)
  · exact div_ne_zero (by norm_num) (ne_of_gt hs)
  · intro g hg
    exact decomposeRotation_congr_sqrt g sqrt _ _ _ hg

/-- C20 over `ℝ` with `Real.sqrt` on a matrix whose axes `(3, 4, 0)`, `(0, 5, 0)`,
`(0, 0, 1)` are neither orthogonal nor of unit length. -/
theorem C20_decompose_no_division_by_zero_witness :
    0 < decomposeRotationArg
        (decomposeAxes Real.sqrt (RMatrix.ctor 3 0 0 0 4 5 0 0 0 0 1 0 0 0 0 1)).1
        (decomposeAxes Real.sqrt (RMatrix.ctor 3 0 0 0 4 5 0 0 0 0 1 0 0 0 0 1)).2.1
        (decomposeAxes Real.sqrt (RMatrix.ctor 3 0 0 0 4 5 0 0 0 0 1 0 0 0 0 1)).2.2 :=
  have h5 : Real.sqrt (3 * 3 + 4 * 4 + 0 * 0) = 5 := by
    rw [show (3 * 3 + 4 * 4 + 0 * 0 : ℝ) = 5 * 5 by norm_num]
    exact Real.sqrt_mul_self (by norm_num)
  have h5' : Real.sqrt (0 * 0 + 5 * 5 + 0 * 0) = 5 := by
    rw [show (0 * 0 + 5 * 5 + 0 * 0 : ℝ) = 5 * 5 by norm_num]
    exact Real.sqrt_mul_self (by norm_num)
  have h1 : Real.sqrt (0 * 0 + 0 * 0 + 1 * 1) = 1 := by
    rw [show (0 * 0 + 0 * 0 + 1 * 1 : ℝ) = 1 * 1 by norm_num]
    exact Real.sqrt_mul_self (by norm_num)
  (C20_decompose_no_division_by_zero Real.sqrt (fun _ h => Real.sqrt_pos.mpr h)
    (1 / 1000000) (by norm_num) (RMatrix.ctor 3 0 0 0 4 5 0 0 0 0 1 0 0 0 0 1)
    (some ⟨0, 0, 0⟩) ⟨0, 0, 0, 0⟩ (some ⟨0, 0, 0⟩)
    (by
      simp only [decomposeScale, RVector3.length, RMatrix.ctor, RMatrix.set,
        RMatrix.determinant, h5, h5', h1]
      norm_num)).2.2.2.2.1

/-! ## createRotation(quaternion) is a proper rotation -/

/-- The entries of the 3x3 block. -/
theorem block3_apply {F : Type} (a : RMatrix F) (r c : Fin 3) :
    a.block3 r c = a.elem r.castSucc c.castSucc := rfl

/-- The columns of the 3x3 block of `createRotation(q)` are orthonormal when `q`
is a unit quaternion. -/
theorem createRotation_block3_transpose_mul (q : RQuaternion K)
    (hq : q.x * q.x + q.y * q.y + q.z * q.z + q.w * q.w = 1) :
    (createRotation q).block3.transpose * (createRotation q).block3 = 1 := by
  ext i j
  rw [Matrix.mul_apply, Fin.sum_univ_three]
  simp only [Matrix.transpose_apply, block3_apply]
  fin_cases i <;> fin_cases j
  · show (createRotation q).m0 * (createRotation q).m0 + (createRotation q).m1 * (createRotation q).m1
      + (createRotation q).m2 * (createRotation q).m2 = 1
    simp only [createRotation]
    linear_combination (4 * (q.y * q.y + q.z * q.z)) * hq
  · show (createRotation q).m0 * (createRotation q).m4 + (createRotation q).m1 * (createRotation q).m5
      + (createRotation q).m2 * (createRotation q).m6 = 0
    simp only [createRotation]
    linear_combination (-4 * q.x * q.y) * hq
  · show (createRotation q).m0 * (createRotation q).m8 + (createRotation q).m1 * (createRotation q).m9
      + (createRotation q).m2 * (createRotation q).m10 = 0
    simp only [createRotation]
    linear_combination (-4 * q.x * q.z) * hq
  · show (createRotation q).m4 * (createRotation q).m0 + (createRotation q).m5 * (createRotation q).m1
      + (createRotation q).m6 * (createRotation q).m2 = 0
    simp only [createRotation]
    linear_combination (-4 * q.x * q.y) * hq
  · show (createRotation q).m4 * (createRotation q).m4 + (createRotation q).m5 * (createRotation q).m5
      + (createRotation q).m6 * (createRotation q).m6 = 1
    simp only [createRotation]
    linear_combination (4 * (q.x * q.x + q.z * q.z)) * hq
  · show (createRotation q).m4 * (createRotation q).m8 + (createRotation q).m5 * (createRotation q).m9
      + (createRotation q).m6 * (createRotation q).m10 = 0
    simp only [createRotation]
    linear_combination (-4 * q.y * q.z) * hq
  · show (createRotation q).m8 * (createRotation q).m0 + (createRotation q).m9 * (createRotation q).m1
      + (createRotation q).m10 * (createRotation q).m2 = 0
    simp only [createRotation]
    linear_combination (-4 * q.x * q.z) * hq
  · show (createRotation q).m8 * (createRotation q).m4 + (createRotation q).m9 * (createRotation q).m5
      + (createRotation q).m10 * (createRotation q).m6 = 0
    simp only [createRotation]
    linear_combination (-4 * q.y * q.z) * hq
  · show (createRotation q).m8 * (createRotation q).m8 + (createRotation q).m9 * (createRotation q).m9
      + (createRotation q).m10 * (createRotation q).m10 = 1
    simp only [createRotation]
    linear_combination (4 * (q.x * q.x + q.y * q.y)) * hq

/-- The value of `determinant()` on `createRotation(q)` is 1 when `q` is a unit
quaternion. -/
theorem createRotation_determinant (q : RQuaternion K)
    (hq : q.x * q.x + q.y * q.y + q.z * q.z + q.w * q.w = 1) :
    (createRotation q).determinant = 1 := by
  simp only [determinant, createRotation]
  linear_combination (4 * (q.x * q.x + q.y * q.y + q.z * q.z)) * hq

/-- C21: for every quaternion `q` with `x^2 + y^2 + z^2 + w^2 = 1`, the 3x3 block
`R` of `createRotation(q)` satisfies `Rᵀ R = I` (and `R Rᵀ = I`), `determinant()`
of the result is 1, the translation components `m[12], m[13], m[14]` are 0 and
the bottom row `m[3], m[7], m[11], m[15]` is `(0, 0, 0, 1)`. -/
theorem C21_createRotation_proper_rotation (q : RQuaternion K)
    (hq : q.x * q.x + q.y * q.y + q.z * q.z + q.w * q.w = 1) :
    (createRotation q).block3.transpose * (createRotation q).block3 = 1
    ∧ (createRotation q).block3 * (createRotation q).block3.transpose = 1
    ∧ (createRotation q).determinant = 1
    ∧ ((createRotation q).m12 = 0 ∧ (createRotation q).m13 = 0 ∧ (createRotation q).m14 = 0)
    ∧ ((createRotation q).m3 = 0 ∧ (createRotation q).m7 = 0 ∧ (createRotation q).m11 = 0
        ∧ (createRotation q).m15 = 1) :=
  ⟨createRotation_block3_transpose_mul q hq,
    Matrix.mul_eq_one_comm.mp (createRotation_block3_transpose_mul q hq),
    createRotation_determinant q hq, ⟨rfl, rfl, rfl⟩, ⟨rfl, rfl, rfl, rfl⟩⟩

/-- C21 over `ℚ` at the unit quaternion `(2/3, -2/3, 1/3, 0)`. -/
theorem C21_createRotation_proper_rotation_witness :
    (2 / 3 : ℚ) * (2 / 3) + (-2 / 3) * (-2 / 3) + (1 / 3) * (1 / 3) + 0 * 0 = 1
    ∧ (createRotation (⟨2 / 3, -2 / 3, 1 / 3, 0⟩ : RQuaternion ℚ)).block3.transpose
        * (createRotation (⟨2 / 3, -2 / 3, 1 / 3, 0⟩ : RQuaternion ℚ)).block3 = 1
    ∧ (createRotation (⟨2 / 3, -2 / 3, 1 / 3, 0⟩ : RQuaternion ℚ)).determinant = 1 :=
  ⟨by norm_num,
   (C21_createRotation_proper_rotation (⟨2 / 3, -2 / 3, 1 / 3, 0⟩ : RQuaternion ℚ)
     (by norm_num)).1,
   (C21_createRotation_proper_rotation (⟨2 / 3, -2 / 3, 1 / 3, 0⟩ : RQuaternion ℚ)
     (by norm_num)).2.2.1⟩

/-! ## createLookAt -/

/-- C22: for every eye, target and up vector, whatever `normalize` makes of the
three axes, the view matrix `createLookAt(eye, target, up)` sends the eye to the
origin under `transformPoint`, and its bottom row `m[3], m[7], m[11], m[15]` is
`(0, 0, 0, 1)`. -/
theorem C22_createLookAt_sends_eye_to_origin (normalize : RVector3 K → RVector3 K)
    (eye target up : RVector3 K) :
    transformPoint (createLookAt normalize eye target up) eye = { x := 0, y := 0, z := 0 }
    ∧ (createLookAt normalize eye target up).m3 = 0
    ∧ (createLookAt normalize eye target up).m7 = 0
    ∧ (createLookAt normalize eye target up).m11 = 0
    ∧ (createLookAt normalize eye target up).m15 = 1 := by
  refine ⟨?_, rfl, rfl, rfl, rfl⟩
  simp only [transformPoint, transformVectorXYZW, RMath.transformVector4, createLookAt,
    RVector3.dot]
  refine RVector3.ext ?_ ?_ ?_ <;>
  dsimp only <;>
  ring

end rocket
